import Mathlib

/-!
DRBD replication core: bitmap, state machine, transfer log, epochs, UUID handshake.

A shallow embedding of the parts of `drbd_bitmap.c`, `drbd_main.c` and
`drbd_receiver.c` that carry the invariants of the replication core, and
theorems about them.

Conventions of the embedding

* The build is the 64-bit little-endian one with 4 KiB pages:
  `BITS_PER_LONG = 64`, `LN2_BPL = 6`, `PAGE_SHIFT = 12`, `lel_to_cpu` is the
  identity.
* An `unsigned long` is a `Nat`; the stored counter `bm_set` is updated modulo
  `2 ^ 64` exactly as the C code does.  The `int` count of `bm_change_bits_to`
  is an `Int` kept in the range of an `int` (`int_wrap`).  Local `unsigned
  long` accumulators that are bounded by the number of bits of the bitmap are
  plain `Nat`.
* The page array `bm_pages` maps a page number to a page, and a page maps a
  word index below `LWPP` to a word.  A page number outside the array
  (`BUG_ON` in `bm_map_paddr`), a `NULL` page array and a word index outside the
  mapped page all make the operation return `none`.
* Locking (`bm_lock`, `bm_change`, `req_lock`, `epoch_lock`) is not modelled:
  every function is run to completion on its own.
-/

namespace Drbd

/-! ## Constants of the build -/

/-- Number of bits of an `unsigned long`. -/
def BITS_PER_LONG : Nat := 64

/-- Binary logarithm of `BITS_PER_LONG`. -/
def LN2_BPL : Nat := 6

/-- Binary logarithm of the page size. -/
def PAGE_SHIFT : Nat := 12

/-- Size of a page in bytes. -/
def PAGE_SIZE : Nat := 1 <<< PAGE_SHIFT

/-- Size of an `unsigned long` in bytes. -/
def SIZEOF_LONG : Nat := 8

/-- Long words per page: `#define LWPP (PAGE_SIZE/sizeof(long))`. -/
def LWPP : Nat := PAGE_SIZE / SIZEOF_LONG

/-- Word offset within its page: `#define MLPP(X) ((X) & ((PAGE_SIZE/sizeof(long))-1))`. -/
def MLPP (x : Nat) : Nat := x &&& (PAGE_SIZE / SIZEOF_LONG - 1)

/-- Mask of a bit number within its page: `#define BPP_MASK ((1UL << (PAGE_SHIFT+3)) - 1)`. -/
def BPP_MASK : Nat := (1 <<< (PAGE_SHIFT + 3)) - 1

/-- Number of values of an `unsigned long` (and of a `sector_t`). -/
def ULONG_MOD : Nat := 2 ^ BITS_PER_LONG

/-- The value `~0UL`. -/
def ULONG_MAX : Nat := ULONG_MOD - 1

/-- Bitwise complement of an `unsigned long`. -/
def ulong_not (x : Nat) : Nat := ULONG_MAX ^^^ x

/-- The kernel macro `ALIGN(x, a)` for a power of two `a`, in `unsigned long`
arithmetic: `(x + a - 1) & ~(a - 1)`. -/
def ALIGN (x a : Nat) : Nat := (x + (a - 1)) % ULONG_MOD / a * a

/-- Sectors covered by one bitmap bit (one bit per 4 KiB block). -/
def BM_SECT_PER_BIT : Nat := 8

/-- Bit number of a sector: `BM_SECT_TO_BIT(x) = x >> (BM_BLOCK_SIZE_B - 9)`. -/
def BM_SECT_TO_BIT (x : Nat) : Nat := x >>> 3

/-- The guard value written behind the last word of the bitmap. -/
def DRBD_MAGIC : Nat := 0x83740267

/-- The error number `ENOMEM`. -/
def ENOMEM : Int := 12

/-- The library function `hweight_long`: number of set bits of a word. -/
def hweight_long (w : Nat) : Nat :=
  (List.range BITS_PER_LONG).countP (fun i => w.testBit i)

/-- The word that `memset` with byte `c` leaves in every `unsigned long`. -/
def memset_long (c : Nat) : Nat := (c % 256) * 0x0101010101010101

/-! ## The bitmap -/

/-- A page of the bitmap: `LWPP` words, addressed by their index. -/
abbrev Page := Nat → Nat

/-- The fields of `struct drbd_bitmap` that the bitmap operations read or
write.  `bm_pages = none` is the `NULL` page array. -/
structure drbd_bitmap where
  bm_pages : Option (Nat → Page)
  bm_fo : Nat
  bm_set : Nat
  bm_bits : Nat
  bm_words : Nat
  bm_number_of_pages : Nat
  bm_dev_capacity : Nat

/-- The bitmap that `drbd_bm_init` leaves: `kzalloc` zeroes every field. -/
def drbd_bm_init : drbd_bitmap :=
  { bm_pages := none, bm_fo := 0, bm_set := 0, bm_bits := 0, bm_words := 0,
    bm_number_of_pages := 0, bm_dev_capacity := 0 }

/-- `bm_map_paddr`: the page that holds word `offset`, given by its number in
the page array. -/
def bm_map_paddr (b : drbd_bitmap) (offset : Nat) : Option Nat :=
  let page_nr := offset >>> (PAGE_SHIFT - LN2_BPL + 3)
  if page_nr ≥ b.bm_number_of_pages then none
  else
    match b.bm_pages with
    | none => none
    | some _ => some page_nr

/-- Read of the word `p_addr[idx]` of a mapped page. -/
def load (b : drbd_bitmap) (p_addr idx : Nat) : Option Nat :=
  if idx < LWPP then
    match b.bm_pages with
    | none => none
    | some pages => some (pages p_addr idx)
  else none

/-- Write of the word `p_addr[idx]` of a mapped page. -/
def store (b : drbd_bitmap) (p_addr idx v : Nat) : Option drbd_bitmap :=
  if idx < LWPP then
    match b.bm_pages with
    | none => none
    | some pages =>
      let page := Function.update (pages p_addr) idx v
      some { b with bm_pages := some (Function.update pages p_addr page) }
  else none

/-- `bm_clear_surplus`: masks out the bits behind `bm_bits` and returns the
number of bits cleared. -/
def bm_clear_surplus (b : drbd_bitmap) : Option (drbd_bitmap × Nat) := do
  let mask := (1 <<< (b.bm_bits &&& (BITS_PER_LONG - 1))) - 1
  let w := b.bm_bits >>> LN2_BPL
  let p_addr ← bm_map_paddr b w
  let bm := MLPP w
  let (b1, cleared, w1, bm1) ←
    (if w < b.bm_words then do
      let x ← load b p_addr bm
      let b1 ← store b p_addr bm (x &&& mask)
      pure (b1, hweight_long (x &&& ulong_not mask), w + 1, bm + 1)
    else pure (b, 0, w, bm) : Option (drbd_bitmap × Nat × Nat × Nat))
  if w1 < b1.bm_words then do
    let x ← load b1 p_addr bm1
    let b2 ← store b1 p_addr bm1 0
    pure (b2, cleared + hweight_long x)
  else pure (b1, cleared)

/-- `bm_set_surplus`: sets the bits behind `bm_bits`. -/
def bm_set_surplus (b : drbd_bitmap) : Option drbd_bitmap := do
  let mask := (1 <<< (b.bm_bits &&& (BITS_PER_LONG - 1))) - 1
  let w := b.bm_bits >>> LN2_BPL
  let p_addr ← bm_map_paddr b w
  let bm := MLPP w
  let (b1, w1, bm1) ←
    (if w < b.bm_words then do
      let x ← load b p_addr bm
      let b1 ← store b p_addr bm (x ||| ulong_not mask)
      pure (b1, w + 1, bm + 1)
    else pure (b, w, bm) : Option (drbd_bitmap × Nat × Nat))
  if w1 < b1.bm_words then store b1 p_addr bm1 ULONG_MAX
  else pure b1

/-- Inner loop of `__bm_count_bits`: `while (i--) bits += hweight_long(*bm++)`. -/
def bm_count_words (b : drbd_bitmap) (p_addr : Nat) : Nat → Nat → Nat → Option Nat
  | 0, _, bits => some bits
  | i + 1, bm, bits => do
    let x ← load b p_addr bm
    bm_count_words b p_addr i (bm + 1) (bits + hweight_long x)

/-- Outer loop of `__bm_count_bits`, `while (offset < b->bm_words)`; every
round advances `offset`, so `bm_words` rounds suffice. -/
def bm_count_loop (b : drbd_bitmap) : Nat → Nat → Nat → Option Nat
  | 0, _, bits => some bits
  | fuel + 1, offset, bits =>
    if offset < b.bm_words then do
      let do_now := min (b.bm_words - offset) LWPP
      let p_addr ← bm_map_paddr b offset
      let bits1 ← bm_count_words b p_addr do_now (MLPP offset) bits
      bm_count_loop b fuel (offset + do_now) bits1
    else some bits

/-- `bm_count_bits`, that is `__bm_count_bits(b, 0)`. -/
def bm_count_bits (b : drbd_bitmap) : Option Nat :=
  bm_count_loop b b.bm_words 0 0

/-- The library call `memset(bm, c, n * sizeof(long))` on a mapped page. -/
def memset (p_addr c : Nat) : Nat → drbd_bitmap → Nat → Option drbd_bitmap
  | 0, b, _ => some b
  | n + 1, b, bm => do
    let b1 ← store b p_addr bm (memset_long c)
    memset p_addr c n b1 (bm + 1)

/-- Loop of `bm_memset`, `while (offset < end)`; every round advances
`offset`, so `end - offset` rounds suffice. -/
def bm_memset_loop (c end_ : Nat) : Nat → drbd_bitmap → Nat → Option drbd_bitmap
  | 0, b, _ => some b
  | fuel + 1, b, offset =>
    if offset < end_ then do
      let do_now := min (ALIGN (offset + 1) LWPP) end_ - offset
      let p_addr ← bm_map_paddr b offset
      let bm := MLPP offset
      let b1 ← (if bm + do_now > LWPP then some b else memset p_addr c do_now b bm)
      bm_memset_loop c end_ fuel b1 (offset + do_now)
    else some b

/-- `bm_memset`: offset and len in long words. -/
def bm_memset (b : drbd_bitmap) (offset c len : Nat) : Option drbd_bitmap :=
  let end_ := offset + len
  if end_ > b.bm_words then some b
  else bm_memset_loop c end_ len b offset

/-- An entry of a page-pointer array under construction in
`bm_realloc_pages`: the pointer copied from slot `i` of the old array, a newly
allocated page, or `NULL`. -/
inductive page_ref where
  | old (i : Nat)
  | fresh (i : Nat)
  | null

/-- `bm_realloc_pages`.  The outer `none` is a `BUG_ON`, the inner `none` the
`NULL` result of a failed allocation.  `alloc = none` says that `vmalloc` or
`alloc_page` fails; `alloc = some f` gives the (arbitrary) content of the
pages handed out by `alloc_page`. -/
def bm_realloc_pages (old_pages : Option (Nat → Page)) (have_ want : Nat)
    (alloc : Option (Nat → Page)) : Option (Option (Nat → page_ref)) :=
  if have_ = 0 ∧ old_pages.isSome then none
  else if have_ ≠ 0 ∧ old_pages.isNone then none
  else if have_ = want then
    some (old_pages.map (fun _ i => page_ref.old i))
  else
    match alloc with
    | none => some none
    | some _ =>
      if want ≥ have_ then
        some (some (fun i =>
          if i < have_ then page_ref.old i
          else if i < want then page_ref.fresh i else page_ref.null))
      else
        some (some (fun i => if i < want then page_ref.old i else page_ref.null))

/-- The pages an array of page pointers refers to: an old pointer refers to
the very page of the old array (with its present content), a new one to the
page handed out by the allocator. -/
def resolve_pages (np : Nat → page_ref) (opages : Option (Nat → Page))
    (alloc : Option (Nat → Page)) : Nat → Page :=
  fun i =>
    match np i with
    | page_ref.old j =>
      match opages with
      | some pages => pages j
      | none => fun _ => 0
    | page_ref.fresh j =>
      match alloc with
      | some f => f j
      | none => fun _ => 0
    | page_ref.null => fun _ => 0

/-- `drbd_bm_resize`, returning the error code and the bitmap.  The
`D_ASSERT` on the meta-data size and the release of memory have no effect on
the bitmap fields. -/
def drbd_bm_resize (b : drbd_bitmap) (capacity : Nat) (alloc : Option (Nat → Page)) :
    Option (Int × drbd_bitmap) :=
  if capacity = b.bm_dev_capacity then some (0, b)
  else if capacity = 0 then
    some (0, { b with bm_pages := none, bm_number_of_pages := 0, bm_fo := 0, bm_set := 0,
                      bm_bits := 0, bm_words := 0, bm_dev_capacity := 0 })
  else do
    let bits := BM_SECT_TO_BIT (ALIGN capacity BM_SECT_PER_BIT)
    let words := ALIGN bits 64 >>> LN2_BPL
    let want := ALIGN ((words + 1) * SIZEOF_LONG) PAGE_SIZE >>> PAGE_SHIFT
    let have_ := b.bm_number_of_pages
    let npages ←
      (if want = have_ then some (b.bm_pages.map (fun _ i => page_ref.old i))
       else bm_realloc_pages b.bm_pages have_ want alloc)
    match npages with
    | none => some (-ENOMEM, b)
    | some np => do
      let opages := b.bm_pages
      let owords := b.bm_words
      let obits := b.bm_bits
      let growing := decide (bits > obits)
      let b1 ← (if opages.isSome then bm_set_surplus b else some b)
      let b2 : drbd_bitmap :=
        { b1 with bm_pages := some (resolve_pages np b1.bm_pages alloc),
                  bm_number_of_pages := want, bm_bits := bits, bm_words := words,
                  bm_dev_capacity := capacity }
      let b3 ←
        (if growing then do
          let b3 ← bm_memset b2 owords 0xff (words - owords)
          some { b3 with bm_set := (b3.bm_set + (bits - obits)) % ULONG_MOD }
        else some b2)
      let p_addr ← bm_map_paddr b3 words
      let b4 ← store b3 p_addr (MLPP words) DRBD_MAGIC
      let (b5, _) ← bm_clear_surplus b4
      let b6 ←
        (if !growing then do
          let n ← bm_count_bits b5
          some { b5 with bm_set := n }
        else some b5)
      some (0, b6)

/-- `drbd_bm_total_weight`. -/
def drbd_bm_total_weight (b : drbd_bitmap) : Nat :=
  match b.bm_pages with
  | none => 0
  | some _ => b.bm_set

/-- `drbd_bm_bits`. -/
def drbd_bm_bits (b : drbd_bitmap) : Nat := b.bm_bits

/-- `__test_and_set_bit(nr, p_addr)` on a mapped page: the page with the bit
set and the old value of the bit. -/
def test_and_set_bit (b : drbd_bitmap) (nr p_addr : Nat) : Option (drbd_bitmap × Bool) := do
  let x ← load b p_addr (nr / BITS_PER_LONG)
  let mask := 1 <<< (nr % BITS_PER_LONG)
  let b1 ← store b p_addr (nr / BITS_PER_LONG) (x ||| mask)
  some (b1, decide (x &&& mask ≠ 0))

/-- `__test_and_clear_bit(nr, p_addr)` on a mapped page. -/
def test_and_clear_bit (b : drbd_bitmap) (nr p_addr : Nat) : Option (drbd_bitmap × Bool) := do
  let x ← load b p_addr (nr / BITS_PER_LONG)
  let mask := 1 <<< (nr % BITS_PER_LONG)
  let b1 ← store b p_addr (nr / BITS_PER_LONG) (x &&& ulong_not mask)
  some (b1, decide (x &&& mask ≠ 0))

/-- `test_bit(nr, p_addr)` on a mapped page. -/
def test_bit (b : drbd_bitmap) (nr p_addr : Nat) : Option Bool := do
  let x ← load b p_addr (nr / BITS_PER_LONG)
  some (decide (1 &&& (x >>> (nr % BITS_PER_LONG)) ≠ 0))

/-- The value of an `int` after an addition or a negation with the
mathematical result `z`: the result modulo `2^32` in the range from `-2^31` to
`2^31 - 1` (the 32-bit two's complement arithmetic the kernel is built for). -/
def int_wrap (z : Int) : Int := (z + 2147483648) % 4294967296 - 2147483648

/-- The local variables of `bm_change_bits_to` that live across the rounds of
its loop: the bitmap, the mapped page, `last_page_nr` (`none` is `-1UL`) and
the count `c`. -/
structure change_bits_vars where
  b : drbd_bitmap
  p_addr : Option Nat
  last_page_nr : Option Nat
  c : Int

/-- One round of the loop of `bm_change_bits_to`, for bit `bitnr`. -/
def bm_change_bit (val : Bool) (st : change_bits_vars) (bitnr : Nat) :
    Option change_bits_vars :=
  if bitnr ≥ st.b.bm_bits then some st
  else do
    let offset := bitnr >>> LN2_BPL
    let page_nr := offset >>> (PAGE_SHIFT - LN2_BPL + 3)
    let p_addr ←
      (if some page_nr ≠ st.last_page_nr then bm_map_paddr st.b offset else st.p_addr)
    if val then do
      let (b1, old) ← test_and_set_bit st.b (bitnr &&& BPP_MASK) p_addr
      some { b := b1, p_addr := some p_addr, last_page_nr := some page_nr,
             c := int_wrap (st.c + (if old = false then 1 else 0)) }
    else do
      let (b1, old) ← test_and_clear_bit st.b (bitnr &&& BPP_MASK) p_addr
      some { b := b1, p_addr := some p_addr, last_page_nr := some page_nr,
             c := int_wrap (st.c - (if old = true then 1 else 0)) }

/-- The loop of `bm_change_bits_to`: `for (bitnr = s; bitnr <= e; bitnr++)`,
as `n` rounds starting at `bitnr`. -/
def bm_change_loop (val : Bool) : Nat → change_bits_vars → Nat → Option change_bits_vars
  | 0, st, _ => some st
  | n + 1, st, bitnr => do
    let st1 ← bm_change_bit val st bitnr
    bm_change_loop val n st1 (bitnr + 1)

/-- `bm_change_bits_to`: the bitmap afterwards and the value returned, the
count `c` of the bits actually changed (counted up for `val != 0`, down for
`val == 0`).  The count is an `int`, kept with `int_wrap`; `b->bm_set += c` adds
it, converted to `unsigned long`, modulo `2^64`. -/
def bm_change_bits_to (b : drbd_bitmap) (s e : Nat) (val : Bool) :
    Option (drbd_bitmap × Int) :=
  if b.bm_pages.isNone then some (b, 0)
  else do
    let st ← bm_change_loop val (e + 1 - s)
      { b := b, p_addr := none, last_page_nr := none, c := 0 } s
    let b1 := st.b
    some ({ b1 with bm_set := (((b1.bm_set : Int) + st.c) % (ULONG_MOD : Int)).toNat }, st.c)

/-- `drbd_bm_set_bits`: returns number of bits changed 0 -> 1. -/
def drbd_bm_set_bits (b : drbd_bitmap) (s e : Nat) : Option (drbd_bitmap × Int) :=
  bm_change_bits_to b s e true

/-- `drbd_bm_clear_bits`: returns number of bits changed 1 -> 0. -/
def drbd_bm_clear_bits (b : drbd_bitmap) (s e : Nat) : Option (drbd_bitmap × Int) :=
  (bm_change_bits_to b s e false).map (fun r => (r.1, int_wrap (-r.2)))

/-- `drbd_bm_test_bit`: 1 for a set bit, 0 for a clear one, -1 for the first
out of bounds access. -/
def drbd_bm_test_bit (b : drbd_bitmap) (bitnr : Nat) : Option Int :=
  if b.bm_pages.isNone then some 0
  else if bitnr < b.bm_bits then do
    let offset := bitnr >>> LN2_BPL
    let p_addr ← bm_map_paddr b offset
    let i ← test_bit b (bitnr &&& BPP_MASK) p_addr
    some (if i then 1 else 0)
  else if bitnr = b.bm_bits then some (-1)
  else some 0

/-- A call on the bitmap: a resize (with what the allocator does during the
call), a range set or a range clear. -/
inductive bm_op where
  | resize (capacity : Nat) (alloc : Option (Nat → Page))
  | set_bits (s e : Nat)
  | clear_bits (s e : Nat)

/-- One call of a sequence: a successful `drbd_bm_resize` (return value 0) of
a `sector_t` capacity, or a range operation with `s <= e < bm_bits`.  Any
other call ends the sequence with `none`. -/
def bm_apply (b : drbd_bitmap) : bm_op → Option drbd_bitmap
  | bm_op.resize capacity alloc =>
    if capacity < ULONG_MOD then
      match drbd_bm_resize b capacity alloc with
      | some (err, b1) => if err = 0 then some b1 else none
      | none => none
    else none
  | bm_op.set_bits s e =>
    if s ≤ e ∧ e < b.bm_bits then (drbd_bm_set_bits b s e).map Prod.fst else none
  | bm_op.clear_bits s e =>
    if s ≤ e ∧ e < b.bm_bits then (drbd_bm_clear_bits b s e).map Prod.fst else none

/-- A sequence of calls, from left to right. -/
def bm_run : drbd_bitmap → List bm_op → Option drbd_bitmap
  | b, [] => some b
  | b, op :: ops => (bm_apply b op).bind (fun b1 => bm_run b1 ops)

/-- The number of bit indices `i < bm_bits` for which `drbd_bm_test_bit`
returns 1. -/
def bm_popcount (b : drbd_bitmap) : Nat :=
  (List.range b.bm_bits).countP (fun i => decide (drbd_bm_test_bit b i = some 1))

/-! ## Abstract view of the bitmap memory -/

/-- The word of the bitmap at word offset `w`. -/
def wordAt (b : drbd_bitmap) (w : Nat) : Nat :=
  match b.bm_pages with
  | some pages => pages (w / LWPP) (w % LWPP)
  | none => 0

/-- The bit of the bitmap at bit number `i`. -/
def bitAt (b : drbd_bitmap) (i : Nat) : Bool :=
  (wordAt b (i / BITS_PER_LONG)).testBit (i % BITS_PER_LONG)

/-- Number of `i < n` with `p i`. -/
def countBits (p : Nat → Bool) (n : Nat) : Nat := (List.range n).countP p

/-- Whether a call changes fewer than `2^31` bits: a range set call finds
fewer than `2^31` clear bits in its range, a range clear call fewer than `2^31`
set bits. -/
def flips_ok (b : drbd_bitmap) : bm_op → Bool
  | bm_op.resize _ _ => true
  | bm_op.set_bits s e =>
    decide (countBits (fun j => !bitAt b (s + j)) (e + 1 - s) < 2147483648)
  | bm_op.clear_bits s e =>
    decide (countBits (fun j => bitAt b (s + j)) (e + 1 - s) < 2147483648)

/-- Whether every call of a sequence changes fewer than `2^31` bits of the
bitmap it is made on. -/
def run_flips_ok : drbd_bitmap → List bm_op → Bool
  | _, [] => true
  | b, op :: ops =>
    flips_ok b op &&
      (match bm_apply b op with
       | some b1 => run_flips_ok b1 ops
       | none => true)

/-- Sum of the weights of the words `f 0, ..., f (n - 1)`. -/
def sumWeight (f : Nat → Nat) (n : Nat) : Nat :=
  ((List.range n).map (fun w => hweight_long (f w))).sum

/-- The bitmap with word `w` replaced by `v`. -/
def poke (b : drbd_bitmap) (w v : Nat) : drbd_bitmap :=
  { b with bm_pages := b.bm_pages.map (fun pages =>
      Function.update pages (w / LWPP) (Function.update (pages (w / LWPP)) (w % LWPP) v)) }

/-- Storage layout of an allocated bitmap: the page array is there, it has
room for `bm_words` words and the guard word, and `bm_words` is `bm_bits`
rounded up to whole 64-bit words. -/
structure bm_geom (b : drbd_bitmap) : Prop where
  pages : b.bm_pages.isSome = true
  room : b.bm_words + 1 ≤ b.bm_number_of_pages * 512
  words : b.bm_words = (b.bm_bits + 63) / 64

/-- The mask `(1UL << (bm_bits & (BITS_PER_LONG-1))) - 1` of the bits of the
last word that are in use. -/
def surplus_mask (b : drbd_bitmap) : Nat := (1 <<< (b.bm_bits % 64)) - 1

/-- What `bm_clear_surplus` leaves of a bitmap with the layout `bm_geom`. -/
def cleared_surplus (b : drbd_bitmap) : drbd_bitmap :=
  if b.bm_bits / 64 < b.bm_words then
    poke b (b.bm_bits / 64) (wordAt b (b.bm_bits / 64) &&& surplus_mask b)
  else b

/-- What `bm_set_surplus` leaves of a bitmap with the layout `bm_geom`. -/
def set_surplus (b : drbd_bitmap) : drbd_bitmap :=
  if b.bm_bits / 64 < b.bm_words then
    poke b (b.bm_bits / 64) (wordAt b (b.bm_bits / 64) ||| ulong_not (surplus_mask b))
  else b

/-- The bitmap with the `n` words from word `w` on replaced by `v`. -/
def fill (v : Nat) : Nat → drbd_bitmap → Nat → drbd_bitmap
  | 0, b, _ => b
  | n + 1, b, w => fill v n (poke b w v) (w + 1)

/-- Fields other than the page contents agree. -/
structure same_fields (b c : drbd_bitmap) : Prop where
  fo : c.bm_fo = b.bm_fo
  set : c.bm_set = b.bm_set
  bits : c.bm_bits = b.bm_bits
  words : c.bm_words = b.bm_words
  number_of_pages : c.bm_number_of_pages = b.bm_number_of_pages
  dev_capacity : c.bm_dev_capacity = b.bm_dev_capacity
  pages : c.bm_pages.isSome = b.bm_pages.isSome

/-- Consistency of a bitmap: the page array is `NULL` exactly for capacity 0,
the sizes fit the capacity and the page array, the bits behind `bm_bits` are
clear, and `bm_set` counts the set bits below `bm_bits`. -/
structure bm_inv (b : drbd_bitmap) : Prop where
  null_empty : b.bm_pages.isSome = false → b.bm_number_of_pages = 0
  room : b.bm_pages.isSome = true → b.bm_words + 1 ≤ b.bm_number_of_pages * 512
  words : b.bm_words = (b.bm_bits + 63) / 64
  bits : b.bm_bits = BM_SECT_TO_BIT (ALIGN b.bm_dev_capacity BM_SECT_PER_BIT)
  pages_cap : b.bm_pages.isSome = false ↔ b.bm_dev_capacity = 0
  surplus : ∀ i, b.bm_bits ≤ i → i < b.bm_words * 64 → bitAt b i = false
  count : b.bm_set = countBits (bitAt b) b.bm_bits

/-- The bitmap with bit `i` set (`val = true`) or cleared (`val = false`). -/
def flip_bit (val : Bool) (b : drbd_bitmap) (i : Nat) : drbd_bitmap :=
  poke b (i / 64)
    (if val then wordAt b (i / 64) ||| (1 <<< (i % 64))
     else wordAt b (i / 64) &&& ulong_not (1 <<< (i % 64)))

/-- Contribution of one bit to the count `c` of `bm_change_bits_to`. -/
def flip_delta (val old : Bool) : Int :=
  if val then (if old = false then 1 else 0) else -(if old = true then 1 else 0)

/-- Bitmap and count after `n` rounds of the loop of `bm_change_bits_to` from
bit `i` on, all bits being below `bm_bits`. -/
def change_spec (val : Bool) : Nat → drbd_bitmap → Int → Nat → drbd_bitmap × Int
  | 0, b, c, _ => (b, c)
  | n + 1, b, c, i => change_spec val n (flip_bit val b i) (c + flip_delta val (bitAt b i)) (i + 1)

/-- The bitmap right after `drbd_bm_resize` has installed the new page array
and the new sizes (`b1` is the bitmap after `bm_set_surplus`). -/
def resized_pages (b1 : drbd_bitmap) (np : Nat → page_ref) (alloc : Option (Nat → Page))
    (capacity bits : Nat) : drbd_bitmap :=
  { bm_pages := some (resolve_pages np b1.bm_pages alloc), bm_fo := b1.bm_fo,
    bm_set := b1.bm_set, bm_bits := bits, bm_words := (bits + 63) / 64,
    bm_number_of_pages := ((bits + 63) / 64 + 512) / 512, bm_dev_capacity := capacity }

/-- The bitmap with another value of the counter `bm_set`. -/
def with_set (b : drbd_bitmap) (n : Nat) : drbd_bitmap :=
  { bm_pages := b.bm_pages, bm_fo := b.bm_fo, bm_set := n, bm_bits := b.bm_bits,
    bm_words := b.bm_words, bm_number_of_pages := b.bm_number_of_pages,
    bm_dev_capacity := b.bm_dev_capacity }

/-- The bitmap `c` is what a successful `drbd_bm_resize` to `capacity` (that is
to `bits` bits) makes of the consistent bitmap `b`: the bits below both sizes
are kept, new bits are set, the surplus bits are clear and `bm_set` is right. -/
structure resized (b c : drbd_bitmap) (capacity bits : Nat) : Prop where
  geom : bm_geom c
  bm_bits : c.bm_bits = bits
  bm_dev_capacity : c.bm_dev_capacity = capacity
  bm_fo : c.bm_fo = b.bm_fo
  kept : ∀ i, i < bits → bitAt c i = if i < b.bm_bits then bitAt b i else true
  surplus : ∀ i, bits ≤ i → i < c.bm_words * 64 → bitAt c i = false
  count : c.bm_set = countBits (bitAt c) bits

/-- A sample sequence of calls: the bitmap of an 800-sector device is
allocated, ranges are cleared and set, the device grows to 1600 sectors,
shrinks to 400 sectors and grows again beyond one bitmap page. -/
def sample_ops : List bm_op :=
  [bm_op.resize 800 (some (fun p i => 0xdeadbeef00000000 + p + i)),
   bm_op.clear_bits 3 70,
   bm_op.set_bits 60 64,
   bm_op.resize 1600 (some (fun _ _ => 0)),
   bm_op.resize 400 none,
   bm_op.resize 262152 (some (fun p i => p * i)),
   bm_op.clear_bits 32760 32768]

/-- The bitmap after the sample sequence of calls. -/
def sample_bitmap : drbd_bitmap := (bm_run drbd_bm_init sample_ops).getD drbd_bm_init

/-- A small sample: the bitmap of an 800-sector device (100 bits) with the
bits 3 to 70 cleared. -/
def small_ops : List bm_op :=
  [bm_op.resize 800 (some (fun p i => 0xdeadbeef00000000 + p + i)), bm_op.clear_bits 3 70]

/-- The bitmap after `small_ops`. -/
def small_bitmap : drbd_bitmap := (bm_run drbd_bm_init small_ops).getD drbd_bm_init

/-- Role `Unknown`. -/
def Unknown : Nat := 0
/-- Role `Primary`. -/
def Primary : Nat := 1
/-- Role `Secondary`. -/
def Secondary : Nat := 2

/-- Connection state `StandAlone`. -/
def StandAlone : Nat := 0
/-- Connection state `Disconnecting`. -/
def Disconnecting : Nat := 1
/-- Connection state `Unconnected`. -/
def Unconnected : Nat := 2
/-- Connection state `Timeout`. -/
def Timeout : Nat := 3
/-- Connection state `BrokenPipe`. -/
def BrokenPipe : Nat := 4
/-- Connection state `NetworkFailure`. -/
def NetworkFailure : Nat := 5
/-- Connection state `ProtocolError`. -/
def ProtocolError : Nat := 6
/-- Connection state `TearDown`. -/
def TearDown : Nat := 7
/-- Connection state `WFConnection`. -/
def WFConnection : Nat := 8
/-- Connection state `WFReportParams`. -/
def WFReportParams : Nat := 9
/-- Connection state `Connected`. -/
def Connected : Nat := 10
/-- Connection state `StartingSyncS`. -/
def StartingSyncS : Nat := 11
/-- Connection state `StartingSyncT`. -/
def StartingSyncT : Nat := 12
/-- Connection state `WFBitMapS`. -/
def WFBitMapS : Nat := 13
/-- Connection state `WFBitMapT`. -/
def WFBitMapT : Nat := 14
/-- Connection state `WFSyncUUID`. -/
def WFSyncUUID : Nat := 15
/-- Connection state `SyncSource`. -/
def SyncSource : Nat := 16
/-- Connection state `SyncTarget`. -/
def SyncTarget : Nat := 17
/-- Connection state `VerifyS`. -/
def VerifyS : Nat := 18
/-- Connection state `VerifyT`. -/
def VerifyT : Nat := 19
/-- Connection state `PausedSyncS`. -/
def PausedSyncS : Nat := 20
/-- Connection state `PausedSyncT`. -/
def PausedSyncT : Nat := 21
/-- The value `conn_mask`, all bits of the 5-bit field `conn`. -/
def conn_mask : Nat := 31

/-- Disk state `Diskless`. -/
def Diskless : Nat := 0
/-- Disk state `Attaching`. -/
def Attaching : Nat := 1
/-- Disk state `Failed`. -/
def Failed : Nat := 2
/-- Disk state `Negotiating`. -/
def Negotiating : Nat := 3
/-- Disk state `Inconsistent`. -/
def Inconsistent : Nat := 4
/-- Disk state `Outdated`. -/
def Outdated : Nat := 5
/-- Disk state `DUnknown`. -/
def DUnknown : Nat := 6
/-- Disk state `Consistent`. -/
def Consistent : Nat := 7
/-- Disk state `UpToDate`. -/
def UpToDate : Nat := 8

/-- Fencing policy `DontCare`. -/
def DontCare : Nat := 0
/-- Fencing policy `Resource`. -/
def Resource : Nat := 1
/-- Fencing policy `Stonith`. -/
def Stonith : Nat := 2

/-- Return code `SS_CW_NoNeed`. -/
def SS_CW_NoNeed : Int := 4
/-- Return code `SS_CW_Success`. -/
def SS_CW_Success : Int := 3
/-- Return code `SS_NothingToDo`. -/
def SS_NothingToDo : Int := 2
/-- Return code `SS_Success`. -/
def SS_Success : Int := 1
/-- Return code `SS_UnknownError`. -/
def SS_UnknownError : Int := 0
/-- Return code `SS_TwoPrimaries`. -/
def SS_TwoPrimaries : Int := -1
/-- Return code `SS_NoUpToDateDisk`. -/
def SS_NoUpToDateDisk : Int := -2
/-- Return code `SS_BothInconsistent`. -/
def SS_BothInconsistent : Int := -4
/-- Return code `SS_SyncingDiskless`. -/
def SS_SyncingDiskless : Int := -5
/-- Return code `SS_ConnectedOutdates`. -/
def SS_ConnectedOutdates : Int := -6
/-- Return code `SS_PrimaryNOP`. -/
def SS_PrimaryNOP : Int := -7
/-- Return code `SS_ResyncRunning`. -/
def SS_ResyncRunning : Int := -8
/-- Return code `SS_AlreadyStandAlone`. -/
def SS_AlreadyStandAlone : Int := -9
/-- Return code `SS_CW_FailedByPeer`. -/
def SS_CW_FailedByPeer : Int := -10
/-- Return code `SS_IsDiskLess`. -/
def SS_IsDiskLess : Int := -11
/-- Return code `SS_DeviceInUse`. -/
def SS_DeviceInUse : Int := -12
/-- Return code `SS_NoNetConfig`. -/
def SS_NoNetConfig : Int := -13
/-- Return code `SS_NoVerifyAlg`. -/
def SS_NoVerifyAlg : Int := -14
/-- Return code `SS_NeedConnection`. -/
def SS_NeedConnection : Int := -15
/-- Return code `SS_LowerThanOutdated`. -/
def SS_LowerThanOutdated : Int := -16
/-- Return code `SS_InTransientState`. -/
def SS_InTransientState : Int := -17
/-- Return code `SS_ConcurrentStChg`. -/
def SS_ConcurrentStChg : Int := -18
/-- Return code `SS_NotSupported`. -/
def SS_NotSupported : Int := -19

/-- Flag `ChgStateHard` of `enum chg_state_flags`. -/
def ChgStateHard : Nat := 1
/-- Flag `ChgStateVerbose` of `enum chg_state_flags`. -/
def ChgStateVerbose : Nat := 2
/-- Flag `ChgWaitComplete` of `enum chg_state_flags`. -/
def ChgWaitComplete : Nat := 4
/-- Flag `ChgSerialize` of `enum chg_state_flags`. -/
def ChgSerialize : Nat := 8

/-- Index `Current` of a UUID array (`enum UuidIndex`). -/
def Current : Nat := 0
/-- Index `Bitmap` of a UUID array. -/
def Bitmap : Nat := 1
/-- Index `History_start` of a UUID array. -/
def History_start : Nat := 2
/-- Index `History_end` of a UUID array. -/
def History_end : Nat := 3
/-- Index `UUID_SIZE`: the peer sends its count of changed bits in this slot. -/
def UUID_SIZE : Nat := 4
/-- Index `UUID_FLAGS`: the slot of the peer's flags. -/
def UUID_FLAGS : Nat := 5

/-- The marker `UUID_JUST_CREATED` of a freshly created meta-data area
(`drbd_int.h`). -/
def UUID_JUST_CREATED : Nat := 4

/-- Write ordering method `WO_none` (`enum write_ordering_e`). -/
def WO_none : Nat := 0
/-- Write ordering method `WO_drain_io`. -/
def WO_drain_io : Nat := 1
/-- Write ordering method `WO_bdev_flush`. -/
def WO_bdev_flush : Nat := 2
/-- Write ordering method `WO_bio_barrier`. -/
def WO_bio_barrier : Nat := 3

/-- The events of `enum epoch_event`, without the flag `EV_cleanup`, which is
passed along as a boolean. -/
inductive epoch_event where
  | EV_put
  | EV_got_barrier_nr
  | EV_barrier_done
  | EV_became_last
deriving DecidableEq, Repr

/-- The results of `drbd_may_finish_epoch` (`enum finish_epoch`). -/
inductive finish_epoch where
  | FE_still_live
  | FE_destroyed
  | FE_recycled
deriving DecidableEq, Repr

/-- The word `flags` of an epoch, one field for each of its bits; the word is
zero if all of them are `false`. -/
structure epoch_flags where
  DE_BARRIER_IN_NEXT_EPOCH_ISSUED : Bool
  DE_BARRIER_IN_NEXT_EPOCH_DONE : Bool
  DE_CONTAINS_A_BARRIER : Bool
  DE_HAVE_BARRIER_NUMBER : Bool
  DE_IS_FINISHING : Bool
deriving DecidableEq, Repr

/-- An epoch, `struct drbd_epoch`, without its list links: the chain is the
list `epoch_list` of the device.  The counters `epoch_size` and `active` are
`atomic_t`; they stay far from the bounds of `int`. -/
structure drbd_epoch where
  barrier_nr : Nat
  epoch_size : Int
  active : Int
  flags : epoch_flags
deriving DecidableEq, Repr

/-- The bit fields of `union drbd_state_t`.  The 11 unused bits of the word
`i` are zero in every state, mask and value that the code builds, so two
states have the same `i` exactly if they agree in every field. -/
structure drbd_state_t where
  role : Nat
  peer : Nat
  conn : Nat
  disk : Nat
  pdsk : Nat
  susp : Nat
  aftr_isp : Nat
  peer_isp : Nat
  user_isp : Nat
deriving DecidableEq, Repr

/-- A barrier of the transfer log: `br_number` (an `unsigned int`), the number
of requests `n_req` and whether the barrier work is queued (`w.cb != NULL`). -/
structure drbd_barrier where
  br_number : Nat
  n_req : Nat
  w_cb : Bool
deriving DecidableEq, Repr

/-- The policies of `enum after_sb_handler`; the same enumerators serve for
`after_sb_0p`, `after_sb_1p`, `after_sb_2p` and `rr_conflict`. -/
inductive after_sb_handler where
  | Disconnect
  | DiscardYoungerPri
  | DiscardOlderPri
  | DiscardZeroChg
  | DiscardLeastChg
  | DiscardLocal
  | DiscardRemote
  | Consensus
  | DiscardSecondary
  | CallHelper
  | Violently
deriving DecidableEq, Repr

/-- Meta-data flag `MDF_Consistent` (`drbd_int.h`). -/
def MDF_Consistent : Nat := 1
/-- Meta-data flag `MDF_PrimaryInd`. -/
def MDF_PrimaryInd : Nat := 2
/-- Meta-data flag `MDF_ConnectedInd`. -/
def MDF_ConnectedInd : Nat := 4
/-- Meta-data flag `MDF_FullSync`. -/
def MDF_FullSync : Nat := 8
/-- Meta-data flag `MDF_WasUpToDate`. -/
def MDF_WasUpToDate : Nat := 16
/-- Meta-data flag `MDF_PeerOutDated`. -/
def MDF_PeerOutDated : Nat := 32

/-- The fields of `struct drbd_conf` that the state functions and the transfer
log read or write.

* `fencing` is `mdev->bc->dc.fencing`; it is read only after `inc_local`.
* `have_net_conf` is the outcome of `inc_net(mdev)` (defined in `drbd_int.h`):
  whether the device has a network configuration; `two_primaries` is
  `mdev->net_conf->two_primaries`.
* `verify_alg` is the byte `mdev->sync_conf.verify_alg[0]`.
* `tl` is the chain of barriers from `oldest_barrier` (head) to
  `newest_barrier` (last); the empty list is `oldest_barrier == NULL`.
* `create_barrier`, `crashed_primary` and `discard_concurrent` are the bits
  `CREATE_BARRIER`, `CRASHED_PRIMARY` and `DISCARD_CONCURRENT` of
  `mdev->flags`.
* `md_uuid` is the array `mdev->bc->md.uuid`, `p_uuid` the array that
  `mdev->p_uuid` points to; the entries are `u64`.
* `epoch_list` is the ring of epochs, written from the oldest epoch to
  `mdev->current_epoch`, which is the last entry: `list_add` puts a new epoch
  behind the current one and makes it the current one, so the list successor
  of the current epoch is the oldest one.  An epoch pointer is a position in
  this list.
* `epochs` is the counter `mdev->epochs` (an `unsigned int`), `unacked_cnt`
  the counter that `dec_unacked` decrements.
* `b_acks` is the sequence of barrier acks sent by `drbd_send_b_ack`, as
  pairs of barrier number and epoch size.
* `data_work` is the queue `mdev->data.work` as far as it holds flush works
  (`w_flush`): the positions of their epochs.

* `agreed_pro_version` is an `int`.
* `no_disk_barrier`, `no_disk_flush` and `no_disk_drain` are the settings of
  `mdev->bc->dc`, `md_flags` is `mdev->bc->md.flags`, `comm_bm_set` is
  `mdev->comm_bm_set`.
* `after_sb_0p`, `after_sb_1p`, `after_sb_2p`, `rr_conflict`, `always_asbp` and
  `want_lose` are the settings of `mdev->net_conf`.
* `disk_ro` is the read-only flag of `mdev->vdisk` that `set_disk_ro` writes;
  `uuids_sent` and `states_sent` count the calls of `drbd_send_uuids` and
  `drbd_send_state`.

Timers, threads and the queue of after-state-change work are left out: no
function modelled here reads them. -/
structure drbd_conf where
  state : drbd_state_t
  new_state_tmp : drbd_state_t
  fencing : Nat
  md_uuid : Nat → Nat
  p_uuid : Nat → Nat
  crashed_primary : Bool
  discard_concurrent : Bool
  ed_uuid : Nat
  epoch_list : List drbd_epoch
  epochs : Nat
  write_ordering : Nat
  unacked_cnt : Int
  b_acks : List (Nat × Int)
  data_work : List Nat
  have_net_conf : Bool
  two_primaries : Bool
  open_cnt : Nat
  verify_alg : Nat
  agreed_pro_version : Int
  tl : List drbd_barrier
  create_barrier : Bool
  ap_pending_cnt : Int
  no_disk_barrier : Bool
  no_disk_flush : Bool
  no_disk_drain : Bool
  md_flags : Nat
  comm_bm_set : Nat
  after_sb_0p : after_sb_handler
  after_sb_1p : after_sb_handler
  after_sb_2p : after_sb_handler
  rr_conflict : after_sb_handler
  always_asbp : Bool
  want_lose : Bool
  disk_ro : Bool
  uuids_sent : Nat
  states_sent : Nat

/-- `inc_local_if_state(mdev, mins)`: local I/O is allowed if the disk state
is at least `mins`. -/
def inc_local_if_state (mdev : drbd_conf) (mins : Nat) : Bool :=
  decide (mdev.state.disk ≥ mins)

/-- `inc_local(mdev)`, that is `inc_local_if_state(mdev, Inconsistent)`. -/
def inc_local (mdev : drbd_conf) : Bool := inc_local_if_state mdev Inconsistent

/-- `inc_net(mdev)`: whether the device has a network configuration. -/
def inc_net (mdev : drbd_conf) : Bool := mdev.have_net_conf

/-- `is_valid_state`. -/
def is_valid_state (mdev : drbd_conf) (ns : drbd_state_t) : Int :=
  let fp := if inc_local mdev then mdev.fencing else DontCare
  let rv := if inc_net mdev ∧ ¬ mdev.two_primaries ∧ ns.role = Primary ∧ ns.peer = Primary
            then SS_TwoPrimaries else SS_Success
  if rv ≤ 0 then rv
  else if ns.role = Secondary ∧ mdev.open_cnt ≠ 0 then SS_DeviceInUse
  else if ns.role = Primary ∧ ns.conn < Connected ∧ ns.disk < UpToDate then SS_NoUpToDateDisk
  else if fp ≥ Resource ∧ ns.role = Primary ∧ ns.conn < Connected ∧ ns.pdsk ≥ DUnknown
    then SS_PrimaryNOP
  else if ns.role = Primary ∧ ns.disk ≤ Inconsistent ∧ ns.pdsk ≤ Inconsistent
    then SS_NoUpToDateDisk
  else if ns.conn > Connected ∧ ns.disk < UpToDate ∧ ns.pdsk < UpToDate
    then SS_BothInconsistent
  else if ns.conn > Connected ∧ (ns.disk = Diskless ∨ ns.pdsk = Diskless)
    then SS_SyncingDiskless
  else if (ns.conn = Connected ∨ ns.conn = WFBitMapS ∨ ns.conn = SyncSource ∨
           ns.conn = PausedSyncS) ∧ ns.disk = Outdated then SS_ConnectedOutdates
  else if (ns.conn = VerifyS ∨ ns.conn = VerifyT) ∧ mdev.verify_alg = 0 then SS_NoVerifyAlg
  else if (ns.conn = VerifyS ∨ ns.conn = VerifyT) ∧ mdev.agreed_pro_version < 88
    then SS_NotSupported
  else rv

/-- `is_valid_state_transition`: every test overwrites `rv`, the last one that
holds decides. -/
def is_valid_state_transition (_mdev : drbd_conf) (ns os : drbd_state_t) : Int :=
  let rv := SS_Success
  let rv := if (ns.conn = StartingSyncT ∨ ns.conn = StartingSyncS) ∧ os.conn > Connected
            then SS_ResyncRunning else rv
  let rv := if ns.conn = Disconnecting ∧ os.conn = StandAlone then SS_AlreadyStandAlone else rv
  let rv := if ns.disk > Attaching ∧ os.disk = Diskless then SS_IsDiskLess else rv
  let rv := if ns.conn = WFConnection ∧ os.conn < Unconnected then SS_NoNetConfig else rv
  let rv := if ns.disk = Outdated ∧ os.disk < Outdated ∧ os.disk ≠ Attaching
            then SS_LowerThanOutdated else rv
  let rv := if ns.conn = Disconnecting ∧ os.conn = Unconnected then SS_InTransientState else rv
  let rv := if ns.conn = os.conn ∧ ns.conn = WFReportParams then SS_InTransientState else rv
  let rv := if (ns.conn = VerifyS ∨ ns.conn = VerifyT) ∧ os.conn < Connected
            then SS_NeedConnection else rv
  let rv := if (ns.conn = VerifyS ∨ ns.conn = VerifyT) ∧ ns.conn ≠ os.conn ∧ os.conn > Connected
            then SS_ResyncRunning else rv
  let rv := if (ns.conn = StartingSyncS ∨ ns.conn = StartingSyncT) ∧ os.conn < Connected
            then SS_NeedConnection else rv
  rv

/-- Early state sanitising, first block: "Dissalow the invalidate command to
connect". -/
def sanitise_invalidate (os ns : drbd_state_t) : drbd_state_t :=
  if (ns.conn = StartingSyncS ∨ ns.conn = StartingSyncT) ∧ os.conn < Connected then
    { ns with conn := os.conn, pdsk := os.pdsk }
  else ns

/-- Early state sanitising: "Dissalow Network errors to configure a device's
network part". -/
def sanitise_net_error (os ns : drbd_state_t) : drbd_state_t :=
  if (ns.conn ≥ Timeout ∧ ns.conn ≤ TearDown) ∧ os.conn ≤ Disconnecting then
    { ns with conn := os.conn }
  else ns

/-- Early state sanitising: "After a network error (+TearDown) only
Unconnected or Disconnecting can follow". -/
def sanitise_after_net_error (os ns : drbd_state_t) : drbd_state_t :=
  if os.conn ≥ Timeout ∧ os.conn ≤ TearDown ∧ ns.conn ≠ Unconnected ∧ ns.conn ≠ Disconnecting then
    { ns with conn := os.conn }
  else ns

/-- Early state sanitising: "After Disconnecting only StandAlone may follow". -/
def sanitise_disconnecting (os ns : drbd_state_t) : drbd_state_t :=
  if os.conn = Disconnecting ∧ ns.conn ≠ StandAlone then { ns with conn := os.conn }
  else ns

/-- Early state sanitising: below `Connected` nothing is known about the
peer. -/
def sanitise_peer (ns : drbd_state_t) : drbd_state_t :=
  if ns.conn < Connected then
    { ns with peer_isp := 0, peer := Unknown,
              pdsk := if ns.pdsk > DUnknown ∨ ns.pdsk < Inconsistent then DUnknown else ns.pdsk }
  else ns

/-- Early state sanitising: a diskless node without connection. -/
def sanitise_diskless (ns : drbd_state_t) : drbd_state_t :=
  if ns.conn ≤ Disconnecting ∧ ns.disk = Diskless then { ns with pdsk := DUnknown }
  else ns

/-- Early state sanitising: a resync is aborted when a disk is lost
(`warn_sync_abort`). -/
def sanitise_sync_abort (os ns : drbd_state_t) : drbd_state_t :=
  if os.conn > Connected ∧ ns.conn > Connected ∧ (ns.disk ≤ Failed ∨ ns.pdsk ≤ Failed) then
    { ns with conn := Connected }
  else ns

/-- Early state sanitising: the implicit disk state of a connected node. -/
def sanitise_disk (ns : drbd_state_t) : drbd_state_t :=
  if ns.conn ≥ Connected ∧
      ((ns.disk = Consistent ∨ ns.disk = Outdated) ∨
       (ns.disk = Negotiating ∧ ns.conn = WFBitMapT)) then
    if ns.conn = WFBitMapT ∨ ns.conn = PausedSyncT then { ns with disk := Outdated }
    else if ns.conn = Connected ∨ ns.conn = WFBitMapS ∨ ns.conn = SyncSource ∨
        ns.conn = PausedSyncS then { ns with disk := UpToDate }
    else if ns.conn = SyncTarget then { ns with disk := Inconsistent }
    else ns
  else ns

/-- Early state sanitising: the implicit disk state of a connected peer. -/
def sanitise_pdsk (ns : drbd_state_t) : drbd_state_t :=
  if ns.conn ≥ Connected ∧ (ns.pdsk = Consistent ∨ ns.pdsk = Outdated) then
    if ns.conn = Connected ∨ ns.conn = WFBitMapT ∨ ns.conn = PausedSyncT ∨
        ns.conn = SyncTarget then { ns with pdsk := UpToDate }
    else if ns.conn = WFBitMapS ∨ ns.conn = PausedSyncS then { ns with pdsk := Outdated }
    else if ns.conn = SyncSource then { ns with pdsk := Inconsistent }
    else ns
  else ns

/-- Early state sanitising: "Connection breaks down before we finished
Negotiating". -/
def sanitise_negotiating (mdev : drbd_conf) (ns : drbd_state_t) : drbd_state_t :=
  if ns.conn < Connected ∧ ns.disk = Negotiating ∧ inc_local_if_state mdev Negotiating then
    if mdev.ed_uuid = mdev.md_uuid Current then
      { ns with disk := mdev.new_state_tmp.disk, pdsk := mdev.new_state_tmp.pdsk }
    else { ns with disk := Diskless, pdsk := DUnknown }
  else ns

/-- Early state sanitising: with fencing policy `Stonith` a primary that loses
its peer suspends I/O. -/
def sanitise_susp (fp : Nat) (ns : drbd_state_t) : drbd_state_t :=
  if fp = Stonith ∧ (ns.role = Primary ∧ ns.conn < Connected ∧ ns.pdsk > Outdated) then
    { ns with susp := 1 }
  else ns

/-- Early state sanitising: a sync is paused exactly while one of the pause
flags is set. -/
def sanitise_pause (ns : drbd_state_t) : drbd_state_t :=
  if ns.aftr_isp ≠ 0 ∨ ns.peer_isp ≠ 0 ∨ ns.user_isp ≠ 0 then
    let ns1 := if ns.conn = SyncSource then { ns with conn := PausedSyncS } else ns
    if ns1.conn = SyncTarget then { ns1 with conn := PausedSyncT } else ns1
  else
    let ns1 := if ns.conn = PausedSyncS then { ns with conn := SyncSource } else ns
    if ns1.conn = PausedSyncT then { ns1 with conn := SyncTarget } else ns1

/-- The block "Early state sanitising" of `_drbd_set_state`: the state that is
validated and committed in place of the requested `ns`. -/
def early_state_sanitising (mdev : drbd_conf) (os ns : drbd_state_t) : drbd_state_t :=
  let fp := if inc_local mdev then mdev.fencing else DontCare
  let ns := sanitise_invalidate os ns
  let ns := sanitise_net_error os ns
  let ns := sanitise_after_net_error os ns
  let ns := sanitise_disconnecting os ns
  let ns := sanitise_peer ns
  let ns := sanitise_diskless ns
  let ns := sanitise_sync_abort os ns
  let ns := sanitise_disk ns
  let ns := sanitise_pdsk ns
  let ns := sanitise_negotiating mdev ns
  let ns := sanitise_susp fp ns
  sanitise_pause ns

/-- The checks of `_drbd_set_state` on the sanitised state `ns`, skipped with
`ChgStateHard`. -/
def pre_state_change_checks (mdev : drbd_conf) (os ns : drbd_state_t) (flags : Nat) : Int :=
  if flags &&& ChgStateHard = 0 then
    let rv := is_valid_state mdev ns
    if rv < SS_Success then
      if is_valid_state mdev os = rv then is_valid_state_transition mdev ns os
      else rv
    else is_valid_state_transition mdev ns os
  else SS_Success

/-- `_drbd_set_state`: the return code and the device afterwards.  The
post-state-change actions (timers, threads, meta-data flags, the queued
after-state-change work) do not touch `mdev->state`. -/
def _drbd_set_state (mdev : drbd_conf) (ns : drbd_state_t) (flags : Nat) : Int × drbd_conf :=
  let os := mdev.state
  let ns := early_state_sanitising mdev os ns
  if ns = os then (SS_NothingToDo, mdev)
  else
    let rv := pre_state_change_checks mdev os ns flags
    if rv < SS_Success then (rv, mdev)
    else (rv, { mdev with state := ns })

/-- The assignment `ns.i = (os.i & ~mask.i) | val.i`, field by field; `m` is
the field with all its bits set. -/
def apply_mask_field (m os mask val : Nat) : Nat := (os &&& (m ^^^ mask)) ||| val

/-- The assignment `ns.i = (os.i & ~mask.i) | val.i` on `union drbd_state_t`. -/
def apply_mask (os mask val : drbd_state_t) : drbd_state_t :=
  { role := apply_mask_field 3 os.role mask.role val.role,
    peer := apply_mask_field 3 os.peer mask.peer val.peer,
    conn := apply_mask_field 31 os.conn mask.conn val.conn,
    disk := apply_mask_field 15 os.disk mask.disk val.disk,
    pdsk := apply_mask_field 15 os.pdsk mask.pdsk val.pdsk,
    susp := apply_mask_field 1 os.susp mask.susp val.susp,
    aftr_isp := apply_mask_field 1 os.aftr_isp mask.aftr_isp val.aftr_isp,
    peer_isp := apply_mask_field 1 os.peer_isp mask.peer_isp val.peer_isp,
    user_isp := apply_mask_field 1 os.user_isp mask.user_isp val.user_isp }

/-- `drbd_change_state`. -/
def drbd_change_state (mdev : drbd_conf) (f : Nat) (mask val : drbd_state_t) : Int × drbd_conf :=
  let os := mdev.state
  let ns := apply_mask os mask val
  _drbd_set_state mdev ns f

/-- `drbd_force_state`. -/
def drbd_force_state (mdev : drbd_conf) (mask val : drbd_state_t) : drbd_conf :=
  (drbd_change_state mdev ChgStateHard mask val).2

/-- The all-zero state word. -/
def state_zero : drbd_state_t :=
  { role := 0, peer := 0, conn := 0, disk := 0, pdsk := 0, susp := 0, aftr_isp := 0,
    peer_isp := 0, user_isp := 0 }

/-- The mask of `NS(conn, c)`. -/
def NS_conn_mask : drbd_state_t := { state_zero with conn := conn_mask }

/-- The value of `NS(conn, c)`. -/
def NS_conn_val (c : Nat) : drbd_state_t := { state_zero with conn := c }

/-- The mask of `NS(role, r)`; `role_mask` is 3. -/
def NS_role_mask : drbd_state_t := { state_zero with role := 3 }

/-- The value of `NS(role, r)`. -/
def NS_role_val (r : Nat) : drbd_state_t := { state_zero with role := r }

/-- The barrier that `_tl_add_barrier` makes of `new`: no requests, not
queued, and the number after `newest_before`, never 0. -/
def _tl_add_barrier (newest_before : drbd_barrier) : drbd_barrier :=
  { br_number := if (newest_before.br_number + 1) % 2 ^ 32 ≠ 0
                 then (newest_before.br_number + 1) % 2 ^ 32 else 1,
    n_req := 0, w_cb := false }

/-- `tl_release`: when we receive a barrier ack.  With `CREATE_BARRIER` set
the released barrier is recycled behind the newest one by `_tl_add_barrier`
(it is itself the newest one if it was the only barrier); otherwise it is
freed. -/
def tl_release (mdev : drbd_conf) (barrier_nr set_size : Nat) : drbd_conf :=
  match mdev.tl with
  | [] => drbd_force_state mdev NS_conn_mask (NS_conn_val ProtocolError)
  | b :: nob =>
    if b.br_number ≠ barrier_nr then
      drbd_force_state mdev NS_conn_mask (NS_conn_val ProtocolError)
    else if b.n_req ≠ set_size then
      drbd_force_state mdev NS_conn_mask (NS_conn_val ProtocolError)
    else if mdev.create_barrier then
      { mdev with create_barrier := false,
                  tl := nob ++ [_tl_add_barrier ((b :: nob).getLast (List.cons_ne_nil b nob))],
                  ap_pending_cnt := mdev.ap_pending_cnt - 1 }
    else
      { mdev with tl := nob, ap_pending_cnt := mdev.ap_pending_cnt - 1 }

/-- A sample device: connected secondary with an up-to-date disk, a transfer
log of two barriers. -/
def sample_mdev : drbd_conf :=
  { state := { role := Secondary, peer := Primary, conn := Connected, disk := UpToDate,
               pdsk := UpToDate, susp := 0, aftr_isp := 0, peer_isp := 0, user_isp := 0 },
    new_state_tmp := state_zero,
    fencing := DontCare,
    md_uuid := fun i => if i = Current then 4 else 0,
    p_uuid := fun i => if i = Current then 4 else 0,
    crashed_primary := false, discard_concurrent := false, ed_uuid := 4,
    epoch_list := [{ barrier_nr := 0, epoch_size := 0, active := 0,
                     flags := { DE_BARRIER_IN_NEXT_EPOCH_ISSUED := false,
                                DE_BARRIER_IN_NEXT_EPOCH_DONE := false,
                                DE_CONTAINS_A_BARRIER := false,
                                DE_HAVE_BARRIER_NUMBER := false,
                                DE_IS_FINISHING := false } }],
    epochs := 1, write_ordering := WO_bio_barrier, unacked_cnt := 0, b_acks := [],
    data_work := [],
    have_net_conf := true, two_primaries := false, open_cnt := 0, verify_alg := 0,
    agreed_pro_version := 88,
    tl := [{ br_number := 4711, n_req := 3, w_cb := true },
           { br_number := 4712, n_req := 0, w_cb := false }],
    create_barrier := false, ap_pending_cnt := 1,
    no_disk_barrier := false, no_disk_flush := false, no_disk_drain := false,
    md_flags := 0, comm_bm_set := 0,
    after_sb_0p := after_sb_handler.Disconnect, after_sb_1p := after_sb_handler.Disconnect,
    after_sb_2p := after_sb_handler.Disconnect, rr_conflict := after_sb_handler.Disconnect,
    always_asbp := false, want_lose := false, disk_ro := true, uuids_sent := 0,
    states_sent := 0 }

/-- A device in a state that `is_valid_state` rejects: both nodes are primary
although `two_primaries` is off (the peer's state is taken over as it is
reported, and states are forced with `ChgStateHard`). -/
def two_primaries_mdev : drbd_conf :=
  { sample_mdev with
    state := { role := Primary, peer := Primary, conn := Connected, disk := UpToDate,
               pdsk := UpToDate, susp := 0, aftr_isp := 0, peer_isp := 0, user_isp := 0 } }

/-- The mask of `NS(user_isp, 1)`. -/
def NS_user_isp_mask : drbd_state_t := { state_zero with user_isp := 1 }

/-- The value of `NS(user_isp, 1)`. -/
def NS_user_isp_val : drbd_state_t := { state_zero with user_isp := 1 }

/-- Whether the oldest barrier of the transfer log is there and has the
number `barrier_nr` and the size `set_size`. -/
def oldest_matches (mdev : drbd_conf) (barrier_nr set_size : Nat) : Bool :=
  match mdev.tl with
  | [] => false
  | b :: _ => decide (b.br_number = barrier_nr ∧ b.n_req = set_size)

/-- A device that has lost its connection (`NetworkFailure`) while two
barriers are still in the transfer log. -/
def net_failed_mdev : drbd_conf :=
  { sample_mdev with
    state := { role := Secondary, peer := Unknown, conn := NetworkFailure, disk := UpToDate,
               pdsk := DUnknown, susp := 0, aftr_isp := 0, peer_isp := 0, user_isp := 0 } }

open epoch_event finish_epoch

/-! ### Epochs (`drbd_receiver.c`) -/

/-- The flag word zero. -/
def epoch_flags_zero : epoch_flags :=
  { DE_BARRIER_IN_NEXT_EPOCH_ISSUED := false, DE_BARRIER_IN_NEXT_EPOCH_DONE := false,
    DE_CONTAINS_A_BARRIER := false, DE_HAVE_BARRIER_NUMBER := false, DE_IS_FINISHING := false }

/-- Position of `epoch->list.prev` in a ring of `n` epochs. -/
def list_prev (n i : Nat) : Nat := (i + n - 1) % n

/-- Position of `epoch->list.next` in a ring of `n` epochs. -/
def list_next (n i : Nat) : Nat := (i + 1) % n

/-- The `switch (ev & ~EV_cleanup)` of `drbd_may_finish_epoch`, applied to the
epoch `e` at position `i`. -/
def apply_epoch_event (mdev : drbd_conf) (i : Nat) (e : drbd_epoch) (ev : epoch_event) :
    drbd_epoch :=
  match ev with
  | EV_put => { e with active := e.active - 1 }
  | EV_got_barrier_nr =>
    let e1 := { e with flags := { e.flags with DE_HAVE_BARRIER_NUMBER := true } }
    if e1.flags.DE_CONTAINS_A_BARRIER = true ∧ e1.epoch_size = 1 ∧
        mdev.write_ordering ≠ WO_bio_barrier ∧ i + 1 = mdev.epoch_list.length then
      { e1 with flags := { e1.flags with DE_CONTAINS_A_BARRIER := false } }
    else e1
  | EV_barrier_done => { e with flags := { e.flags with DE_BARRIER_IN_NEXT_EPOCH_DONE := true } }
  | EV_became_last => e

/-- The outer condition of `drbd_may_finish_epoch`, "nearly all conditions are
met to finish that epoch", for the epoch `e` at position `i`. -/
def epoch_nearly_done (mdev : drbd_conf) (i : Nat) (e : drbd_epoch) : Bool :=
  decide (e.epoch_size ≠ 0 ∧ e.active = 0 ∧ e.flags.DE_HAVE_BARRIER_NUMBER = true ∧
    list_prev mdev.epoch_list.length i = mdev.epoch_list.length - 1 ∧
    e.flags.DE_IS_FINISHING = false)

/-- The inner condition of `drbd_may_finish_epoch` that sets `finish`. -/
def epoch_finish_now (mdev : drbd_conf) (e : drbd_epoch) (cleanup : Bool) : Bool :=
  decide (e.flags.DE_BARRIER_IN_NEXT_EPOCH_DONE = true ∨ mdev.write_ordering = WO_none ∨
    (e.epoch_size = 1 ∧ e.flags.DE_CONTAINS_A_BARRIER = true) ∨ cleanup = true)

/-- The state of the loop of `drbd_may_finish_epoch` when it is left: the
device, the position of `epoch`, `rv` and `schedule_flush`. -/
structure finish_loop_state where
  mdev : drbd_conf
  epoch : Nat
  rv : finish_epoch
  schedule_flush : Bool

/-- The `do { } while (1)` loop of `drbd_may_finish_epoch`, with `fuel` rounds
at most; `none` if the fuel runs out or `epoch` is no position of the ring.
Every round but the last unlinks an epoch, so that as many rounds as there are
epochs are enough. -/
def may_finish_loop : Nat → drbd_conf → Nat → epoch_event → Bool → finish_epoch → Bool →
    Option finish_loop_state
  | 0, _, _, _, _, _, _ => none
  | fuel + 1, mdev, i, ev, cleanup, rv, schedule_flush =>
    match mdev.epoch_list[i]? with
    | none => none
    | some e0 =>
      let n := mdev.epoch_list.length
      let epoch_size := e0.epoch_size
      let e1 := apply_epoch_event mdev i e0 ev
      if epoch_nearly_done mdev i e1 = true ∧ epoch_finish_now mdev e1 cleanup = true then
        let e2 := { e1 with flags := { e1.flags with DE_IS_FINISHING := true } }
        let b_acks := if cleanup = true then mdev.b_acks
                      else mdev.b_acks ++ [(e2.barrier_nr, epoch_size)]
        let unacked_cnt := mdev.unacked_cnt - 1
        if i + 1 ≠ n then
          let next := list_next n i
          may_finish_loop fuel
            { mdev with epoch_list := mdev.epoch_list.eraseIdx i,
                        epochs := (mdev.epochs + 2 ^ 32 - 1) % 2 ^ 32,
                        b_acks := b_acks, unacked_cnt := unacked_cnt }
            (if i < next then next - 1 else next) EV_became_last cleanup
            (if rv = FE_still_live then FE_destroyed else rv) schedule_flush
        else
          some { mdev := { mdev with
                           epoch_list := mdev.epoch_list.set i
                             { e2 with flags := epoch_flags_zero, epoch_size := 0 },
                           b_acks := b_acks, unacked_cnt := unacked_cnt },
                 epoch := i,
                 rv := if rv = FE_still_live then FE_recycled else rv,
                 schedule_flush := schedule_flush }
      else if epoch_nearly_done mdev i e1 = true ∧
          e1.flags.DE_BARRIER_IN_NEXT_EPOCH_ISSUED = false ∧
          mdev.write_ordering = WO_bio_barrier then
        some { mdev := { mdev with epoch_list :=
                           mdev.epoch_list.set i { e1 with active := e1.active + 1 } },
               epoch := i, rv := rv, schedule_flush := true }
      else
        some { mdev := { mdev with epoch_list := mdev.epoch_list.set i e1 },
               epoch := i, rv := rv, schedule_flush := schedule_flush }

/-- The outcome of the next `kmalloc(..., GFP_ATOMIC)` and the outcomes left;
when the list of outcomes is used up, the allocation fails. -/
def kmalloc (outcomes : List Bool) : Bool × List Bool :=
  match outcomes with
  | [] => (false, [])
  | ok :: rest => (ok, rest)

/-- The function `drbd_may_finish_epoch(mdev, epoch, ev)` with `depth` nested
calls at most: the loop, then the scheduling of the flush.  If the flush work
can not be allocated, the function calls itself for `EV_barrier_done` and for
`EV_put`.  It gives the result, the device and the allocation outcomes left. -/
def may_finish_epoch_depth : Nat → drbd_conf → Nat → epoch_event → Bool → List Bool →
    Option (finish_epoch × drbd_conf × List Bool)
  | 0, _, _, _, _, _ => none
  | depth + 1, mdev, epoch, ev, cleanup, outcomes =>
    match may_finish_loop mdev.epoch_list.length mdev epoch ev cleanup FE_still_live false with
    | none => none
    | some s =>
      if s.schedule_flush = true then
        if (kmalloc outcomes).1 = true then
          some (s.rv, { s.mdev with data_work := s.mdev.data_work ++ [s.epoch] },
                (kmalloc outcomes).2)
        else
          let set_issued := fun (e : drbd_epoch) =>
            { e with flags := { e.flags with DE_BARRIER_IN_NEXT_EPOCH_ISSUED := true } }
          let issued := { s.mdev with
                          epoch_list := List.modify set_issued s.epoch s.mdev.epoch_list }
          match may_finish_epoch_depth depth issued s.epoch EV_barrier_done false
              (kmalloc outcomes).2 with
          | none => none
          | some r1 =>
            match may_finish_epoch_depth depth r1.2.1 s.epoch EV_put false r1.2.2 with
            | none => none
            | some r2 => some (s.rv, r2.2.1, r2.2.2)
      else some (s.rv, s.mdev, outcomes)

/-- The function `drbd_may_finish_epoch(mdev, epoch, ev)`; `cleanup` is the
flag `EV_cleanup` of `ev`, `outcomes` are the outcomes of the allocations.  A
nested call follows only after an epoch was unlinked or when the epoch is busy,
so that a depth of the number of epochs plus one is enough. -/
def drbd_may_finish_epoch (mdev : drbd_conf) (epoch : Nat) (ev : epoch_event) (cleanup : Bool)
    (outcomes : List Bool) : Option (finish_epoch × drbd_conf × List Bool) :=
  may_finish_epoch_depth (mdev.epoch_list.length + 1) mdev epoch ev cleanup outcomes

/-- An epoch after `epoch->flags = 0` and `atomic_set(&epoch->epoch_size, 0)`
in an epoch that is finishing. -/
def epoch_reset (e : drbd_epoch) : drbd_epoch :=
  { e with flags := epoch_flags_zero, epoch_size := 0 }

/-- Whether an epoch that is the oldest one finishes under `WO_none`: its size
is not zero, no request is active, it has its barrier number and is not
finishing yet. -/
def epoch_complete (e : drbd_epoch) : Bool :=
  decide (e.epoch_size ≠ 0 ∧ e.active = 0 ∧ e.flags.DE_HAVE_BARRIER_NUMBER = true ∧
    e.flags.DE_IS_FINISHING = false)

/-- An epoch of size `size` with `active` active requests that has its barrier
number if `have_nr`. -/
def sample_epoch (nr : Nat) (size active : Int) (have_nr : Bool) : drbd_epoch :=
  { barrier_nr := nr, epoch_size := size, active := active,
    flags := { epoch_flags_zero with DE_HAVE_BARRIER_NUMBER := have_nr } }

/-- A device without write ordering (`WO_none`) and three epochs: the oldest
one with one request and no barrier number yet, the next one complete, and the
current one empty. -/
def wo_none_mdev : drbd_conf :=
  { sample_mdev with
    write_ordering := WO_none, epochs := 3, unacked_cnt := 2,
    epoch_list := [sample_epoch 7 1 0 false, sample_epoch 8 2 0 true, sample_epoch 0 0 0 false] }

/-- A UUID without its lowest bit, `x & ~((u64)1)`. -/
def uuid_strip (x : Nat) : Nat := x &&& (2 ^ 64 - 2)

/-- Whether a round of `for (i = History_start; i <= History_end; i++)` finds
`v` among the history entries of `uuid`, the lowest bit left out. -/
def history_has (uuid : Nat → Nat) (v : Nat) : Bool :=
  (List.range' History_start (History_end + 1 - History_start)).any
    (fun i => decide (v = uuid_strip (uuid i)))

/-- The `switch (rct)` of rule 4 of `drbd_uuid_compare`: the value returned,
or `none` if no case applies. -/
def uuid_rule_4 (mdev : drbd_conf) : Option Int :=
  match (if mdev.crashed_primary = true then 1 else 0) + (mdev.p_uuid UUID_FLAGS &&& 2) with
  | 0 => some 0
  | 1 => some 1
  | 2 => some (-1)
  | 3 => some (if mdev.discard_concurrent = true then -1 else 1)
  | _ => none

/-- Rules 5 to 10 of `drbd_uuid_compare`, with the value of `self` from rule
4; the result and `*rule_nr`.  Rule 10 reads both of its operands from
`mdev->p_uuid`. -/
def uuid_rules_5_to_10 (mdev : drbd_conf) (self : Nat) : Int × Nat :=
  if self = uuid_strip (mdev.p_uuid Bitmap) then (-1, 5)
  else if history_has mdev.p_uuid self = true then (-2, 6)
  else if uuid_strip (mdev.md_uuid Bitmap) = uuid_strip (mdev.p_uuid Current) then (1, 7)
  else if history_has mdev.md_uuid (uuid_strip (mdev.p_uuid Current)) = true then (2, 8)
  else if uuid_strip (mdev.md_uuid Bitmap) = uuid_strip (mdev.p_uuid Bitmap) ∧
      uuid_strip (mdev.md_uuid Bitmap) ≠ 0 then (100, 9)
  else if (List.range' History_start (History_end + 1 - History_start)).any
      (fun i => history_has mdev.p_uuid (uuid_strip (mdev.p_uuid i))) = true then (-100, 10)
  else (-1000, 10)

/-- The function `drbd_uuid_compare(mdev, &rule_nr)`: the result and
`rule_nr`. -/
def drbd_uuid_compare (mdev : drbd_conf) : Int × Nat :=
  let self := uuid_strip (mdev.md_uuid Current)
  let peer := uuid_strip (mdev.p_uuid Current)
  if self = UUID_JUST_CREATED ∧ peer = UUID_JUST_CREATED then (0, 1)
  else if (self = UUID_JUST_CREATED ∨ self = 0) ∧ peer ≠ UUID_JUST_CREATED then (-2, 2)
  else if self ≠ UUID_JUST_CREATED ∧ (peer = UUID_JUST_CREATED ∨ peer = 0) then (2, 3)
  else if self = peer then
    match uuid_rule_4 mdev with
    | some hg => (hg, 4)
    | none => uuid_rules_5_to_10 mdev self
  else uuid_rules_5_to_10 mdev self

/-- A device whose Current UUID and whose peer's Current UUID are both zero. -/
def zero_uuid_mdev : drbd_conf :=
  { sample_mdev with md_uuid := fun _ => 0, p_uuid := fun _ => 0 }

/-- A device and a peer with the same Current UUID up to the lowest bit. -/
def same_uuid_mdev : drbd_conf :=
  { sample_mdev with
    md_uuid := fun i => if i = Current then 0xA1B2C3D4E5F60718 else 0,
    p_uuid := fun i => if i = Current then 0xA1B2C3D4E5F60719 else 0 }

/-! ### Samples and the peer relation for the UUID comparison -/

/-- A device and a peer with unrelated data: no UUID of the one occurs among
the UUIDs of the other, and the Bitmap UUIDs are zero. -/
def unrelated_mdev : drbd_conf :=
  { sample_mdev with
    md_uuid := fun i => if i = Current then 0xA0 else if i = History_start then 0xA2
                        else if i = History_end then 0xA4 else 0,
    p_uuid := fun i => if i = Current then 0xB0 else if i = History_start then 0xB2
                       else if i = History_end then 0xB4 else 0 }

/-- Two devices that are the peer of each other, as far as
`drbd_uuid_compare` reads them: each has the UUIDs of the other as `p_uuid`,
bit value 2 of the received `UUID_FLAGS` is the `CRASHED_PRIMARY` flag of the
other, and `DISCARD_CONCURRENT` is set on exactly one of them. -/
def uuid_peers (a b : drbd_conf) : Prop :=
  (∀ i ∈ [Current, Bitmap, History_start, History_end],
    a.p_uuid i = b.md_uuid i ∧ b.p_uuid i = a.md_uuid i) ∧
  (a.p_uuid UUID_FLAGS &&& 2 = if b.crashed_primary = true then 2 else 0) ∧
  (b.p_uuid UUID_FLAGS &&& 2 = if a.crashed_primary = true then 2 else 0) ∧
  a.discard_concurrent ≠ b.discard_concurrent

instance (a b : drbd_conf) : Decidable (uuid_peers a b) := by
  unfold uuid_peers
  exact inferInstance

/-- A node whose UUIDs are all zero, with `DISCARD_CONCURRENT` set. -/
def zero_node_a : drbd_conf :=
  { zero_uuid_mdev with discard_concurrent := true }

/-- A node whose UUIDs are all zero, with `DISCARD_CONCURRENT` clear. -/
def zero_node_b : drbd_conf :=
  { zero_uuid_mdev with discard_concurrent := false }

/-- A node that has the other node's Current UUID as its Bitmap UUID: it is
ahead of the other node. -/
def ahead_node : drbd_conf :=
  { sample_mdev with
    md_uuid := fun i => if i = Current then 0xC0 else if i = Bitmap then 0xA0 else 0,
    p_uuid := fun i => if i = Current then 0xA0 else 0,
    discard_concurrent := true }

/-- The peer of `ahead_node`. -/
def behind_node : drbd_conf :=
  { sample_mdev with
    md_uuid := fun i => if i = Current then 0xA0 else 0,
    p_uuid := fun i => if i = Current then 0xC0 else if i = Bitmap then 0xA0 else 0,
    discard_concurrent := false }

/-- A node whose Current UUID is the Bitmap UUID of its peer `cross_node_b`,
while the Current UUID of that peer is its own Bitmap UUID. -/
def cross_node_a : drbd_conf :=
  { sample_mdev with
    md_uuid := fun i => if i = Current then 0xA0 else if i = Bitmap then 0xC0 else 0,
    p_uuid := fun i => if i = Current then 0xC0 else if i = Bitmap then 0xA0 else 0,
    discard_concurrent := true }

/-- The peer of `cross_node_a`. -/
def cross_node_b : drbd_conf :=
  { sample_mdev with
    md_uuid := fun i => if i = Current then 0xC0 else if i = Bitmap then 0xA0 else 0,
    p_uuid := fun i => if i = Current then 0xA0 else if i = Bitmap then 0xC0 else 0,
    discard_concurrent := false }

/-! ### More of the state machine (`drbd_main.c`) -/

/-- `cl_wide_st_chg(mdev, os, ns)`: whether the state change is to be
performed as a cluster wide transaction. -/
def cl_wide_st_chg (_mdev : drbd_conf) (os ns : drbd_state_t) : Bool :=
  decide ((os.conn ≥ Connected ∧ ns.conn ≥ Connected ∧
      ((os.role ≠ Primary ∧ ns.role = Primary) ∨
       (os.conn ≠ StartingSyncT ∧ ns.conn = StartingSyncT) ∨
       (os.conn ≠ StartingSyncS ∧ ns.conn = StartingSyncS) ∨
       (os.disk ≠ Diskless ∧ ns.disk = Diskless))) ∨
    (os.conn ≥ Connected ∧ ns.conn = Disconnecting) ∨
    (os.conn = Connected ∧ ns.conn = VerifyS))

/-- A device in the state `Disconnecting`. -/
def disconnecting_mdev : drbd_conf :=
  { sample_mdev with
    state := { role := Secondary, peer := Unknown, conn := Disconnecting, disk := UpToDate,
               pdsk := DUnknown, susp := 0, aftr_isp := 0, peer_isp := 0, user_isp := 0 } }

/-- A state below `Connected` that holds no information on the peer's role
and no pause flag of the peer. -/
def no_peer_info (n : drbd_state_t) : Prop :=
  n.conn < Connected ∧ n.peer = Unknown ∧ n.peer_isp = 0

/-- A state that is not `Negotiating` and whose peer disk state is
`Inconsistent`, `Outdated` or `DUnknown`. -/
def no_peer_disk (n : drbd_state_t) : Prop :=
  n.disk ≠ Negotiating ∧ (n.pdsk = Inconsistent ∨ n.pdsk = Outdated ∨ n.pdsk = DUnknown)

/-- A connected device with a peer that has just failed: the request to go to
`WFConnection`. -/
def lost_peer_request : drbd_state_t :=
  { sample_mdev.state with conn := WFConnection }

/-- The ten conditions that `is_valid_state_transition` tests, in source
order, each with the code it stands for. -/
def transition_rules (ns os : drbd_state_t) : List (Bool × Int) :=
  [ (decide ((ns.conn = StartingSyncT ∨ ns.conn = StartingSyncS) ∧ os.conn > Connected),
      SS_ResyncRunning),
    (decide (ns.conn = Disconnecting ∧ os.conn = StandAlone), SS_AlreadyStandAlone),
    (decide (ns.disk > Attaching ∧ os.disk = Diskless), SS_IsDiskLess),
    (decide (ns.conn = WFConnection ∧ os.conn < Unconnected), SS_NoNetConfig),
    (decide (ns.disk = Outdated ∧ os.disk < Outdated ∧ os.disk ≠ Attaching),
      SS_LowerThanOutdated),
    (decide (ns.conn = Disconnecting ∧ os.conn = Unconnected), SS_InTransientState),
    (decide (ns.conn = os.conn ∧ ns.conn = WFReportParams), SS_InTransientState),
    (decide ((ns.conn = VerifyS ∨ ns.conn = VerifyT) ∧ os.conn < Connected), SS_NeedConnection),
    (decide ((ns.conn = VerifyS ∨ ns.conn = VerifyT) ∧ ns.conn ≠ os.conn ∧ os.conn > Connected),
      SS_ResyncRunning),
    (decide ((ns.conn = StartingSyncS ∨ ns.conn = StartingSyncT) ∧ os.conn < Connected),
      SS_NeedConnection) ]

/-- The code of the last condition of a list that holds, if one holds. -/
def last_rule_code (rules : List (Bool × Int)) : Option Int :=
  ((rules.filter (fun r => r.1)).getLast?).map (fun r => r.2)

/-- A state with a resync running, and the request to start another one
while leaving the disk `Outdated`. -/
def resync_running_state : drbd_state_t :=
  { sample_mdev.state with conn := SyncSource, disk := Inconsistent }

/-- A primary that is connected and has an `Inconsistent` disk, while the
disk state of the peer is not known (`DUnknown`). -/
def primary_inconsistent_state : drbd_state_t :=
  { role := Primary, peer := Secondary, conn := Connected, disk := Inconsistent,
    pdsk := DUnknown, susp := 0, aftr_isp := 0, peer_isp := 0, user_isp := 0 }

/-- A primary without connection and with an `Outdated` disk. -/
def primary_alone_state : drbd_state_t :=
  { role := Primary, peer := Unknown, conn := WFConnection, disk := Outdated,
    pdsk := DUnknown, susp := 0, aftr_isp := 0, peer_isp := 0, user_isp := 0 }

/-! ### More of the transfer log (`drbd_main.c`) -/

/-- `tl_init`: the transfer log holds the one barrier #4711; `none` is the
return value 0, when the barrier can not be allocated. -/
def tl_init (mdev : drbd_conf) (kmalloc_ok : Bool) : Option drbd_conf :=
  if kmalloc_ok = true then
    some { mdev with tl := [{ br_number := 4711, n_req := 0, w_cb := false }] }
  else none

/-- A call `_tl_add_barrier(mdev, new)` with a barrier `new` that is not yet
in the transfer log: it becomes the newest barrier.  `none` if there is no
newest barrier to take the number from. -/
def tl_add_new_barrier (mdev : drbd_conf) : Option drbd_conf :=
  match mdev.tl.getLast? with
  | none => none
  | some newest_before => some { mdev with tl := mdev.tl ++ [_tl_add_barrier newest_before] }

/-- The loop `while (b)` of `tl_clear` over the barriers from `b` on: every
barrier whose work is queued costs one `dec_ap_pending`, the newest barrier is
recycled with the number `new_initial_bnr`, the others are freed.  The result
is the log from `oldest_barrier` on and `ap_pending_cnt`. -/
def tl_clear_loop (new_initial_bnr : Nat) : List drbd_barrier → Int → List drbd_barrier × Int
  | [], ap_pending_cnt => ([], ap_pending_cnt)
  | [b], ap_pending_cnt =>
    ([{ br_number := new_initial_bnr % 2 ^ 32, n_req := 0, w_cb := false }],
     if b.w_cb = true then ap_pending_cnt - 1 else ap_pending_cnt)
  | b :: b1 :: rest, ap_pending_cnt =>
    tl_clear_loop new_initial_bnr (b1 :: rest)
      (if b.w_cb = true then ap_pending_cnt - 1 else ap_pending_cnt)

/-- `tl_clear`; `new_initial_bnr` is the value of `net_random()`. -/
def tl_clear (mdev : drbd_conf) (new_initial_bnr : Nat) : drbd_conf :=
  { mdev with tl := (tl_clear_loop new_initial_bnr mdev.tl mdev.ap_pending_cnt).1,
              ap_pending_cnt := (tl_clear_loop new_initial_bnr mdev.tl mdev.ap_pending_cnt).2,
              create_barrier := false }

/-- Every barrier of the transfer log has a number other than 0. -/
def tl_nonzero (mdev : drbd_conf) : Prop := ∀ b ∈ mdev.tl, b.br_number ≠ 0

/-- A device with barrier write ordering and two epochs: the oldest one has
its barrier number, but one of its three requests is still active. -/
def busy_epoch_mdev : drbd_conf :=
  { sample_mdev with
    write_ordering := WO_bio_barrier, epochs := 2, unacked_cnt := 1,
    epoch_list := [sample_epoch 7 3 1 true, sample_epoch 0 0 0 false] }

/-! ### Write ordering (`drbd_receiver.c`) -/

/-- `drbd_bump_write_ordering(mdev, wo)`: the current method does not work on
the backing device, try the next allowed one. -/
def drbd_bump_write_ordering (mdev : drbd_conf) (wo : Nat) : drbd_conf :=
  let pwo := mdev.write_ordering
  let wo := min pwo wo
  let wo := if wo = WO_bio_barrier ∧ mdev.no_disk_barrier = true then WO_bdev_flush else wo
  let wo := if wo = WO_bdev_flush ∧ mdev.no_disk_flush = true then WO_drain_io else wo
  let wo := if wo = WO_drain_io ∧ mdev.no_disk_drain = true then WO_none else wo
  { mdev with write_ordering := wo }

/-- Whether the settings of the backing device disable a write ordering
method. -/
def wo_disabled (mdev : drbd_conf) (wo : Nat) : Prop :=
  (wo = WO_bio_barrier ∧ mdev.no_disk_barrier = true) ∨
  (wo = WO_bdev_flush ∧ mdev.no_disk_flush = true) ∨
  (wo = WO_drain_io ∧ mdev.no_disk_drain = true)

/-! ### The handshake of protocol versions (`drbd_receiver.c`) -/

/-- What `drbd_do_handshake` gets from the network: whether
`drbd_send_handshake` and `drbd_recv_header` succeed, whether the header has the
command `HandShake` and the expected length, whether `drbd_recv` delivers the
whole payload, and the fields `protocol_min` and `protocol_max` (`u32`, after
`be32_to_cpu`). -/
structure handshake_rx where
  send_ok : Bool
  header_ok : Bool
  command_ok : Bool
  length_ok : Bool
  payload_ok : Bool
  protocol_min : Nat
  protocol_max : Nat

/-- The conversion of a `u32` to `int`, as in `min_t(int, ...)`. -/
def int_of_u32 (x : Nat) : Int :=
  if x % 2 ^ 32 < 2 ^ 31 then ((x % 2 ^ 32 : Nat) : Int) else ((x % 2 ^ 32 : Nat) : Int) - 2 ^ 32

/-- `drbd_do_handshake`: the return value and the device.  The constants
`PRO_VERSION_MIN` and `PRO_VERSION_MAX` of `drbd_int.h` are parameters. -/
def drbd_do_handshake (PRO_VERSION_MIN PRO_VERSION_MAX : Nat) (mdev : drbd_conf)
    (rx : handshake_rx) : Int × drbd_conf :=
  if rx.send_ok = false then (0, mdev)
  else if rx.header_ok = false then (0, mdev)
  else if rx.command_ok = false then (-1, mdev)
  else if rx.length_ok = false then (-1, mdev)
  else if rx.payload_ok = false then (0, mdev)
  else
    let protocol_min := rx.protocol_min % 2 ^ 32
    let protocol_max := if rx.protocol_max % 2 ^ 32 = 0 then protocol_min
                        else rx.protocol_max % 2 ^ 32
    if PRO_VERSION_MAX < protocol_min ∨ PRO_VERSION_MIN > protocol_max then (-1, mdev)
    else
      let agreed := min (PRO_VERSION_MAX : Int) (int_of_u32 protocol_max)
      (1, { mdev with agreed_pro_version := agreed })

/-- The versions `lo` to `hi` and the versions `lo1` to `hi1` have no version in
common. -/
def ranges_disjoint (lo hi lo1 hi1 : Nat) : Prop :=
  ∀ v : Nat, ¬ (lo ≤ v ∧ v ≤ hi ∧ lo1 ≤ v ∧ v ≤ hi1)

/-- A handshake packet that arrives in good order with the given versions. -/
def good_handshake (protocol_min protocol_max : Nat) : handshake_rx :=
  { send_ok := true, header_ok := true, command_ok := true, length_ok := true,
    payload_ok := true, protocol_min := protocol_min, protocol_max := protocol_max }

/-- `drbd_bm_set_all`: set all bits in the bitmap.  `ERR_IF(!b->bm_pages)
return` leaves the bitmap as it is. -/
def drbd_bm_set_all (b : drbd_bitmap) : Option drbd_bitmap :=
  if b.bm_pages.isNone then some b
  else do
    let b1 ← bm_memset b 0 0xff b.bm_words
    let (b2, _) ← bm_clear_surplus b1
    some { b2 with bm_set := b2.bm_bits }

/-- `drbd_bm_clear_all`: clear all bits in the bitmap. -/
def drbd_bm_clear_all (b : drbd_bitmap) : Option drbd_bitmap :=
  if b.bm_pages.isNone then some b
  else do
    let b1 ← bm_memset b 0 0 b.bm_words
    some { b1 with bm_set := 0 }

/-- The bitmap with another value of the find offset `bm_fo`. -/
def with_fo (b : drbd_bitmap) (f : Nat) : drbd_bitmap :=
  { bm_pages := b.bm_pages, bm_fo := f, bm_set := b.bm_set, bm_bits := b.bm_bits,
    bm_words := b.bm_words, bm_number_of_pages := b.bm_number_of_pages,
    bm_dev_capacity := b.bm_dev_capacity }

/-- `drbd_bm_reset_find`: the next search starts at bit 0. -/
def drbd_bm_reset_find (b : drbd_bitmap) : drbd_bitmap := { b with bm_fo := 0 }

/-- `drbd_bm_set_find`: `b->bm_fo = min_t(unsigned long, i, b->bm_bits)`. -/
def drbd_bm_set_find (b : drbd_bitmap) (i : Nat) : drbd_bitmap :=
  { b with bm_fo := min i b.bm_bits }

/-- `drbd_bm_rs_done`: `bm_fo >= bm_bits`. -/
def drbd_bm_rs_done (b : drbd_bitmap) : Bool := decide (b.bm_fo ≥ b.bm_bits)

/-- The library call `find_next_bit(p_addr, size, offset)` on a mapped page:
the number of the first set bit at or after `offset`, or `size` if there is
none.  The first argument counts the bits still to look at, `size - offset`
at the call. -/
def find_next_bit (b : drbd_bitmap) (p_addr size : Nat) : Nat → Nat → Option Nat
  | 0, _ => some size
  | n + 1, offset =>
    if offset < size then do
      let set ← test_bit b offset p_addr
      if set then some offset else find_next_bit b p_addr size n (offset + 1)
    else some size

/-- The loop `while (b->bm_fo < b->bm_bits)` of `drbd_bm_find_next` with what
follows it: the value returned (`ULONG_MAX` is `-1UL`) and the bitmap
afterwards.  The first argument bounds the number of rounds. -/
def bm_find_loop : Nat → drbd_bitmap → Option (Nat × drbd_bitmap)
  | 0, _ => none
  | fuel + 1, b =>
    if b.bm_fo < b.bm_bits then do
      let bit_offset := b.bm_fo &&& ulong_not BPP_MASK
      let offset := bit_offset >>> LN2_BPL
      let p_addr ← bm_map_paddr b offset
      let i ← find_next_bit b p_addr (PAGE_SIZE * 8) (PAGE_SIZE * 8 - (b.bm_fo &&& BPP_MASK))
        (b.bm_fo &&& BPP_MASK)
      if i < PAGE_SIZE * 8 then
        let i := (bit_offset + i) % ULONG_MOD
        if i ≥ b.bm_bits then some (ULONG_MAX, b)
        else some (i, { b with bm_fo := (i + 1) % ULONG_MOD })
      else bm_find_loop fuel { b with bm_fo := (bit_offset + PAGE_SIZE * 8) % ULONG_MOD }
    else some (ULONG_MAX, b)

/-- `drbd_bm_find_next`: the bit number returned (`ULONG_MAX` is `-1UL`) and
the bitmap afterwards.  Every round of the loop that does not return moves
`bm_fo` forward, so `bm_bits - bm_fo + 1` rounds suffice. -/
def drbd_bm_find_next (b : drbd_bitmap) : Option (Nat × drbd_bitmap) :=
  if b.bm_pages.isNone then some (ULONG_MAX, b)
  else if b.bm_fo > b.bm_bits then some (ULONG_MAX, b)
  else bm_find_loop (b.bm_bits - b.bm_fo + 1) b

/-- The values that `n` calls of `drbd_bm_find_next` in a row return, and
the bitmap afterwards. -/
def find_calls : Nat → drbd_bitmap → Option (List Nat × drbd_bitmap)
  | 0, b => some ([], b)
  | n + 1, b => do
    let (i, b1) ← drbd_bm_find_next b
    let (l, b2) ← find_calls n b1
    some (i :: l, b2)

/-- The numbers of the set bits below `bm_bits`, in increasing order. -/
def set_bits (b : drbd_bitmap) : List Nat := (List.range b.bm_bits).filter (bitAt b)

/-- The bitmap of an 800-sector device (100 bits, two words) in one zeroed
page, with no bit set and the find offset at 0.  The page is all zero, also in
the word behind `bm_words`, where `drbd_bm_resize` keeps `DRBD_MAGIC`. -/
def clear_bitmap : drbd_bitmap :=
  { bm_pages := some (fun _ _ => 0), bm_fo := 0, bm_set := 0, bm_bits := 100, bm_words := 2,
    bm_number_of_pages := 1, bm_dev_capacity := 800 }

/-- The bitmap of a 262144-sector device: 32768 bits, which fill the first of
its two pages; no bit is set, the second page holds stale data, and the find
offset is at 5. -/
def page_bitmap : drbd_bitmap :=
  { bm_pages := some (fun p _ => if p = 0 then 0 else 0xdeadbeef), bm_fo := 5, bm_set := 0,
    bm_bits := 32768, bm_words := 512, bm_number_of_pages := 2, bm_dev_capacity := 262144 }

/-- `drbd_md_test_flag`: `(bdev->md.flags & flag) != 0`. -/
def drbd_md_test_flag (mdev : drbd_conf) (flag : Nat) : Bool :=
  decide (mdev.md_flags &&& flag ≠ 0)

/-- The part of `drbd_nl_disk_conf` under `req_lock` that decides the new
state from the meta-data flags: the state `ns` that is handed to
`_drbd_set_state`, and the device with the decision kept in `new_state_tmp`
if it is `Connected`. -/
def drbd_nl_disk_conf_ns (mdev : drbd_conf) : drbd_state_t × drbd_conf :=
  let os := mdev.state
  let ns := os
  let ns :=
    if drbd_md_test_flag mdev MDF_Consistent then
      if drbd_md_test_flag mdev MDF_WasUpToDate then { ns with disk := Consistent }
      else { ns with disk := Outdated }
    else { ns with disk := Inconsistent }
  let ns := if drbd_md_test_flag mdev MDF_PeerOutDated then { ns with pdsk := Outdated } else ns
  let ns :=
    if ns.disk = Consistent ∧ (ns.pdsk = Outdated ∨ mdev.fencing = DontCare) then
      { ns with disk := UpToDate }
    else ns
  if mdev.state.conn = Connected then
    ({ os with disk := Negotiating }, { mdev with new_state_tmp := ns })
  else (ns, mdev)

/-- The call `_drbd_set_state(mdev, ns, ChgStateVerbose, NULL)` of
`drbd_nl_disk_conf`. -/
def drbd_nl_disk_conf_set_state (mdev : drbd_conf) : Int × drbd_conf :=
  let r := drbd_nl_disk_conf_ns mdev
  _drbd_set_state r.2 r.1 ChgStateVerbose

/-- A device during attach that has lost its connection to a peer with an
outdated disk: stand-alone, disk `Attaching`, peer disk `Outdated`; the
meta-data carry `MDF_Consistent` and `MDF_WasUpToDate` but not
`MDF_PeerOutDated`, and the fencing policy is `Resource`. -/
def attaching_mdev : drbd_conf :=
  { sample_mdev with
    state := { role := Secondary, peer := Unknown, conn := StandAlone, disk := Attaching,
               pdsk := Outdated, susp := 0, aftr_isp := 0, peer_isp := 0, user_isp := 0 },
    fencing := Resource,
    md_flags := MDF_Consistent ||| MDF_WasUpToDate }

/-- A device during attach with freshly created, all-zero meta-data. -/
def fresh_md_mdev : drbd_conf :=
  { sample_mdev with
    state := { role := Secondary, peer := Unknown, conn := StandAlone, disk := Attaching,
               pdsk := DUnknown, susp := 0, aftr_isp := 0, peer_isp := 0, user_isp := 0 },
    md_flags := 0 }

/-- `drbd_asb_recover_0p`: the automatic split-brain recovery when neither
node is primary; -1 discards the local data, 1 the peer's, -100 is no
decision.  The cases of the `switch` that fall through to the next one are
written as the values `older_pri`, `zero_chg` and `least_chg` of the code from
the respective label on. -/
def drbd_asb_recover_0p (mdev : drbd_conf) : Int :=
  let self := mdev.md_uuid Bitmap &&& 1
  let peer := mdev.p_uuid Bitmap &&& 1
  let ch_peer := mdev.p_uuid UUID_SIZE
  let ch_self := mdev.comm_bm_set
  let least_chg : Int :=
    if ch_self < ch_peer then -1
    else if ch_self > ch_peer then 1
    else if mdev.discard_concurrent then -1 else 1
  let zero_chg : Int :=
    if ch_peer = 0 ∧ ch_self = 0 then (if mdev.discard_concurrent then -1 else 1)
    else if ch_peer = 0 then 1
    else if ch_self = 0 then -1
    else if mdev.after_sb_0p = after_sb_handler.DiscardZeroChg then -100
    else least_chg
  let older_pri : Int :=
    if self = 0 ∧ peer = 1 then 1
    else if self = 1 ∧ peer = 0 then -1
    else zero_chg
  match mdev.after_sb_0p with
  | after_sb_handler.Consensus => -100
  | after_sb_handler.DiscardSecondary => -100
  | after_sb_handler.CallHelper => -100
  | after_sb_handler.Disconnect => -100
  | after_sb_handler.DiscardYoungerPri =>
    if self = 0 ∧ peer = 1 then -1
    else if self = 1 ∧ peer = 0 then 1
    else older_pri
  | after_sb_handler.DiscardOlderPri => older_pri
  | after_sb_handler.DiscardZeroChg => zero_chg
  | after_sb_handler.DiscardLeastChg => least_chg
  | after_sb_handler.DiscardLocal => -1
  | after_sb_handler.DiscardRemote => 1
  | after_sb_handler.Violently => -100

/-- A device with the policy `DiscardLeastChg` whose change count, 7, is
smaller than the peer's, 9. -/
def least_chg_mdev : drbd_conf :=
  { sample_mdev with
    after_sb_0p := after_sb_handler.DiscardLeastChg, comm_bm_set := 7,
    p_uuid := fun i => if i = UUID_SIZE then 9 else 0 }

/-! ### Role changes (`drbd_nl.c`) -/

/-- `disk_mask`, the field `disk` or `pdsk` with all its bits set. -/
def disk_mask : Nat := 15

/-- `drbd_req_state`: the return code and the device afterwards.  A cluster
wide state change asks the peer: `send_ok` is whether `drbd_send_state_req`
succeeds, `cond` the value of `_req_st_cond` that ends the wait for the peer's
answer. -/
def drbd_req_state (mdev : drbd_conf) (mask val : drbd_state_t) (f : Nat) (send_ok : Bool)
    (cond : Int) : Int × drbd_conf :=
  let os := mdev.state
  let ns := apply_mask os mask val
  if cl_wide_st_chg mdev os ns then
    let rv := is_valid_state mdev ns
    let rv := if rv = SS_Success then is_valid_state_transition mdev ns os else rv
    if rv < SS_Success then (rv, mdev)
    else if send_ok = false then (SS_CW_FailedByPeer, mdev)
    else if cond < SS_Success then (cond, mdev)
    else _drbd_set_state mdev (apply_mask mdev.state mask val) f
  else _drbd_set_state mdev ns f

/-- What the calls of `_drbd_request_state` do: call number `k` (from 0), on
the device and with the mask, value and flags given, returns a code and leaves
the device in some state.  The function waits while `drbd_req_state` returns
`SS_InTransientState`, and other threads change the state meanwhile, so its
results are arbitrary as far as `drbd_set_role` is concerned. -/
abbrev request_results := Nat → drbd_conf → drbd_state_t → drbd_state_t → Nat → Int × drbd_conf

/-- The results of `_drbd_request_state` while the state is not in
transition and no other thread interferes: those of `drbd_req_state`, with a
peer that agrees to every cluster wide change. -/
def request_now : request_results :=
  fun _ mdev mask val f => drbd_req_state mdev mask val f true SS_CW_Success

/-- `drbd_set_ed_uuid` and the store of `_drbd_uuid_set`. -/
def _drbd_uuid_set (mdev : drbd_conf) (idx : Nat) (val : Nat) : drbd_conf :=
  if idx = Current then
    let v := if mdev.state.role = Primary then val ||| 1 else uuid_strip val
    { mdev with ed_uuid := v, md_uuid := fun i => if i = idx then v else mdev.md_uuid i }
  else { mdev with md_uuid := fun i => if i = idx then val else mdev.md_uuid i }

/-- `drbd_uuid_new_current`: the old current UUID moves to the bitmap slot;
`val` is what `get_random_bytes` delivers. -/
def drbd_uuid_new_current (mdev : drbd_conf) (val : Nat) : drbd_conf :=
  let cur := mdev.md_uuid Current
  let m1 := { mdev with md_uuid := fun i => if i = Bitmap then cur else mdev.md_uuid i }
  _drbd_uuid_set m1 Current val

/-- The local variables of `drbd_set_role` that live across the rounds of
its loop, with the device and the numbers of calls of `_drbd_request_state` and
of the helper so far. -/
structure set_role_vars where
  mdev : drbd_conf
  calls : Nat
  helpers : Nat
  mask : drbd_state_t
  val : drbd_state_t
  forced : Bool
  tries : Nat
  r : Int

/-- A call of `_drbd_request_state` from `drbd_set_role`. -/
def set_role_request (rs : request_results) (s : set_role_vars) (mask val : drbd_state_t)
    (f : Nat) : set_role_vars :=
  let res := rs s.calls s.mdev mask val f
  { s with mdev := res.2, calls := s.calls + 1, r := res.1 }

/-- `drbd_try_outdate_peer`: the peer disk state found and the variables
afterwards (`r` is left alone).  `helper k` is the exit status
`(r>>8) & 0xff` of call number `k` of the `outdate-peer` helper. -/
def drbd_try_outdate_peer (rs : request_results) (helper : Nat → Nat) (s : set_role_vars) :
    Nat × set_role_vars :=
  if inc_local_if_state s.mdev Consistent then
    let fp := s.mdev.fencing
    let s1 :=
      if fp = Stonith then
        { set_role_request rs s { state_zero with susp := 1 } { state_zero with susp := 1 }
            ChgWaitComplete with r := s.r }
      else s
    let code := helper s1.helpers
    let s2 := { s1 with helpers := s1.helpers + 1 }
    if code = 3 then (Inconsistent, s2)
    else if code = 4 then (Outdated, s2)
    else if code = 5 then (Outdated, s2)
    else if code = 6 then
      (DUnknown,
       { set_role_request rs s2 { state_zero with disk := disk_mask }
           { state_zero with disk := Outdated } ChgWaitComplete with r := s.r })
    else if code = 7 then (Outdated, s2)
    else (DUnknown, s2)
  else (s.mdev.state.pdsk, s)

/-- The constant `max_tries` of `drbd_set_role`. -/
def max_tries : Nat := 4

/-- How a round of the loop of `drbd_set_role` ends: with `continue`, with
`goto fail`, or with `break`. -/
inductive round_end where
  | again
  | fail
  | leave
deriving DecidableEq, Repr

/-- The body of the loop of `drbd_set_role`, after `try++`: the variables
afterwards and how the round ends. -/
def set_role_round (rs : request_results) (helper : Nat → Nat) (force : Bool)
    (s : set_role_vars) : set_role_vars × round_end :=
  let s := set_role_request rs s s.mask s.val ChgWaitComplete
  if s.r = SS_CW_FailedByPeer ∧ s.mask.pdsk ≠ 0 then
    ({ s with val := { s.val with pdsk := 0 }, mask := { s.mask with pdsk := 0 } },
     round_end.again)
  else if s.r = SS_NoUpToDateDisk ∧ force = true ∧
      (s.mdev.state.disk = Inconsistent ∨ s.mdev.state.disk = Outdated) then
    ({ s with mask := { s.mask with disk := disk_mask },
              val := { s.val with disk := UpToDate }, forced := true },
     round_end.again)
  else if s.r = SS_NoUpToDateDisk ∧ s.mdev.state.disk = Consistent then
    let res := drbd_try_outdate_peer rs helper s
    let nps := res.1
    let s := res.2
    let s :=
      if nps = Outdated then
        { s with val := { s.val with disk := UpToDate },
                 mask := { s.mask with disk := disk_mask } }
      else s
    ({ s with val := { s.val with pdsk := nps }, mask := { s.mask with pdsk := disk_mask } },
     round_end.again)
  else if s.r = SS_NothingToDo then (s, round_end.fail)
  else if s.r = SS_PrimaryNOP then
    let res := drbd_try_outdate_peer rs helper s
    let nps := if force = true ∧ res.1 > Outdated then Outdated else res.1
    let s := res.2
    ({ s with mask := { s.mask with pdsk := disk_mask }, val := { s.val with pdsk := nps } },
     round_end.again)
  else if s.r = SS_TwoPrimaries then
    (if s.tries < max_tries then { s with tries := max_tries - 1 } else s, round_end.again)
  else if s.r < SS_Success then
    let s := set_role_request rs s s.mask s.val (ChgStateVerbose + ChgWaitComplete)
    if s.r < SS_Success then (s, round_end.fail) else (s, round_end.leave)
  else (s, round_end.leave)

/-- The loop `while (try++ < max_tries)` of `drbd_set_role`: the variables
when the loop is left and whether it is left by `goto fail`.  The first
argument bounds the number of times the condition is evaluated; every round
increments `try`, so `max_tries + 1` evaluations suffice. -/
def set_role_loop (rs : request_results) (helper : Nat → Nat) (force : Bool) :
    Nat → set_role_vars → set_role_vars × Bool
  | 0, s => (s, false)
  | fuel + 1, s =>
    if s.tries < max_tries then
      let res := set_role_round rs helper force { s with tries := s.tries + 1 }
      match res.2 with
      | round_end.again => set_role_loop rs helper force fuel res.1
      | round_end.fail => (res.1, true)
      | round_end.leave => (res.1, false)
    else ({ s with tries := s.tries + 1 }, false)

/-- The statements of `drbd_set_role` between the loop and the label `fail`:
the read-only flag of the virtual disk, the lowest bit of the current UUID, a
new current UUID (`random` is what `get_random_bytes` delivers), and the UUIDs
and the state sent to the peer.  The waits (`fsync_bdev`, `wait_event` for
`ap_pending_cnt == 0`) and the writes of the activity log and of the meta-data
to disk are left out. -/
def set_role_actions (mdev : drbd_conf) (new_role : Nat) (forced : Bool) (random : Nat) :
    drbd_conf :=
  let mdev :=
    if new_role = Secondary then
      let m1 := { mdev with disk_ro := true }
      if inc_local m1 then
        { m1 with md_uuid := fun i =>
            if i = Current then uuid_strip (m1.md_uuid Current) else m1.md_uuid i }
      else m1
    else
      let m1 := if inc_net mdev then { mdev with want_lose := false } else mdev
      let m2 := { m1 with disk_ro := false }
      if inc_local m2 then
        let m3 :=
          if ((m2.state.conn < Connected ∨ m2.state.pdsk ≤ Failed) ∧ m2.md_uuid Bitmap = 0)
              ∨ forced = true then
            drbd_uuid_new_current m2 random
          else m2
        { m3 with md_uuid := fun i =>
            if i = Current then m3.md_uuid Current ||| 1 else m3.md_uuid i }
      else m2
  if mdev.state.conn ≥ WFReportParams then
    let m1 := if forced = true then { mdev with uuids_sent := mdev.uuids_sent + 1 } else mdev
    { m1 with states_sent := m1.states_sent + 1 }
  else mdev

/-- `drbd_set_role`: the return code and the device afterwards. -/
def drbd_set_role (rs : request_results) (helper : Nat → Nat) (random : Nat)
    (mdev : drbd_conf) (new_role : Nat) (force : Bool) : Int × drbd_conf :=
  let s0 : set_role_vars :=
    { mdev := mdev, calls := 0, helpers := 0,
      mask := { state_zero with role := 3 }, val := { state_zero with role := new_role },
      forced := false, tries := 0, r := 0 }
  let res := set_role_loop rs helper force (max_tries + 1) s0
  let s := res.1
  if res.2 = true then (s.r, s.mdev)
  else (s.r, set_role_actions s.mdev new_role s.forced random)

/-! ### The sync handshake (`drbd_receiver.c`) -/

/-- `drbd_asb_recover_1p`: the automatic split-brain recovery with one
primary, and the device afterwards (`drbd_set_role` may change it).  The
helper `pri-lost-after-sb` is not modelled. -/
def drbd_asb_recover_1p (rs : request_results) (helper : Nat → Nat) (random : Nat)
    (mdev : drbd_conf) : Int × drbd_conf :=
  match mdev.after_sb_1p with
  | after_sb_handler.DiscardYoungerPri => (-100, mdev)
  | after_sb_handler.DiscardOlderPri => (-100, mdev)
  | after_sb_handler.DiscardLeastChg => (-100, mdev)
  | after_sb_handler.DiscardLocal => (-100, mdev)
  | after_sb_handler.DiscardRemote => (-100, mdev)
  | after_sb_handler.Disconnect => (-100, mdev)
  | after_sb_handler.Consensus =>
    let hg := drbd_asb_recover_0p mdev
    let rv : Int := if hg = -1 ∧ mdev.state.role = Secondary then hg else -100
    let rv : Int := if hg = 1 ∧ mdev.state.role = Primary then hg else rv
    (rv, mdev)
  | after_sb_handler.Violently => (drbd_asb_recover_0p mdev, mdev)
  | after_sb_handler.DiscardSecondary => (if mdev.state.role = Primary then 1 else -1, mdev)
  | after_sb_handler.CallHelper =>
    let hg := drbd_asb_recover_0p mdev
    if hg = -1 ∧ mdev.state.role = Primary then
      let res := drbd_set_role rs helper random mdev Secondary false
      if res.1 ≠ SS_Success then (-100, res.2) else (hg, res.2)
    else (hg, mdev)
  | after_sb_handler.DiscardZeroChg => (-100, mdev)

/-- `drbd_asb_recover_2p`: the automatic split-brain recovery with two
primaries, and the device afterwards. -/
def drbd_asb_recover_2p (rs : request_results) (helper : Nat → Nat) (random : Nat)
    (mdev : drbd_conf) : Int × drbd_conf :=
  match mdev.after_sb_2p with
  | after_sb_handler.DiscardYoungerPri => (-100, mdev)
  | after_sb_handler.DiscardOlderPri => (-100, mdev)
  | after_sb_handler.DiscardLeastChg => (-100, mdev)
  | after_sb_handler.DiscardLocal => (-100, mdev)
  | after_sb_handler.DiscardRemote => (-100, mdev)
  | after_sb_handler.Consensus => (-100, mdev)
  | after_sb_handler.DiscardSecondary => (-100, mdev)
  | after_sb_handler.Violently => (drbd_asb_recover_0p mdev, mdev)
  | after_sb_handler.Disconnect => (-100, mdev)
  | after_sb_handler.CallHelper =>
    let hg := drbd_asb_recover_0p mdev
    if hg = -1 then
      let res := drbd_set_role rs helper random mdev Secondary false
      if res.1 ≠ SS_Success then (-100, res.2) else (hg, res.2)
    else (hg, mdev)
  | after_sb_handler.DiscardZeroChg => (-100, mdev)

/-- The local disk state that `drbd_sync_handshake` decides on: `state.disk`,
or `new_state_tmp.disk` while `Negotiating`. -/
def sync_handshake_mydisk (mdev : drbd_conf) : Nat :=
  if mdev.state.disk = Negotiating then mdev.new_state_tmp.disk else mdev.state.disk

/-- The first part of `drbd_sync_handshake`, for a result of
`drbd_uuid_compare` other than -1000: the value of `hg` after the adjustment
to the disk states, the automatic and the manual split-brain recovery, and the
device at that point. -/
def sync_handshake_hg (rs : request_results) (helper : Nat → Nat) (random : Nat)
    (mdev : drbd_conf) (peer_role peer_disk : Nat) : Int × drbd_conf :=
  let mydisk := sync_handshake_mydisk mdev
  let hg := (drbd_uuid_compare mdev).1
  let hg : Int :=
    if (mydisk = Inconsistent ∧ peer_disk > Inconsistent) ∨
        (peer_disk = Inconsistent ∧ mydisk > Inconsistent) then
      let f := hg = -100 ∨ hg.natAbs = 2
      let h : Int := if mydisk > Inconsistent then 1 else -1
      if f then h * 2 else h
    else hg
  let res : Int × drbd_conf :=
    if hg = 100 ∨ (hg = -100 ∧ mdev.always_asbp = true) then
      let pcount := (if mdev.state.role = Primary then 1 else 0)
        + (if peer_role = Primary then 1 else 0)
      let forced := hg = -100
      let r : Int × drbd_conf :=
        if pcount = 0 then (drbd_asb_recover_0p mdev, mdev)
        else if pcount = 1 then drbd_asb_recover_1p rs helper random mdev
        else drbd_asb_recover_2p rs helper random mdev
      if r.1.natAbs < 100 ∧ forced then (r.1 * 2, r.2) else r
    else (hg, mdev)
  let hg := res.1
  let mdev := res.2
  let hg : Int :=
    if hg = -100 then
      let h : Int := if mdev.want_lose = true ∧ mdev.p_uuid UUID_FLAGS &&& 1 = 0 then -1 else hg
      if mdev.want_lose = false ∧ mdev.p_uuid UUID_FLAGS &&& 1 ≠ 0 then 1 else h
    else hg
  (hg, mdev)

/-- `drbd_sync_handshake`: the new connection state, or `conn_mask` on
failure, and the device afterwards.  `bitmap_io` is the return value of
`drbd_bitmap_io` if it is called; the helpers `split-brain` and `pri-lost` and
the recount of the bitmap are not modelled. -/
def drbd_sync_handshake (rs : request_results) (helper : Nat → Nat) (random : Nat)
    (bitmap_io : Int) (mdev : drbd_conf) (peer_role peer_disk : Nat) : Nat × drbd_conf :=
  let mydisk := sync_handshake_mydisk mdev
  if (drbd_uuid_compare mdev).1 = -1000 then (conn_mask, mdev)
  else
    let res := sync_handshake_hg rs helper random mdev peer_role peer_disk
    let hg := res.1
    let mdev := res.2
    if hg = -100 then (conn_mask, mdev)
    else if hg > 0 ∧ mydisk ≤ Inconsistent then (conn_mask, mdev)
    else if hg < 0 ∧ mdev.state.role = Primary ∧ mdev.state.disk ≥ Consistent ∧
        (mdev.rr_conflict = after_sb_handler.CallHelper ∨
         mdev.rr_conflict = after_sb_handler.Disconnect) then (conn_mask, mdev)
    else if hg.natAbs ≥ 2 ∧ bitmap_io ≠ 0 then (conn_mask, mdev)
    else if hg > 0 then (WFBitMapS, mdev)
    else if hg < 0 then (WFBitMapT, mdev)
    else (Connected, mdev)

/-- A device with an inconsistent disk whose peer, with an up-to-date disk,
has the same current UUID. -/
def inconsistent_mdev : drbd_conf :=
  { sample_mdev with
    state := { role := Secondary, peer := Unknown, conn := WFReportParams, disk := Inconsistent,
               pdsk := DUnknown, susp := 0, aftr_isp := 0, peer_isp := 0, user_isp := 0 } }

/-- A sequence of two calls: the bitmap of a device of `2^35` sectors (16 TB,
`2^32` bits) is allocated, which sets all its bits, and one call clears them
all. -/
def huge_ops : List bm_op :=
  [bm_op.resize 34359738368 (some (fun _ _ => 0)), bm_op.clear_bits 0 4294967295]

theorem LWPP_eq : LWPP = 512 := by decide
theorem MLPP_eq (x : Nat) : MLPP x = x % 512 := by
  have h : PAGE_SIZE / SIZEOF_LONG - 1 = 2 ^ 9 - 1 := by decide
  unfold MLPP
  rw [h, Nat.and_pow_two_sub_one_eq_mod]
theorem bpp_eq (x : Nat) : x &&& BPP_MASK = x % 32768 := by
  have h : BPP_MASK = 2 ^ 15 - 1 := by decide
  rw [h, Nat.and_pow_two_sub_one_eq_mod]
theorem and63_eq (x : Nat) : x &&& (BITS_PER_LONG - 1) = x % 64 := by
  have h : BITS_PER_LONG - 1 = 2 ^ 6 - 1 := by decide
  rw [h, Nat.and_pow_two_sub_one_eq_mod]
theorem shr_bpl (x : Nat) : x >>> LN2_BPL = x / 64 := by
  unfold LN2_BPL; rw [Nat.shiftRight_eq_div_pow]
theorem shr_page (x : Nat) : x >>> (PAGE_SHIFT - LN2_BPL + 3) = x / 512 := by
  have h : PAGE_SHIFT - LN2_BPL + 3 = 9 := by decide
  rw [h, Nat.shiftRight_eq_div_pow]
theorem shr_page_shift (x : Nat) : x >>> PAGE_SHIFT = x / 4096 := by
  unfold PAGE_SHIFT; rw [Nat.shiftRight_eq_div_pow]
theorem ULONG_MOD_eq : ULONG_MOD = 18446744073709551616 := by decide
theorem ULONG_MAX_eq : ULONG_MAX = 2 ^ 64 - 1 := by decide
theorem memset_long_ff : memset_long 0xff = ULONG_MAX := by decide

theorem int_wrap_add (x d : Int) : int_wrap (int_wrap x + d) = int_wrap (x + d) := by
  unfold int_wrap
  omega

theorem int_wrap_small (z : Int) (h1 : -2147483648 ≤ z) (h2 : z < 2147483648) :
    int_wrap z = z := by
  unfold int_wrap
  omega

theorem int_wrap_zero : int_wrap 0 = 0 := by decide

theorem testBit_ULONG_MAX (j : Nat) : ULONG_MAX.testBit j = decide (j < 64) := by
  rw [ULONG_MAX_eq, Nat.testBit_two_pow_sub_one]

theorem testBit_mask (x k j : Nat) :
    (x &&& ((1 <<< k) - 1)).testBit j = (x.testBit j && decide (j < k)) := by
  rw [Nat.one_shiftLeft, Nat.testBit_and, Nat.testBit_two_pow_sub_one]

theorem testBit_not_mask (k j : Nat) (hj : j < 64) :
    (ulong_not ((1 <<< k) - 1)).testBit j = !decide (j < k) := by
  unfold ulong_not
  rw [Nat.one_shiftLeft, Nat.testBit_xor, testBit_ULONG_MAX, Nat.testBit_two_pow_sub_one]
  simp [hj]

theorem testBit_one_shl (k j : Nat) : (1 <<< k).testBit j = decide (k = j) := by
  rw [Nat.one_shiftLeft, Nat.testBit_two_pow]

theorem testBit_not_bit (k j : Nat) (hj : j < 64) :
    (ulong_not (1 <<< k)).testBit j = !decide (k = j) := by
  unfold ulong_not
  rw [Nat.testBit_xor, testBit_ULONG_MAX, testBit_one_shl]
  simp [hj]

theorem and_bit_ne_zero (x k : Nat) : decide (x &&& (1 <<< k) ≠ 0) = x.testBit k := by
  rw [Nat.one_shiftLeft]
  by_cases h : x.testBit k
  · have : x &&& 2 ^ k ≠ 0 := by
      intro h0
      have := Nat.testBit_and x (2 ^ k) k
      rw [h0] at this
      simp [h] at this
    simp [h, this]
  · have : x &&& 2 ^ k = 0 := by
      apply Nat.eq_of_testBit_eq
      intro i
      rw [Nat.testBit_and, Nat.testBit_two_pow]
      by_cases hi : k = i
      · subst hi; simp [h]
      · simp [hi]
    simp [h, this]

theorem shr_bit_ne_zero (x k : Nat) : decide (1 &&& (x >>> k) ≠ 0) = x.testBit k := by
  unfold Nat.testBit
  by_cases h : 1 &&& (x >>> k) = 0
  · rw [h]; rfl
  · have h2 : (1 &&& x >>> k != 0) = true := by
      simpa [bne_iff_ne] using h
    rw [h2]; exact decide_eq_true h

/-! ## Counting -/

theorem countBits_zero (p : Nat → Bool) : countBits p 0 = 0 := rfl

theorem countBits_succ (p : Nat → Bool) (n : Nat) :
    countBits p (n + 1) = countBits p n + (if p n then 1 else 0) := by
  unfold countBits
  rw [List.range_succ, List.countP_append]
  by_cases h : p n <;> simp [h]

theorem countBits_congr {p q : Nat → Bool} {n : Nat} (h : ∀ i, i < n → p i = q i) :
    countBits p n = countBits q n := by
  induction n with
  | zero => rfl
  | succ k ih =>
    rw [countBits_succ, countBits_succ, ih (fun i hi => h i (by omega)), h k (by omega)]

theorem countBits_le (p : Nat → Bool) (n : Nat) : countBits p n ≤ n := by
  induction n with
  | zero => simp [countBits_zero]
  | succ k ih =>
    rw [countBits_succ]
    by_cases h : p k <;> simp [h] <;> omega

theorem countBits_add (p : Nat → Bool) (a k : Nat) :
    countBits p (a + k) = countBits p a + countBits (fun j => p (a + j)) k := by
  induction k with
  | zero => simp [countBits_zero]
  | succ m ih =>
    rw [← Nat.add_assoc, countBits_succ, ih, countBits_succ]
    omega

theorem countBits_true {p : Nat → Bool} {n : Nat} (h : ∀ i, i < n → p i = true) :
    countBits p n = n := by
  induction n with
  | zero => rfl
  | succ k ih =>
    rw [countBits_succ, ih (fun i hi => h i (by omega)), h k (by omega)]
    simp

theorem countBits_false {p : Nat → Bool} {n : Nat} (h : ∀ i, i < n → p i = false) :
    countBits p n = 0 := by
  induction n with
  | zero => rfl
  | succ k ih =>
    rw [countBits_succ, ih (fun i hi => h i (by omega)), h k (by omega)]
    simp

/-- Changing one position changes the count by the change at that position. -/
theorem countBits_update (p : Nat → Bool) (j : Nat) (v : Bool) (n : Nat) (hj : j < n) :
    countBits (fun i => if i = j then v else p i) n + (if p j then 1 else 0)
      = countBits p n + (if v then 1 else 0) := by
  induction n with
  | zero => omega
  | succ k ih =>
    rw [countBits_succ, countBits_succ]
    by_cases hk : j = k
    · subst hk
      have : countBits (fun i => if i = j then v else p i) j = countBits p j :=
        countBits_congr (fun i hi => by simp [Nat.ne_of_lt hi])
      rw [this]
      simp
      omega
    · have hj2 : j < k := by omega
      have := ih hj2
      have hkj : ¬ k = j := fun h => hk h.symm
      simp only [hkj, if_false]
      omega

theorem sumWeight_zero (f : Nat → Nat) : sumWeight f 0 = 0 := rfl

theorem sumWeight_succ (f : Nat → Nat) (n : Nat) :
    sumWeight f (n + 1) = sumWeight f n + hweight_long (f n) := by
  unfold sumWeight
  rw [List.range_succ, List.map_append, List.sum_append]
  simp

theorem hweight_eq (x : Nat) : hweight_long x = countBits (fun i => x.testBit i) 64 := rfl

theorem sumWeight_eq_countBits (f : Nat → Nat) (n : Nat) :
    sumWeight f n = countBits (fun i => (f (i / 64)).testBit (i % 64)) (64 * n) := by
  induction n with
  | zero => rfl
  | succ k ih =>
    rw [sumWeight_succ, ih, Nat.mul_succ, countBits_add, hweight_eq]
    congr 1
    apply countBits_congr
    intro i hi
    have h1 : (64 * k + i) / 64 = k := by omega
    have h2 : (64 * k + i) % 64 = i := by omega
    simp only [h1, h2]

@[simp] theorem poke_bm_fo (b : drbd_bitmap) (w v : Nat) : (poke b w v).bm_fo = b.bm_fo := rfl
@[simp] theorem poke_bm_set (b : drbd_bitmap) (w v : Nat) : (poke b w v).bm_set = b.bm_set := rfl
@[simp] theorem poke_bm_bits (b : drbd_bitmap) (w v : Nat) : (poke b w v).bm_bits = b.bm_bits := rfl
@[simp] theorem poke_bm_words (b : drbd_bitmap) (w v : Nat) :
    (poke b w v).bm_words = b.bm_words := rfl
@[simp] theorem poke_bm_number_of_pages (b : drbd_bitmap) (w v : Nat) :
    (poke b w v).bm_number_of_pages = b.bm_number_of_pages := rfl
@[simp] theorem poke_bm_dev_capacity (b : drbd_bitmap) (w v : Nat) :
    (poke b w v).bm_dev_capacity = b.bm_dev_capacity := rfl
@[simp] theorem poke_isSome (b : drbd_bitmap) (w v : Nat) :
    (poke b w v).bm_pages.isSome = b.bm_pages.isSome := by
  unfold poke; cases b.bm_pages <;> rfl

theorem wordAt_poke (b : drbd_bitmap) (w v w' : Nat) (h : b.bm_pages.isSome) :
    wordAt (poke b w v) w' = if w' = w then v else wordAt b w' := by
  unfold wordAt poke
  cases hp : b.bm_pages with
  | none => rw [hp] at h; cases h
  | some pages =>
    simp only [Option.map_some']
    have hL : LWPP = 512 := LWPP_eq
    by_cases hw : w' = w
    · subst hw; simp
    · simp only [hw, if_false]
      by_cases hq : w' / LWPP = w / LWPP
      · have hr : w' % LWPP ≠ w % LWPP := by
          intro hr
          apply hw
          rw [hL] at hq hr
          omega
        rw [hq]
        simp [Function.update, hr]
      · simp [Function.update, hq]

theorem load_eq (b : drbd_bitmap) (w : Nat) (h : b.bm_pages.isSome) :
    load b (w / 512) (w % 512) = some (wordAt b w) := by
  unfold load wordAt
  have hL : LWPP = 512 := LWPP_eq
  cases hp : b.bm_pages with
  | none => rw [hp] at h; cases h
  | some pages =>
    have : w % 512 < LWPP := by rw [hL]; omega
    simp only [this, if_true]
    rw [hL]

theorem store_eq (b : drbd_bitmap) (w v : Nat) (h : b.bm_pages.isSome) :
    store b (w / 512) (w % 512) v = some (poke b w v) := by
  unfold store poke
  have hL : LWPP = 512 := LWPP_eq
  cases hp : b.bm_pages with
  | none => rw [hp] at h; cases h
  | some pages =>
    have : w % 512 < LWPP := by rw [hL]; omega
    simp only [this, if_true]
    rw [hL]
    rfl

theorem map_paddr_eq (b : drbd_bitmap) (w : Nat) (h : b.bm_pages.isSome)
    (hw : w < b.bm_number_of_pages * 512) : bm_map_paddr b w = some (w / 512) := by
  unfold bm_map_paddr
  cases hp : b.bm_pages with
  | none => rw [hp] at h; cases h
  | some pages =>
    have : ¬ (w / 512 ≥ b.bm_number_of_pages) := by
      have := Nat.div_lt_iff_lt_mul (by decide : 0 < 512) |>.mpr hw
      omega
    simp [shr_page, this]

theorem bind_some_eq {α β : Type} (x : α) (f : α → Option β) : (some x).bind f = f x := rfl

theorem geom_last_word (b : drbd_bitmap) (g : bm_geom b) (h : b.bm_bits / 64 < b.bm_words) :
    b.bm_bits / 64 + 1 = b.bm_words := by
  have := g.words
  omega

theorem bm_clear_surplus_eq (b : drbd_bitmap) (g : bm_geom b) :
    bm_clear_surplus b = some (cleared_surplus b,
      if b.bm_bits / 64 < b.bm_words then
        hweight_long (wordAt b (b.bm_bits / 64) &&& ulong_not (surplus_mask b)) else 0) := by
  have hroom := g.room
  have hw := g.words
  have hmap : bm_map_paddr b (b.bm_bits / 64) = some (b.bm_bits / 64 / 512) :=
    map_paddr_eq b _ g.pages (by omega)
  unfold bm_clear_surplus cleared_surplus surplus_mask
  simp only [shr_bpl, and63_eq, MLPP_eq, hmap, Option.bind_eq_bind, bind_some_eq, Option.pure_def]
  by_cases h : b.bm_bits / 64 < b.bm_words
  · have h2 : ¬ (b.bm_bits / 64 + 1 < b.bm_words) := by omega
    simp only [h, if_true, load_eq b _ g.pages, store_eq b _ _ g.pages, bind_some_eq,
      poke_bm_words, h2, if_false]
  · simp only [h, if_false, bind_some_eq]

theorem bm_set_surplus_eq (b : drbd_bitmap) (g : bm_geom b) :
    bm_set_surplus b = some (set_surplus b) := by
  have hroom := g.room
  have hw := g.words
  have hmap : bm_map_paddr b (b.bm_bits / 64) = some (b.bm_bits / 64 / 512) :=
    map_paddr_eq b _ g.pages (by omega)
  unfold bm_set_surplus set_surplus surplus_mask
  simp only [shr_bpl, and63_eq, MLPP_eq, hmap, Option.bind_eq_bind, bind_some_eq, Option.pure_def]
  by_cases h : b.bm_bits / 64 < b.bm_words
  · have h2 : ¬ (b.bm_bits / 64 + 1 < b.bm_words) := by omega
    simp only [h, if_true, load_eq b _ g.pages, store_eq b _ _ g.pages, bind_some_eq,
      poke_bm_words, h2, if_false]
  · simp only [h, if_false, bind_some_eq]

theorem bitAt_eq (b : drbd_bitmap) (i : Nat) :
    bitAt b i = (wordAt b (i / 64)).testBit (i % 64) := rfl

theorem bitAt_congr {b c : drbd_bitmap} {i : Nat} (h : wordAt c (i / 64) = wordAt b (i / 64)) :
    bitAt c i = bitAt b i := by
  rw [bitAt_eq, bitAt_eq, h]

theorem same_fields_refl (b : drbd_bitmap) : same_fields b b :=
  ⟨rfl, rfl, rfl, rfl, rfl, rfl, rfl⟩

theorem same_fields_trans {a b c : drbd_bitmap} (h1 : same_fields a b) (h2 : same_fields b c) :
    same_fields a c :=
  ⟨h2.fo.trans h1.fo, h2.set.trans h1.set, h2.bits.trans h1.bits, h2.words.trans h1.words,
   h2.number_of_pages.trans h1.number_of_pages, h2.dev_capacity.trans h1.dev_capacity,
   h2.pages.trans h1.pages⟩

theorem same_fields_poke (b : drbd_bitmap) (w v : Nat) : same_fields b (poke b w v) :=
  ⟨rfl, rfl, rfl, rfl, rfl, rfl, poke_isSome b w v⟩

theorem same_fields_geom {b c : drbd_bitmap} (h : same_fields b c) (g : bm_geom b) : bm_geom c :=
  ⟨by rw [h.pages]; exact g.pages, by rw [h.words, h.number_of_pages]; exact g.room,
   by rw [h.words, h.bits]; exact g.words⟩

theorem same_fields_cleared (b : drbd_bitmap) : same_fields b (cleared_surplus b) := by
  unfold cleared_surplus
  split
  · exact same_fields_poke _ _ _
  · exact same_fields_refl _

theorem same_fields_set_surplus (b : drbd_bitmap) : same_fields b (set_surplus b) := by
  unfold set_surplus
  split
  · exact same_fields_poke _ _ _
  · exact same_fields_refl _

theorem wordAt_cleared (b : drbd_bitmap) (g : bm_geom b) (w : Nat) :
    wordAt (cleared_surplus b) w =
      if w = b.bm_bits / 64 ∧ b.bm_bits / 64 < b.bm_words then wordAt b w &&& surplus_mask b
      else wordAt b w := by
  unfold cleared_surplus
  by_cases h : b.bm_bits / 64 < b.bm_words
  · simp only [h, if_true, and_true]
    rw [wordAt_poke _ _ _ _ g.pages]
    by_cases hw : w = b.bm_bits / 64
    · subst hw; simp
    · simp [hw]
  · simp [h]

theorem wordAt_set_surplus (b : drbd_bitmap) (g : bm_geom b) (w : Nat) :
    wordAt (set_surplus b) w =
      if w = b.bm_bits / 64 ∧ b.bm_bits / 64 < b.bm_words then
        wordAt b w ||| ulong_not (surplus_mask b)
      else wordAt b w := by
  unfold set_surplus
  by_cases h : b.bm_bits / 64 < b.bm_words
  · simp only [h, if_true, and_true]
    rw [wordAt_poke _ _ _ _ g.pages]
    by_cases hw : w = b.bm_bits / 64
    · subst hw; simp
    · simp [hw]
  · simp [h]

theorem bitAt_cleared (b : drbd_bitmap) (g : bm_geom b) (i : Nat) :
    bitAt (cleared_surplus b) i =
      if i < b.bm_bits then bitAt b i
      else if i < b.bm_words * 64 then false else bitAt b i := by
  have hw := g.words
  rw [bitAt_eq, bitAt_eq, wordAt_cleared b g]
  by_cases h : i / 64 = b.bm_bits / 64 ∧ b.bm_bits / 64 < b.bm_words
  · simp only [h, and_self, if_true]
    unfold surplus_mask
    rw [testBit_mask]
    by_cases hi : i < b.bm_bits
    · have : i % 64 < b.bm_bits % 64 := by omega
      simp [hi, this]
    · have h1 : ¬ (i % 64 < b.bm_bits % 64) := by omega
      have h2 : i < b.bm_words * 64 := by omega
      simp [hi, h1, h2]
  · simp only [h, if_false]
    by_cases hi : i < b.bm_bits
    · simp [hi]
    · have h2 : ¬ (i < b.bm_words * 64) := by omega
      simp [hi, h2]

theorem bitAt_set_surplus (b : drbd_bitmap) (g : bm_geom b) (i : Nat) :
    bitAt (set_surplus b) i =
      if i < b.bm_bits then bitAt b i
      else if i < b.bm_words * 64 then true else bitAt b i := by
  have hw := g.words
  rw [bitAt_eq, bitAt_eq, wordAt_set_surplus b g]
  by_cases h : i / 64 = b.bm_bits / 64 ∧ b.bm_bits / 64 < b.bm_words
  · simp only [h, and_self, if_true]
    unfold surplus_mask
    rw [Nat.testBit_or, testBit_not_mask _ _ (by omega)]
    by_cases hi : i < b.bm_bits
    · have : i % 64 < b.bm_bits % 64 := by omega
      simp [hi, this]
    · have h1 : ¬ (i % 64 < b.bm_bits % 64) := by omega
      have h2 : i < b.bm_words * 64 := by omega
      simp [hi, h1, h2]
  · simp only [h, if_false]
    by_cases hi : i < b.bm_bits
    · simp [hi]
    · have h2 : ¬ (i < b.bm_words * 64) := by omega
      simp [hi, h2]

theorem countBits_split {p q r : Nat → Bool} {n : Nat}
    (h : ∀ i, i < n → (if p i then 1 else 0) + (if q i then 1 else 0) = (if r i then 1 else 0)) :
    countBits p n + countBits q n = countBits r n := by
  induction n with
  | zero => rfl
  | succ k ih =>
    rw [countBits_succ, countBits_succ, countBits_succ]
    have h1 := ih (fun i hi => h i (by omega))
    have h2 := h k (by omega)
    omega

theorem same_fields_fill (v : Nat) (n : Nat) : ∀ (b : drbd_bitmap) (w : Nat),
    same_fields b (fill v n b w) := by
  induction n with
  | zero => intro b w; exact same_fields_refl b
  | succ k ih =>
    intro b w
    exact same_fields_trans (same_fields_poke b w v) (ih (poke b w v) (w + 1))

theorem wordAt_fill (v : Nat) (n : Nat) : ∀ (b : drbd_bitmap) (w w' : Nat),
    b.bm_pages.isSome = true →
    wordAt (fill v n b w) w' = if w ≤ w' ∧ w' < w + n then v else wordAt b w' := by
  induction n with
  | zero =>
    intro b w w' _
    have : ¬ (w ≤ w' ∧ w' < w + 0) := by omega
    simp only [fill, this, if_false]
  | succ k ih =>
    intro b w w' hp
    have hp2 : (poke b w v).bm_pages.isSome = true := by rw [poke_isSome]; exact hp
    simp only [fill]
    rw [ih (poke b w v) (w + 1) w' hp2, wordAt_poke b w v w' hp]
    by_cases h1 : w' = w
    · subst h1
      by_cases h2 : w' + 1 ≤ w' ∧ w' < w' + 1 + k
      · simp [h2]
      · have : w' ≤ w' ∧ w' < w' + (k + 1) := by omega
        simp [h2, this]
    · by_cases h2 : w + 1 ≤ w' ∧ w' < w + 1 + k
      · have : w ≤ w' ∧ w' < w + (k + 1) := by omega
        simp [h2, this]
      · have : ¬ (w ≤ w' ∧ w' < w + (k + 1)) := by omega
        simp [h1, h2, this]

theorem fill_add (v : Nat) (n m : Nat) : ∀ (b : drbd_bitmap) (w : Nat),
    fill v (n + m) b w = fill v m (fill v n b w) (w + n) := by
  induction n with
  | zero => intro b w; simp [fill]
  | succ k ih =>
    intro b w
    have : k + 1 + m = (k + m) + 1 := by omega
    rw [this]
    simp only [fill]
    rw [ih (poke b w v) (w + 1)]
    have : w + 1 + k = w + (k + 1) := by omega
    rw [this]

theorem memset_eq (p c : Nat) (n : Nat) : ∀ (b : drbd_bitmap) (bm : Nat),
    b.bm_pages.isSome = true → bm + n ≤ 512 →
    memset p c n b bm = some (fill (memset_long c) n b (p * 512 + bm)) := by
  induction n with
  | zero => intro b bm _ _; rfl
  | succ k ih =>
    intro b bm hp hb
    have h1 : (p * 512 + bm) / 512 = p := by omega
    have h2 : (p * 512 + bm) % 512 = bm := by omega
    have hs := store_eq b (p * 512 + bm) (memset_long c) hp
    rw [h1, h2] at hs
    have hp2 : (poke b (p * 512 + bm) (memset_long c)).bm_pages.isSome = true := by
      rw [poke_isSome]; exact hp
    simp only [memset, hs, Option.bind_eq_bind, bind_some_eq, fill]
    rw [ih _ (bm + 1) hp2 (by omega)]
    have : p * 512 + (bm + 1) = p * 512 + bm + 1 := by omega
    rw [this]

theorem ALIGN_512 (x : Nat) (h : x + 512 ≤ ULONG_MOD) : ALIGN x 512 = (x + 511) / 512 * 512 := by
  unfold ALIGN
  rw [ULONG_MOD_eq] at h
  have : (x + (512 - 1)) % ULONG_MOD = x + 511 := by
    rw [ULONG_MOD_eq]; omega
  rw [this]

theorem bm_memset_loop_eq (c end_ : Nat) (fuel : Nat) : ∀ (b : drbd_bitmap) (offset : Nat),
    b.bm_pages.isSome = true → end_ ≤ b.bm_number_of_pages * 512 → end_ + 1024 ≤ ULONG_MOD →
    offset ≤ end_ → end_ - offset ≤ fuel →
    bm_memset_loop c end_ fuel b offset = some (fill (memset_long c) (end_ - offset) b offset) := by
  induction fuel with
  | zero =>
    intro b offset _ _ _ h1 h2
    have : end_ - offset = 0 := by omega
    rw [this]; rfl
  | succ k ih =>
    intro b offset hp hroom hbig h1 h2
    unfold bm_memset_loop
    by_cases h : offset < end_
    · have hA := ALIGN_512 (offset + 1) (by omega)
      have hmap := map_paddr_eq b offset hp (by omega)
      simp only [h, if_true, LWPP_eq, hA, hmap, Option.bind_eq_bind, bind_some_eq, MLPP_eq]
      have hdn : offset % 512 + (min ((offset + 1 + 511) / 512 * 512) end_ - offset) ≤ 512 := by
        omega
      have hnot : ¬ (offset % 512 + (min ((offset + 1 + 511) / 512 * 512) end_ - offset) > 512) := by
        omega
      simp only [hnot, if_false]
      rw [memset_eq _ _ _ b _ hp hdn]
      simp only [bind_some_eq]
      have hoff : offset / 512 * 512 + offset % 512 = offset := by omega
      rw [hoff]
      have hsf := same_fields_fill (memset_long c)
        (min ((offset + 1 + 511) / 512 * 512) end_ - offset) b offset
      rw [ih _ _ (by rw [hsf.pages]; exact hp) (by rw [hsf.number_of_pages]; exact hroom) hbig
        (by omega) (by omega)]
      rw [← fill_add]
      congr 2
      omega
    · have : end_ - offset = 0 := by omega
      simp only [h, if_false, this, fill]

theorem bm_memset_eq (b : drbd_bitmap) (offset c len : Nat) (hp : b.bm_pages.isSome = true)
    (hroom : b.bm_words ≤ b.bm_number_of_pages * 512) (hbig : b.bm_words + 1024 ≤ ULONG_MOD)
    (hend : offset + len ≤ b.bm_words) :
    bm_memset b offset c len = some (fill (memset_long c) len b offset) := by
  unfold bm_memset
  have : ¬ (offset + len > b.bm_words) := by omega
  simp only [this, if_false]
  rw [bm_memset_loop_eq c (offset + len) len b offset hp (by omega) (by omega) (by omega) (by omega)]
  congr 2
  omega

/-! ### `bm_count_bits` -/

theorem sumWeight_add (f : Nat → Nat) (a k : Nat) :
    sumWeight f (a + k) = sumWeight f a + sumWeight (fun j => f (a + j)) k := by
  induction k with
  | zero => rw [sumWeight_zero]; rfl
  | succ m ih =>
    rw [← Nat.add_assoc, sumWeight_succ, ih, sumWeight_succ]
    omega

theorem bm_count_words_eq (b : drbd_bitmap) (p : Nat) (hp : b.bm_pages.isSome = true) (n : Nat) :
    ∀ (bm acc : Nat), bm + n ≤ 512 →
    bm_count_words b p n bm acc
      = some (acc + sumWeight (fun k => wordAt b (p * 512 + bm + k)) n) := by
  induction n with
  | zero => intro bm acc _; rw [sumWeight_zero]; rfl
  | succ k ih =>
    intro bm acc hb
    have h1 : (p * 512 + bm) / 512 = p := by omega
    have h2 : (p * 512 + bm) % 512 = bm := by omega
    have hl := load_eq b (p * 512 + bm) hp
    rw [h1, h2] at hl
    simp only [bm_count_words, hl, Option.bind_eq_bind, bind_some_eq]
    rw [ih (bm + 1) _ (by omega)]
    have e : k + 1 = 1 + k := by omega
    rw [e, sumWeight_add, sumWeight_succ, sumWeight_zero]
    have e2 : ∀ j, p * 512 + (bm + 1) + j = p * 512 + bm + (1 + j) := by intro j; omega
    simp only [e2, Nat.add_zero, Nat.zero_add, Nat.add_assoc]

theorem bm_count_loop_eq (b : drbd_bitmap) (hp : b.bm_pages.isSome = true)
    (hroom : b.bm_words ≤ b.bm_number_of_pages * 512) (fuel : Nat) :
    ∀ (offset acc : Nat), offset % 512 = 0 ∨ offset = b.bm_words → offset ≤ b.bm_words →
    b.bm_words - offset ≤ fuel →
    bm_count_loop b fuel offset acc
      = some (acc + sumWeight (fun k => wordAt b (offset + k)) (b.bm_words - offset)) := by
  induction fuel with
  | zero =>
    intro offset acc _ h1 h2
    have : b.bm_words - offset = 0 := by omega
    rw [this, sumWeight_zero]; rfl
  | succ k ih =>
    intro offset acc hal0 h1 h2
    unfold bm_count_loop
    by_cases h : offset < b.bm_words
    · have hmap := map_paddr_eq b offset hp (by omega)
      have hal : offset % 512 = 0 := by omega
      simp only [h, if_true, hmap, Option.bind_eq_bind, bind_some_eq, MLPP_eq, LWPP_eq, hal]
      rw [bm_count_words_eq b _ hp _ 0 acc (by omega)]
      simp only [bind_some_eq]
      rw [ih _ _ (by omega) (by omega) (by omega)]
      have hoff : offset / 512 * 512 + 0 = offset := by omega
      have e : b.bm_words - offset
          = min (b.bm_words - offset) 512
            + (b.bm_words - (offset + min (b.bm_words - offset) 512)) := by omega
      conv => rhs; rw [e, sumWeight_add]
      simp only [hoff, Nat.add_assoc]
    · have : b.bm_words - offset = 0 := by omega
      simp only [h, if_false, this, sumWeight_zero, Nat.add_zero]

theorem bm_count_bits_eq (b : drbd_bitmap) (g : bm_geom b) :
    bm_count_bits b = some (sumWeight (wordAt b) b.bm_words) := by
  unfold bm_count_bits
  have hroom := g.room
  rw [bm_count_loop_eq b g.pages (by omega) b.bm_words 0 0 (by omega) (by omega) (by omega)]
  simp only [Nat.zero_add, Nat.sub_zero]

/-- With the surplus bits clear the weight of the words is the number of set
bits below `bm_bits`. -/
theorem sumWeight_eq_count (b : drbd_bitmap) (g : bm_geom b)
    (hs : ∀ i, b.bm_bits ≤ i → i < b.bm_words * 64 → bitAt b i = false) :
    sumWeight (wordAt b) b.bm_words = countBits (bitAt b) b.bm_bits := by
  rw [sumWeight_eq_countBits]
  have hw := g.words
  have e : 64 * b.bm_words = b.bm_bits + (64 * b.bm_words - b.bm_bits) := by omega
  rw [e, countBits_add]
  have : countBits (fun j => (fun i => (wordAt b (i / 64)).testBit (i % 64)) (b.bm_bits + j))
      (64 * b.bm_words - b.bm_bits) = 0 := by
    apply countBits_false
    intro i hi
    exact hs (b.bm_bits + i) (by omega) (by omega)
  rw [this]
  rfl

/-! ### Single bits and `bm_change_bits_to` -/

theorem same_fields_flip (val : Bool) (b : drbd_bitmap) (i : Nat) :
    same_fields b (flip_bit val b i) := same_fields_poke _ _ _

theorem bitAt_flip (val : Bool) (b : drbd_bitmap) (i j : Nat) (hp : b.bm_pages.isSome = true) :
    bitAt (flip_bit val b i) j = if j = i then val else bitAt b j := by
  rw [bitAt_eq, bitAt_eq]
  unfold flip_bit
  rw [wordAt_poke _ _ _ _ hp]
  by_cases hw : j / 64 = i / 64
  · rw [hw]
    simp only [if_true]
    cases val with
    | true =>
      simp only [if_true]
      rw [Nat.testBit_or, testBit_one_shl]
      by_cases hji : j = i
      · subst hji; simp
      · have : ¬ (i % 64 = j % 64) := by omega
        simp [hji, this]
    | false =>
      simp only [Bool.false_eq_true, if_false]
      rw [Nat.testBit_and, testBit_not_bit _ _ (by omega)]
      by_cases hji : j = i
      · subst hji; simp
      · have : ¬ (i % 64 = j % 64) := by omega
        simp [hji, this]
  · have hji : ¬ j = i := by intro h; apply hw; rw [h]
    simp only [hw, hji, if_false]

theorem test_and_set_bit_eq (b : drbd_bitmap) (i : Nat) (hp : b.bm_pages.isSome = true) :
    test_and_set_bit b (i &&& BPP_MASK) (i / 64 / 512) = some (flip_bit true b i, bitAt b i) := by
  unfold test_and_set_bit flip_bit
  have e1 : BITS_PER_LONG = 64 := rfl
  have e2 : i % 32768 / 64 = i / 64 % 512 := by omega
  have e3 : i % 32768 % 64 = i % 64 := by omega
  simp only [bpp_eq, e1, e2, e3, load_eq b _ hp, store_eq b _ _ hp, Option.bind_eq_bind,
    bind_some_eq, and_bit_ne_zero, if_true]
  rfl

theorem test_and_clear_bit_eq (b : drbd_bitmap) (i : Nat) (hp : b.bm_pages.isSome = true) :
    test_and_clear_bit b (i &&& BPP_MASK) (i / 64 / 512)
      = some (flip_bit false b i, bitAt b i) := by
  unfold test_and_clear_bit flip_bit
  have e1 : BITS_PER_LONG = 64 := rfl
  have e2 : i % 32768 / 64 = i / 64 % 512 := by omega
  have e3 : i % 32768 % 64 = i % 64 := by omega
  simp only [bpp_eq, e1, e2, e3, load_eq b _ hp, store_eq b _ _ hp, Option.bind_eq_bind,
    bind_some_eq, and_bit_ne_zero, Bool.false_eq_true, if_false]
  rfl

theorem test_bit_eq (b : drbd_bitmap) (i : Nat) (hp : b.bm_pages.isSome = true) :
    test_bit b (i &&& BPP_MASK) (i / 64 / 512) = some (bitAt b i) := by
  unfold test_bit
  have e1 : BITS_PER_LONG = 64 := rfl
  have e2 : i % 32768 / 64 = i / 64 % 512 := by omega
  have e3 : i % 32768 % 64 = i % 64 := by omega
  simp only [bpp_eq, e1, e2, e3, load_eq b _ hp, Option.bind_eq_bind, bind_some_eq,
    shr_bit_ne_zero]
  rfl

theorem bm_change_bit_eq (val : Bool) (st : change_bits_vars) (i : Nat)
    (hp : st.b.bm_pages.isSome = true) (hi : i < st.b.bm_bits)
    (hroom : st.b.bm_bits ≤ st.b.bm_number_of_pages * 512 * 64)
    (hpa : ∀ pn, st.last_page_nr = some pn → st.p_addr = some pn) :
    bm_change_bit val st i =
      some { b := flip_bit val st.b i, p_addr := some (i / 64 / 512),
             last_page_nr := some (i / 64 / 512),
             c := int_wrap (st.c + flip_delta val (bitAt st.b i)) } := by
  unfold bm_change_bit
  have h1 : ¬ (i ≥ st.b.bm_bits) := by omega
  have hmap := map_paddr_eq st.b (i / 64) hp (by omega)
  have hpaddr : (if some (i / 64 / 512) ≠ st.last_page_nr then bm_map_paddr st.b (i / 64)
      else st.p_addr) = some (i / 64 / 512) := by
    by_cases h : some (i / 64 / 512) = st.last_page_nr
    · have h2 := hpa _ h.symm
      rw [if_neg (fun hne => hne h)]
      exact h2
    · simp only [ne_eq, h, not_false_eq_true, if_true, hmap]
  simp only [h1, if_false, shr_bpl, shr_page, hpaddr, Option.bind_eq_bind, bind_some_eq]
  cases val with
  | true =>
    simp only [if_true, test_and_set_bit_eq st.b i hp, bind_some_eq, flip_delta]
  | false =>
    simp only [Bool.false_eq_true, if_false, test_and_clear_bit_eq st.b i hp, bind_some_eq,
      flip_delta]
    rfl

theorem same_fields_change_spec (val : Bool) (n : Nat) : ∀ (b : drbd_bitmap) (c : Int) (i : Nat),
    same_fields b (change_spec val n b c i).1 := by
  induction n with
  | zero => intro b c i; exact same_fields_refl b
  | succ k ih =>
    intro b c i
    exact same_fields_trans (same_fields_flip val b i) (ih _ _ _)

theorem bitAt_change_spec (val : Bool) (n : Nat) : ∀ (b : drbd_bitmap) (c : Int) (i j : Nat),
    b.bm_pages.isSome = true →
    bitAt (change_spec val n b c i).1 j = if i ≤ j ∧ j < i + n then val else bitAt b j := by
  induction n with
  | zero =>
    intro b c i j _
    have : ¬ (i ≤ j ∧ j < i + 0) := by omega
    simp only [change_spec, this, if_false]
  | succ k ih =>
    intro b c i j hp
    have hp2 : (flip_bit val b i).bm_pages.isSome = true := by
      rw [(same_fields_flip val b i).pages]; exact hp
    simp only [change_spec]
    rw [ih _ _ _ _ hp2, bitAt_flip _ _ _ _ hp]
    by_cases h1 : j = i
    · subst h1
      have h3 : j ≤ j ∧ j < j + (k + 1) := by omega
      by_cases h2 : j + 1 ≤ j ∧ j < j + 1 + k
      · omega
      · simp [h2, h3]
    · by_cases h2 : i + 1 ≤ j ∧ j < i + 1 + k
      · have : i ≤ j ∧ j < i + (k + 1) := by omega
        simp [h2, this]
      · have : ¬ (i ≤ j ∧ j < i + (k + 1)) := by omega
        simp [h1, h2, this]

theorem count_flip (val : Bool) (b : drbd_bitmap) (i N : Nat) (hp : b.bm_pages.isSome = true)
    (hi : i < N) :
    (countBits (bitAt (flip_bit val b i)) N : Int)
      = countBits (bitAt b) N + flip_delta val (bitAt b i) := by
  have e : countBits (bitAt (flip_bit val b i)) N
      = countBits (fun j => if j = i then val else bitAt b j) N :=
    countBits_congr (fun j _ => bitAt_flip val b i j hp)
  have h := countBits_update (bitAt b) i val N hi
  rw [e]
  unfold flip_delta
  cases val <;> cases hb : bitAt b i <;> simp [hb] at h ⊢ <;> omega

theorem count_change_spec (val : Bool) (n : Nat) : ∀ (b : drbd_bitmap) (c : Int) (i N : Nat),
    b.bm_pages.isSome = true → i + n ≤ N →
    (countBits (bitAt (change_spec val n b c i).1) N : Int) - (change_spec val n b c i).2
      = countBits (bitAt b) N - c := by
  induction n with
  | zero => intro b c i N _ _; rfl
  | succ k ih =>
    intro b c i N hp hN
    have hp2 : (flip_bit val b i).bm_pages.isSome = true := by
      rw [(same_fields_flip val b i).pages]; exact hp
    simp only [change_spec]
    rw [ih _ _ _ N hp2 (by omega), count_flip val b i N hp (by omega)]
    omega

/-- The loop of `bm_change_bits_to` computes the bitmap of `change_spec` and,
as an `int`, its count. -/
theorem bm_change_loop_eq (val : Bool) (n : Nat) :
    ∀ (st : change_bits_vars) (i : Nat) (c0 : Int), st.c = int_wrap c0 →
    st.b.bm_pages.isSome = true → i + n ≤ st.b.bm_bits →
    st.b.bm_bits ≤ st.b.bm_number_of_pages * 512 * 64 →
    (∀ pn, st.last_page_nr = some pn → st.p_addr = some pn) →
    ∃ st1, bm_change_loop val n st i = some st1 ∧
      st1.b = (change_spec val n st.b c0 i).1 ∧
      st1.c = int_wrap (change_spec val n st.b c0 i).2 := by
  induction n with
  | zero => intro st i c0 hc _ _ _ _; exact ⟨st, rfl, rfl, hc⟩
  | succ k ih =>
    intro st i c0 hc hp hi hroom hpa
    have hstep := bm_change_bit_eq val st i hp (by omega) hroom hpa
    have hsf := same_fields_flip val st.b i
    simp only [bm_change_loop, hstep, Option.bind_eq_bind, bind_some_eq, change_spec]
    exact ih _ (i + 1) (c0 + flip_delta val (bitAt st.b i))
      (by show int_wrap (st.c + flip_delta val (bitAt st.b i)) = _; rw [hc, int_wrap_add])
      (by rw [hsf.pages]; exact hp) (by rw [hsf.bits]; omega)
      (by rw [hsf.bits, hsf.number_of_pages]; exact hroom)
      (by intro pn h; simp only [Option.some.injEq] at h ⊢; exact h)

/-! ### Sizes computed by `drbd_bm_resize` -/

theorem bits_of_capacity_lt (capacity : Nat) :
    BM_SECT_TO_BIT (ALIGN capacity BM_SECT_PER_BIT) < 2305843009213693952 := by
  unfold BM_SECT_TO_BIT ALIGN BM_SECT_PER_BIT
  rw [Nat.shiftRight_eq_div_pow, ULONG_MOD_eq]
  have := Nat.mod_lt (capacity + (8 - 1)) (by decide : 18446744073709551616 > 0)
  omega

theorem bits_of_capacity_zero : BM_SECT_TO_BIT (ALIGN 0 BM_SECT_PER_BIT) = 0 := by decide

theorem words_of_bits (bits : Nat) (h : bits < 2305843009213693952) :
    ALIGN bits 64 >>> LN2_BPL = (bits + 63) / 64 := by
  unfold ALIGN
  rw [shr_bpl, ULONG_MOD_eq]
  have e1 : (bits + (64 - 1)) % 18446744073709551616 = bits + 63 := by omega
  rw [e1]
  omega

theorem want_of_words (words : Nat) (h : words < 72057594037927936) :
    ALIGN ((words + 1) * SIZEOF_LONG) PAGE_SIZE >>> PAGE_SHIFT = (words + 512) / 512 := by
  have hP : PAGE_SIZE = 4096 := by decide
  unfold ALIGN SIZEOF_LONG
  rw [shr_page_shift, ULONG_MOD_eq, hP]
  have e1 : ((words + 1) * 8 + (4096 - 1)) % 18446744073709551616 = (words + 1) * 8 + 4095 := by
    omega
  rw [e1]
  omega

theorem inv_bits_lt (b : drbd_bitmap) (inv : bm_inv b) : b.bm_bits < 2305843009213693952 := by
  rw [inv.bits]; exact bits_of_capacity_lt _

theorem inv_pages_of_bits (b : drbd_bitmap) (inv : bm_inv b) (h : 0 < b.bm_bits) :
    b.bm_pages.isSome = true := by
  cases hp : b.bm_pages.isSome with
  | true => rfl
  | false =>
    have hc := inv.pages_cap.mp hp
    have hb := inv.bits
    rw [hc, bits_of_capacity_zero] at hb
    omega

theorem inv_geom (b : drbd_bitmap) (inv : bm_inv b) (hp : b.bm_pages.isSome = true) : bm_geom b :=
  ⟨hp, inv.room hp, inv.words⟩

theorem inv_init : bm_inv drbd_bm_init where
  null_empty := fun _ => rfl
  room := fun h => by cases h
  words := rfl
  bits := by decide
  pages_cap := ⟨fun _ => rfl, fun _ => rfl⟩
  surplus := fun i _ h => by
    have : drbd_bm_init.bm_words = 0 := rfl
    rw [this] at h; omega
  count := rfl

theorem wordAt_of_pages {b c : drbd_bitmap} (h : c.bm_pages = b.bm_pages) (w : Nat) :
    wordAt c w = wordAt b w := by
  unfold wordAt; rw [h]

theorem bitAt_of_pages {b c : drbd_bitmap} (h : c.bm_pages = b.bm_pages) (i : Nat) :
    bitAt c i = bitAt b i := by
  rw [bitAt_eq, bitAt_eq, wordAt_of_pages h]

/-! ### `bm_change_bits_to` on a consistent bitmap -/

/-- Setting the bits `s` to `e` of a bit vector to `v` changes the number of
set bits by the number of bits of the range that had the other value. -/
theorem countBits_range_update (p q : Nat → Bool) (v : Bool) (s e N : Nat) (hse : s ≤ e)
    (he : e < N) (hq : ∀ j, q j = if s ≤ j ∧ j ≤ e then v else p j) :
    (countBits q N : Int) = countBits p N +
      (if v = true then (countBits (fun j => !p (s + j)) (e + 1 - s) : Int)
       else -(countBits (fun j => p (s + j)) (e + 1 - s) : Int)) := by
  have hN : N = s + ((e + 1 - s) + (N - (e + 1))) := by omega
  have hp : countBits p N = countBits p s + (countBits (fun j => p (s + j)) (e + 1 - s)
      + countBits (fun j => p (s + (e + 1 - s + j))) (N - (e + 1))) := by
    conv => lhs; rw [hN]
    rw [countBits_add, countBits_add]
  have hq' : countBits q N = countBits q s + (countBits (fun j => q (s + j)) (e + 1 - s)
      + countBits (fun j => q (s + (e + 1 - s + j))) (N - (e + 1))) := by
    conv => lhs; rw [hN]
    rw [countBits_add, countBits_add]
  have h1 : countBits q s = countBits p s := by
    apply countBits_congr
    intro i hi
    rw [hq, if_neg (by omega)]
  have h3 : countBits (fun j => q (s + (e + 1 - s + j))) (N - (e + 1))
      = countBits (fun j => p (s + (e + 1 - s + j))) (N - (e + 1)) := by
    apply countBits_congr
    intro i hi
    show q (s + (e + 1 - s + i)) = p (s + (e + 1 - s + i))
    rw [hq, if_neg (by omega)]
  have h2 : countBits (fun j => q (s + j)) (e + 1 - s) = if v = true then e + 1 - s else 0 := by
    cases v with
    | true =>
      rw [if_pos rfl]
      apply countBits_true
      intro i hi
      show q (s + i) = true
      rw [hq, if_pos (by omega)]
    | false =>
      rw [if_neg (by decide)]
      apply countBits_false
      intro i hi
      show q (s + i) = false
      rw [hq, if_pos (by omega)]
  have hsplit : countBits (fun j => !p (s + j)) (e + 1 - s)
      + countBits (fun j => p (s + j)) (e + 1 - s) = e + 1 - s := by
    have h := @countBits_split (fun j => !p (s + j)) (fun j => p (s + j)) (fun _ => true)
      (e + 1 - s) (by
        intro i _
        show ((if (!p (s + i)) = true then 1 else 0) + if p (s + i) = true then 1 else 0) =
          if true = true then 1 else 0
        cases p (s + i) <;> simp)
    rw [h]
    exact countBits_true (fun _ _ => rfl)
  rw [hq', hp, h1, h3, h2]
  cases v with
  | true =>
    simp only [if_true]
    omega
  | false =>
    simp only [Bool.false_eq_true, if_false]
    omega

/-- What `bm_change_bits_to` does on a consistent bitmap, whatever the number
of bits it changes: the value returned is the `int` that remains of the number
`d` of bits changed (counted up for `val != 0`, down for `val == 0`), and that
`int` is added to `bm_set`. -/
theorem change_bits_eq (b : drbd_bitmap) (inv : bm_inv b) (s e : Nat) (val : Bool)
    (hse : s ≤ e) (he : e < b.bm_bits) :
    ∃ b1 d, bm_change_bits_to b s e val = some (b1, int_wrap d) ∧
      d = (if val = true then (countBits (fun j => !bitAt b (s + j)) (e + 1 - s) : Int)
           else -(countBits (fun j => bitAt b (s + j)) (e + 1 - s) : Int)) ∧
      same_fields b (with_set b1 b.bm_set) ∧
      (∀ j, bitAt b1 j = if s ≤ j ∧ j ≤ e then val else bitAt b j) ∧
      (countBits (bitAt b1) b.bm_bits : Int) = countBits (bitAt b) b.bm_bits + d ∧
      b1.bm_set = (((b.bm_set : Int) + int_wrap d) % (ULONG_MOD : Int)).toNat := by
  have hp : b.bm_pages.isSome = true := inv_pages_of_bits b inv (by omega)
  have hroom := inv.room hp
  have hwords := inv.words
  have hnone : b.bm_pages.isNone = false := by
    cases hb : b.bm_pages with
    | none => rw [hb] at hp; cases hp
    | some _ => rfl
  obtain ⟨st1, hloop, hb1, hc1⟩ := bm_change_loop_eq val (e + 1 - s)
    { b := b, p_addr := none, last_page_nr := none, c := 0 } s 0 int_wrap_zero.symm hp
    (by show s + (e + 1 - s) ≤ b.bm_bits; omega)
    (by show b.bm_bits ≤ b.bm_number_of_pages * 512 * 64; omega)
    (by intro pn h; cases h)
  simp only at hb1 hc1
  have hsf := same_fields_change_spec val (e + 1 - s) b 0 s
  have hbit := bitAt_change_spec val (e + 1 - s) b 0 s
  have hcnt := count_change_spec val (e + 1 - s) b 0 s b.bm_bits hp (by omega)
  rw [← hb1] at hsf hbit hcnt
  have hbit1 : ∀ j, bitAt st1.b j = if s ≤ j ∧ j ≤ e then val else bitAt b j := by
    intro j
    rw [hbit j hp]
    by_cases hj : s ≤ j ∧ j ≤ e
    · rw [if_pos hj, if_pos (by omega)]
    · rw [if_neg hj, if_neg (by omega)]
  have hupd := countBits_range_update (bitAt b) (bitAt st1.b) val s e b.bm_bits hse he hbit1
  have hpg : ({ st1.b with bm_set := (((st1.b.bm_set : Int) + st1.c) % (ULONG_MOD : Int)).toNat }
      : drbd_bitmap).bm_pages = st1.b.bm_pages := rfl
  refine ⟨{ st1.b with bm_set := (((st1.b.bm_set : Int) + st1.c) % (ULONG_MOD : Int)).toNat },
    (change_spec val (e + 1 - s) b 0 s).2, ?_, ?_, ?_, ?_, ?_, ?_⟩
  · unfold bm_change_bits_to
    simp only [hnone, Bool.false_eq_true, if_false, hloop, Option.bind_eq_bind, bind_some_eq, hc1]
  · omega
  · exact ⟨hsf.fo, rfl, hsf.bits, hsf.words, hsf.number_of_pages, hsf.dev_capacity, hsf.pages⟩
  · intro j
    rw [bitAt_of_pages hpg]
    exact hbit1 j
  · have e1 : countBits (bitAt ({ st1.b with bm_set :=
        (((st1.b.bm_set : Int) + st1.c) % (ULONG_MOD : Int)).toNat } : drbd_bitmap)) b.bm_bits
        = countBits (bitAt st1.b) b.bm_bits :=
      countBits_congr (fun i _ => bitAt_of_pages hpg i)
    rw [e1]
    omega
  · show (((st1.b.bm_set : Int) + st1.c) % (ULONG_MOD : Int)).toNat = _
    rw [hsf.set, hc1]

/-- A call of `bm_change_bits_to` that changes fewer than `2^31` bits keeps
the bitmap consistent and returns the number of bits changed. -/
theorem change_bits_inv (b : drbd_bitmap) (inv : bm_inv b) (s e : Nat) (val : Bool)
    (hse : s ≤ e) (he : e < b.bm_bits)
    (hflip : (if val = true then countBits (fun j => !bitAt b (s + j)) (e + 1 - s)
              else countBits (fun j => bitAt b (s + j)) (e + 1 - s)) < 2147483648) :
    ∃ b1 c, bm_change_bits_to b s e val = some (b1, c) ∧ bm_inv b1 ∧
      b1.bm_bits = b.bm_bits ∧ b1.bm_dev_capacity = b.bm_dev_capacity ∧
      b1.bm_fo = b.bm_fo ∧ b1.bm_pages.isSome = true ∧
      (∀ j, bitAt b1 j = if s ≤ j ∧ j ≤ e then val else bitAt b j) ∧
      (b1.bm_set : Int) = b.bm_set + c := by
  have hp : b.bm_pages.isSome = true := inv_pages_of_bits b inv (by omega)
  obtain ⟨b1, d, hcall, hd, hsf, hbit, hcnt, hset⟩ := change_bits_eq b inv s e val hse he
  have hbits : b1.bm_bits = b.bm_bits := hsf.bits
  have hw : b1.bm_words = b.bm_words := hsf.words
  have hnp : b1.bm_number_of_pages = b.bm_number_of_pages := hsf.number_of_pages
  have hcap : b1.bm_dev_capacity = b.bm_dev_capacity := hsf.dev_capacity
  have hpgs : b1.bm_pages.isSome = b.bm_pages.isSome := hsf.pages
  have hfo : b1.bm_fo = b.bm_fo := hsf.fo
  have hrange : -2147483648 ≤ d ∧ d < 2147483648 := by
    cases val
    · rw [if_neg Bool.false_ne_true] at hd hflip
      omega
    · rw [if_pos rfl] at hd hflip
      omega
  have hsmall : int_wrap d = d := int_wrap_small d hrange.1 hrange.2
  have hcb := countBits_le (bitAt b1) b.bm_bits
  have hcount := inv.count
  have hlt := inv_bits_lt b inv
  have hset1 : b1.bm_set = countBits (bitAt b1) b.bm_bits := by
    rw [hset, hsmall, ULONG_MOD_eq]
    omega
  rw [hsmall] at hcall
  refine ⟨b1, d, hcall, ?_, hbits, hcap, hfo, by rw [hpgs]; exact hp, hbit, by omega⟩
  refine ⟨?_, ?_, ?_, ?_, ?_, ?_, ?_⟩
  · intro h
    rw [hpgs, hp] at h; cases h
  · intro _
    rw [hw, hnp]; exact inv.room hp
  · rw [hw, hbits]; exact inv.words
  · rw [hbits, hcap]; exact inv.bits
  · rw [hpgs, hcap]; exact inv.pages_cap
  · intro i h1 h2
    rw [hbits] at h1
    rw [hw] at h2
    rw [hbit i, if_neg (by omega)]
    exact inv.surplus i h1 h2
  · rw [hbits]; exact hset1

/-! ### `drbd_bm_resize` -/

/-- The page-pointer array that `drbd_bm_resize` installs, when the allocator
does not fail: its slots below both the old and the new length hold the old
pointers. -/
theorem resize_npages (b : drbd_bitmap) (inv : bm_inv b) (want : Nat) (hwant : 0 < want)
    (alloc : Option (Nat → Page)) (ha : alloc.isSome = true ∨ want = b.bm_number_of_pages) :
    ∃ np, (if want = b.bm_number_of_pages then some (b.bm_pages.map (fun _ i => page_ref.old i))
           else bm_realloc_pages b.bm_pages b.bm_number_of_pages want alloc) = some (some np) ∧
      ∀ i, i < b.bm_number_of_pages → i < want → np i = page_ref.old i := by
  by_cases h : want = b.bm_number_of_pages
  · have hp : b.bm_pages.isSome = true := by
      cases hp : b.bm_pages.isSome with
      | true => rfl
      | false => have := inv.null_empty hp; omega
    cases hb : b.bm_pages with
    | none => rw [hb] at hp; cases hp
    | some pages =>
      refine ⟨fun i => page_ref.old i, ?_, fun i _ _ => rfl⟩
      simp only [h, if_true, Option.map_some']
  · have hal : alloc.isSome = true := by
      cases ha with
      | inl h1 => exact h1
      | inr h2 => exact absurd h2 h
    cases halloc : alloc with
    | none => rw [halloc] at hal; cases hal
    | some f =>
      have h1 : ¬ (b.bm_number_of_pages = 0 ∧ b.bm_pages.isSome = true) := by
        intro ⟨h0, hs⟩
        have := inv.room hs
        omega
      have h2 : ¬ (b.bm_number_of_pages ≠ 0 ∧ b.bm_pages.isNone = true) := by
        intro ⟨h0, hs⟩
        have hs2 : b.bm_pages.isSome = false := by
          cases hb : b.bm_pages with
          | none => rfl
          | some _ => rw [hb] at hs; cases hs
        exact h0 (inv.null_empty hs2)
      have h3 : ¬ (b.bm_number_of_pages = want) := fun e => h e.symm
      unfold bm_realloc_pages
      simp only [h, h1, h2, h3, if_false]
      by_cases hge : want ≥ b.bm_number_of_pages
      · refine ⟨_, by simp only [hge, if_true]; rfl, ?_⟩
        intro i hi _
        simp only [hi, if_true]
      · refine ⟨_, by simp only [hge, if_false]; rfl, ?_⟩
        intro i _ hi
        simp only [hi, if_true]

/-- A failed allocation makes `drbd_bm_resize` return `-ENOMEM`. -/
theorem resize_npages_fail (b : drbd_bitmap) (inv : bm_inv b) (want : Nat)
    (alloc : Option (Nat → Page)) (ha : ¬ (alloc.isSome = true ∨ want = b.bm_number_of_pages)) :
    (if want = b.bm_number_of_pages then some (b.bm_pages.map (fun _ i => page_ref.old i))
     else bm_realloc_pages b.bm_pages b.bm_number_of_pages want alloc) = some none := by
  have h : ¬ want = b.bm_number_of_pages := fun e => ha (Or.inr e)
  have hal : alloc = none := by
    cases halloc : alloc with
    | none => rfl
    | some f => exact absurd (Or.inl (by rw [halloc]; rfl)) ha
  have h1 : ¬ (b.bm_number_of_pages = 0 ∧ b.bm_pages.isSome = true) := by
    intro ⟨h0, hs⟩
    have := inv.room hs
    omega
  have h2 : ¬ (b.bm_number_of_pages ≠ 0 ∧ b.bm_pages.isNone = true) := by
    intro ⟨h0, hs⟩
    have hs2 : b.bm_pages.isSome = false := by
      cases hb : b.bm_pages with
      | none => rfl
      | some _ => rw [hb] at hs; cases hs
    exact h0 (inv.null_empty hs2)
  have h3 : ¬ (b.bm_number_of_pages = want) := fun e => h e.symm
  unfold bm_realloc_pages
  simp only [h, h1, h2, h3, if_false, hal]

theorem geom_resized (b1 : drbd_bitmap) (np : Nat → page_ref) (alloc : Option (Nat → Page))
    (capacity bits : Nat) : bm_geom (resized_pages b1 np alloc capacity bits) :=
  ⟨rfl, by show (bits + 63) / 64 + 1 ≤ ((bits + 63) / 64 + 512) / 512 * 512; omega, rfl⟩

theorem wordAt_resized (b1 : drbd_bitmap) (np : Nat → page_ref) (alloc : Option (Nat → Page))
    (capacity bits w : Nat) (hp : b1.bm_pages.isSome = true)
    (hnp : np (w / 512) = page_ref.old (w / 512)) :
    wordAt (resized_pages b1 np alloc capacity bits) w = wordAt b1 w := by
  unfold wordAt resized_pages resolve_pages
  cases hb : b1.bm_pages with
  | none => rw [hb] at hp; cases hp
  | some pages => simp only [LWPP_eq, hnp]

theorem geom_with_set {b : drbd_bitmap} (g : bm_geom b) (n : Nat) : bm_geom (with_set b n) :=
  ⟨g.pages, g.room, g.words⟩

theorem bitAt_with_set (b : drbd_bitmap) (n i : Nat) : bitAt (with_set b n) i = bitAt b i := rfl

/-- First step of the resize proper: the surplus bits of the old bitmap are
set, if there is an old bitmap. -/
theorem resize_step1 (b : drbd_bitmap) (inv : bm_inv b) :
    ∃ b1, (if b.bm_pages.isSome = true then bm_set_surplus b else some b) = some b1 ∧
      same_fields b b1 ∧
      ∀ i, i < b.bm_words * 64 → bitAt b1 i = if i < b.bm_bits then bitAt b i else true := by
  cases hp : b.bm_pages.isSome with
  | true =>
    have g := inv_geom b inv hp
    refine ⟨set_surplus b, ?_, same_fields_set_surplus b, ?_⟩
    · simp only [if_true, bm_set_surplus_eq b g]
    · intro i hi
      rw [bitAt_set_surplus b g]
      simp only [hi, if_true]
  | false =>
    refine ⟨b, ?_, same_fields_refl b, ?_⟩
    · simp only [Bool.false_eq_true, if_false]
    · intro i hi
      have hc := inv.pages_cap.mp hp
      have hb := inv.bits
      rw [hc, bits_of_capacity_zero] at hb
      have hw := inv.words
      omega

theorem countBits_split_at (p : Nat → Bool) (a n : Nat) (h : a ≤ n) :
    countBits p n = countBits p a + countBits (fun j => p (a + j)) (n - a) := by
  have e : n = a + (n - a) := by omega
  conv => lhs; rw [e, countBits_add]

theorem with_set_eq (b : drbd_bitmap) (n : Nat) :
    with_set b n =
      { bm_pages := b.bm_pages, bm_fo := b.bm_fo, bm_set := n, bm_bits := b.bm_bits,
        bm_words := b.bm_words, bm_number_of_pages := b.bm_number_of_pages,
        bm_dev_capacity := b.bm_dev_capacity } := rfl

theorem resize_grow (b : drbd_bitmap) (inv : bm_inv b) (capacity : Nat)
    (hne : capacity ≠ b.bm_dev_capacity) (h0 : capacity ≠ 0)
    (alloc : Option (Nat → Page))
    (ha : alloc.isSome = true ∨
      ALIGN ((ALIGN (BM_SECT_TO_BIT (ALIGN capacity BM_SECT_PER_BIT)) 64 >>> LN2_BPL + 1) * SIZEOF_LONG)
        PAGE_SIZE >>> PAGE_SHIFT = b.bm_number_of_pages)
    (hgrow : BM_SECT_TO_BIT (ALIGN capacity BM_SECT_PER_BIT) > b.bm_bits) :
    ∃ c, drbd_bm_resize b capacity alloc = some (0, c) ∧
      resized b c capacity (BM_SECT_TO_BIT (ALIGN capacity BM_SECT_PER_BIT)) := by
  have hbits := bits_of_capacity_lt capacity
  generalize hB : BM_SECT_TO_BIT (ALIGN capacity BM_SECT_PER_BIT) = bits at *
  have hwords := words_of_bits bits hbits
  have hwant := want_of_words ((bits + 63) / 64) (by omega)
  rw [hwords] at ha
  rw [hwant] at ha
  obtain ⟨np, hnp, hold⟩ := resize_npages b inv (((bits + 63) / 64 + 512) / 512) (by omega) alloc ha
  obtain ⟨b1, hb1, hsf1, hbit1⟩ := resize_step1 b inv
  have how := inv.words
  have hcount := inv.count
  have hcle := countBits_le (bitAt b) b.bm_bits
  -- the bitmap with the new pages and sizes
  set B2 := resized_pages b1 np alloc capacity bits with hB2
  have g2 : bm_geom B2 := geom_resized b1 np alloc capacity bits
  have hm := bm_memset_eq B2 b.bm_words 255
    ((bits + 63) / 64 - b.bm_words) g2.pages
    (by have := g2.room; omega)
    (by show (bits + 63) / 64 + 1024 ≤ ULONG_MOD; rw [ULONG_MOD_eq]; omega)
    (by show b.bm_words + ((bits + 63) / 64 - b.bm_words) ≤ (bits + 63) / 64; omega)
  have hm' : bm_memset
      { bm_pages := some (resolve_pages np b1.bm_pages alloc), bm_fo := b1.bm_fo,
        bm_set := b1.bm_set, bm_bits := bits, bm_words := (bits + 63) / 64,
        bm_number_of_pages := ((bits + 63) / 64 + 512) / 512, bm_dev_capacity := capacity }
      b.bm_words 255 ((bits + 63) / 64 - b.bm_words)
      = some (fill (memset_long 255) ((bits + 63) / 64 - b.bm_words) B2 b.bm_words) := hm
  have hsf3 := same_fields_fill (memset_long 255) ((bits + 63) / 64 - b.bm_words) B2 b.bm_words
  set B3 := fill (memset_long 255) ((bits + 63) / 64 - b.bm_words) B2 b.bm_words with hB3
  have g3 : bm_geom B3 := same_fields_geom hsf3 g2
  -- the counter is bumped
  have g3s : bm_geom (with_set B3 ((B3.bm_set + (bits - b.bm_bits)) % ULONG_MOD)) :=
    geom_with_set g3 _
  have hn3 : B3.bm_number_of_pages = ((bits + 63) / 64 + 512) / 512 := hsf3.number_of_pages
  have hmap := map_paddr_eq _ ((bits + 63) / 64) g3s.pages
    (by show (bits + 63) / 64 < B3.bm_number_of_pages * 512; rw [hn3]; omega)
  have hst := store_eq _ ((bits + 63) / 64) DRBD_MAGIC g3s.pages
  have hsf4 := same_fields_poke (with_set B3 ((B3.bm_set + (bits - b.bm_bits)) % ULONG_MOD))
    ((bits + 63) / 64) DRBD_MAGIC
  have g4 := same_fields_geom hsf4 g3s
  have hcl := bm_clear_surplus_eq _ g4
  have hdec : decide (bits > b.bm_bits) = true := decide_eq_true hgrow
  refine ⟨cleared_surplus (poke (with_set B3 ((B3.bm_set + (bits - b.bm_bits)) % ULONG_MOD))
    ((bits + 63) / 64) DRBD_MAGIC), ?_, ?_⟩
  · unfold drbd_bm_resize
    rw [with_set_eq] at hmap hst
    simp only [hne, h0, if_false, hB, hwords, hwant, hnp, Option.bind_eq_bind, bind_some_eq,
      hb1, hdec, if_true, hm', Bool.not_true, Bool.false_eq_true, hmap, MLPP_eq, hst]
    rw [← with_set_eq, hcl]
    rfl
  · have hsfc := same_fields_cleared (poke (with_set B3 ((B3.bm_set + (bits - b.bm_bits)) % ULONG_MOD))
      ((bits + 63) / 64) DRBD_MAGIC)
    have hb4 : (poke (with_set B3 ((B3.bm_set + (bits - b.bm_bits)) % ULONG_MOD))
        ((bits + 63) / 64) DRBD_MAGIC).bm_bits = bits := hsf3.bits
    have hw4 : (poke (with_set B3 ((B3.bm_set + (bits - b.bm_bits)) % ULONG_MOD))
        ((bits + 63) / 64) DRBD_MAGIC).bm_words = (bits + 63) / 64 := hsf3.words
    have hkept : ∀ i, i < bits →
        bitAt (cleared_surplus (poke (with_set B3 ((B3.bm_set + (bits - b.bm_bits)) % ULONG_MOD))
          ((bits + 63) / 64) DRBD_MAGIC)) i = if i < b.bm_bits then bitAt b i else true := by
      intro i hi
      rw [bitAt_cleared _ g4, hb4]
      simp only [hi, if_true]
      have hne4 : ¬ (i / 64 = (bits + 63) / 64) := by omega
      have hwp : wordAt (poke (with_set B3 ((B3.bm_set + (bits - b.bm_bits)) % ULONG_MOD))
          ((bits + 63) / 64) DRBD_MAGIC) (i / 64)
          = wordAt (with_set B3 ((B3.bm_set + (bits - b.bm_bits)) % ULONG_MOD)) (i / 64) := by
        rw [wordAt_poke _ _ _ _ g3s.pages]; simp only [hne4, if_false]
      rw [bitAt_congr hwp, bitAt_with_set, bitAt_eq, wordAt_fill _ _ _ _ _ g2.pages]
      by_cases hnew : b.bm_words ≤ i / 64 ∧ i / 64 < b.bm_words + ((bits + 63) / 64 - b.bm_words)
      · simp only [hnew, and_self, if_true, memset_long_ff, testBit_ULONG_MAX]
        have h1 : i % 64 < 64 := by omega
        have h2 : ¬ (i < b.bm_bits) := by omega
        simp only [h1, h2, if_false, decide_True]
      · simp only [hnew, if_false]
        have hiw : i / 64 < b.bm_words := by omega
        have hpb : b.bm_pages.isSome = true := inv_pages_of_bits b inv (by omega)
        have hroom := inv.room hpb
        have hp1 : b1.bm_pages.isSome = true := by rw [hsf1.pages]; exact hpb
        have hnpi := hold (i / 64 / 512) (by omega) (by omega)
        rw [wordAt_resized b1 np alloc capacity bits (i / 64) hp1 hnpi, ← bitAt_eq]
        exact hbit1 i (by omega)
    refine ⟨same_fields_geom hsfc g4, by rw [hsfc.bits]; exact hb4,
      by rw [hsfc.dev_capacity]; exact hsf3.dev_capacity,
      by rw [hsfc.fo]; exact hsf3.fo.trans hsf1.fo, hkept, ?_, ?_⟩
    · intro i h1 h2
      rw [hsfc.words, hw4] at h2
      rw [bitAt_cleared _ g4, hb4, hw4]
      have : ¬ (i < bits) := by omega
      simp only [this, if_false, h2, if_true]
    · rw [hsfc.set]
      show (B3.bm_set + (bits - b.bm_bits)) % ULONG_MOD = _
      have hs3 : B3.bm_set = b.bm_set := hsf3.set.trans hsf1.set
      rw [countBits_split_at _ b.bm_bits bits (by omega)]
      have c1 : countBits (bitAt (cleared_surplus (poke (with_set B3
          ((B3.bm_set + (bits - b.bm_bits)) % ULONG_MOD)) ((bits + 63) / 64) DRBD_MAGIC)))
          b.bm_bits = countBits (bitAt b) b.bm_bits := by
        apply countBits_congr
        intro i hi
        rw [hkept i (by omega)]
        simp only [hi, if_true]
      have c2 : countBits (fun j => bitAt (cleared_surplus (poke (with_set B3
          ((B3.bm_set + (bits - b.bm_bits)) % ULONG_MOD)) ((bits + 63) / 64) DRBD_MAGIC))
          (b.bm_bits + j)) (bits - b.bm_bits) = bits - b.bm_bits := by
        apply countBits_true
        intro i hi
        rw [hkept _ (by omega)]
        have : ¬ (b.bm_bits + i < b.bm_bits) := by omega
        simp only [this, if_false]
      rw [c1, c2, hs3, hcount, ULONG_MOD_eq]
      omega

theorem resize_shrink (b : drbd_bitmap) (inv : bm_inv b) (capacity : Nat)
    (hne : capacity ≠ b.bm_dev_capacity) (h0 : capacity ≠ 0)
    (alloc : Option (Nat → Page))
    (ha : alloc.isSome = true ∨
      ALIGN ((ALIGN (BM_SECT_TO_BIT (ALIGN capacity BM_SECT_PER_BIT)) 64 >>> LN2_BPL + 1) * SIZEOF_LONG)
        PAGE_SIZE >>> PAGE_SHIFT = b.bm_number_of_pages)
    (hgrow : ¬ BM_SECT_TO_BIT (ALIGN capacity BM_SECT_PER_BIT) > b.bm_bits) :
    ∃ c, drbd_bm_resize b capacity alloc = some (0, c) ∧
      resized b c capacity (BM_SECT_TO_BIT (ALIGN capacity BM_SECT_PER_BIT)) := by
  have hbits := bits_of_capacity_lt capacity
  generalize hB : BM_SECT_TO_BIT (ALIGN capacity BM_SECT_PER_BIT) = bits at *
  have hwords := words_of_bits bits hbits
  have hwant := want_of_words ((bits + 63) / 64) (by omega)
  rw [hwords] at ha
  rw [hwant] at ha
  obtain ⟨np, hnp, hold⟩ := resize_npages b inv (((bits + 63) / 64 + 512) / 512) (by omega) alloc ha
  obtain ⟨b1, hb1, hsf1, hbit1⟩ := resize_step1 b inv
  have how := inv.words
  set B2 := resized_pages b1 np alloc capacity bits with hB2
  have g2 : bm_geom B2 := geom_resized b1 np alloc capacity bits
  have hmap := map_paddr_eq B2 ((bits + 63) / 64) g2.pages
    (by show (bits + 63) / 64 < ((bits + 63) / 64 + 512) / 512 * 512; omega)
  have hst := store_eq B2 ((bits + 63) / 64) DRBD_MAGIC g2.pages
  have hsf4 := same_fields_poke B2 ((bits + 63) / 64) DRBD_MAGIC
  have g4 := same_fields_geom hsf4 g2
  have hcl := bm_clear_surplus_eq _ g4
  have hsfc := same_fields_cleared (poke B2 ((bits + 63) / 64) DRBD_MAGIC)
  have g5 := same_fields_geom hsfc g4
  have hcb := bm_count_bits_eq _ g5
  have hdec : decide (bits > b.bm_bits) = false := decide_eq_false hgrow
  have hb4 : (poke B2 ((bits + 63) / 64) DRBD_MAGIC).bm_bits = bits := rfl
  have hw4 : (poke B2 ((bits + 63) / 64) DRBD_MAGIC).bm_words = (bits + 63) / 64 := rfl
  have hsurp : ∀ i, bits ≤ i → i < (bits + 63) / 64 * 64 →
      bitAt (cleared_surplus (poke B2 ((bits + 63) / 64) DRBD_MAGIC)) i = false := by
    intro i h1 h2
    rw [bitAt_cleared _ g4, hb4, hw4]
    have : ¬ (i < bits) := by omega
    simp only [this, if_false, h2, if_true]
  have hkept : ∀ i, i < bits →
      bitAt (cleared_surplus (poke B2 ((bits + 63) / 64) DRBD_MAGIC)) i
        = if i < b.bm_bits then bitAt b i else true := by
    intro i hi
    rw [bitAt_cleared _ g4, hb4]
    simp only [hi, if_true]
    have hne4 : ¬ (i / 64 = (bits + 63) / 64) := by omega
    have hwp : wordAt (poke B2 ((bits + 63) / 64) DRBD_MAGIC) (i / 64) = wordAt B2 (i / 64) := by
      rw [wordAt_poke _ _ _ _ g2.pages]; simp only [hne4, if_false]
    have hpb : b.bm_pages.isSome = true := inv_pages_of_bits b inv (by omega)
    have hroom := inv.room hpb
    have hp1 : b1.bm_pages.isSome = true := by rw [hsf1.pages]; exact hpb
    have hnpi := hold (i / 64 / 512) (by omega) (by omega)
    rw [bitAt_congr hwp, bitAt_eq, wordAt_resized b1 np alloc capacity bits (i / 64) hp1 hnpi,
      ← bitAt_eq]
    exact hbit1 i (by omega)
  refine ⟨with_set (cleared_surplus (poke B2 ((bits + 63) / 64) DRBD_MAGIC))
    (sumWeight (wordAt (cleared_surplus (poke B2 ((bits + 63) / 64) DRBD_MAGIC)))
      (cleared_surplus (poke B2 ((bits + 63) / 64) DRBD_MAGIC)).bm_words), ?_, ?_⟩
  · unfold drbd_bm_resize
    have hmap' : bm_map_paddr
        { bm_pages := some (resolve_pages np b1.bm_pages alloc), bm_fo := b1.bm_fo,
          bm_set := b1.bm_set, bm_bits := bits, bm_words := (bits + 63) / 64,
          bm_number_of_pages := ((bits + 63) / 64 + 512) / 512, bm_dev_capacity := capacity }
        ((bits + 63) / 64) = some ((bits + 63) / 64 / 512) := hmap
    have hst' : store
        { bm_pages := some (resolve_pages np b1.bm_pages alloc), bm_fo := b1.bm_fo,
          bm_set := b1.bm_set, bm_bits := bits, bm_words := (bits + 63) / 64,
          bm_number_of_pages := ((bits + 63) / 64 + 512) / 512, bm_dev_capacity := capacity }
        ((bits + 63) / 64 / 512) ((bits + 63) / 64 % 512) DRBD_MAGIC
        = some (poke B2 ((bits + 63) / 64) DRBD_MAGIC) := hst
    simp only [hne, h0, if_false, hB, hwords, hwant, hnp, Option.bind_eq_bind, bind_some_eq,
      hb1, hdec, Bool.not_false, if_true, Bool.false_eq_true, hmap', MLPP_eq, hst', hcl, hcb]
    rfl
  · refine ⟨geom_with_set g5 _, hsfc.bits.trans hb4, hsfc.dev_capacity, ?_, ?_, ?_, ?_⟩
    · show (cleared_surplus (poke B2 ((bits + 63) / 64) DRBD_MAGIC)).bm_fo = b.bm_fo
      rw [hsfc.fo]; exact hsf1.fo
    · intro i hi
      rw [bitAt_with_set]; exact hkept i hi
    · intro i h1 h2
      rw [bitAt_with_set]
      have h2' : i < (cleared_surplus (poke B2 ((bits + 63) / 64) DRBD_MAGIC)).bm_words * 64 := h2
      rw [hsfc.words, hw4] at h2'
      exact hsurp i h1 h2'
    · show sumWeight _ _ = countBits (bitAt (with_set _ _)) bits
      have := sumWeight_eq_count _ g5 (by
        intro i h1 h2
        rw [hsfc.bits, hb4] at h1
        rw [hsfc.words, hw4] at h2
        exact hsurp i h1 h2)
      rw [this, hsfc.bits, hb4]
      rfl

theorem resized_inv {b c : drbd_bitmap} {capacity : Nat} (h0 : capacity ≠ 0)
    (r : resized b c capacity (BM_SECT_TO_BIT (ALIGN capacity BM_SECT_PER_BIT))) : bm_inv c where
  null_empty := fun h => by rw [r.geom.pages] at h; cases h
  room := fun _ => r.geom.room
  words := r.geom.words
  bits := by rw [r.bm_bits, r.bm_dev_capacity]
  pages_cap := by
    rw [r.geom.pages, r.bm_dev_capacity]
    constructor
    · intro h; cases h
    · intro h; exact absurd h h0
  surplus := by rw [r.bm_bits]; exact r.surplus
  count := by rw [r.bm_bits]; exact r.count

/-- The bitmap that `drbd_bm_resize` leaves for capacity 0. -/
theorem inv_released (b : drbd_bitmap) :
    bm_inv { b with bm_pages := none, bm_number_of_pages := 0, bm_fo := 0, bm_set := 0,
                    bm_bits := 0, bm_words := 0, bm_dev_capacity := 0 } where
  null_empty := fun _ => rfl
  room := fun h => by cases h
  words := rfl
  bits := by decide
  pages_cap := ⟨fun _ => rfl, fun _ => rfl⟩
  surplus := fun i _ h => by
    have h' : i < 0 * 64 := h
    omega
  count := rfl

/-- Every call of `drbd_bm_resize` on a consistent bitmap returns: with 0 and
a consistent bitmap, or with `-ENOMEM` and the bitmap as it was. -/
theorem resize_total (b : drbd_bitmap) (inv : bm_inv b) (capacity : Nat)
    (alloc : Option (Nat → Page)) :
    ∃ err c, drbd_bm_resize b capacity alloc = some (err, c) ∧
      (err = 0 → bm_inv c ∧ c.bm_dev_capacity = capacity) ∧ (err ≠ 0 → c = b) := by
  by_cases hne : capacity = b.bm_dev_capacity
  · refine ⟨0, b, ?_, fun _ => ⟨inv, hne.symm⟩, fun h => absurd rfl h⟩
    unfold drbd_bm_resize
    simp only [hne, if_true]
  · by_cases h0 : capacity = 0
    · subst h0
      have hne' : ¬ (0 = b.bm_dev_capacity) := hne
      refine ⟨0, _, ?_, fun _ => ⟨inv_released b, rfl⟩, fun h => absurd rfl h⟩
      unfold drbd_bm_resize
      simp only [hne', if_false, if_true]
    · by_cases ha : alloc.isSome = true ∨
        ALIGN ((ALIGN (BM_SECT_TO_BIT (ALIGN capacity BM_SECT_PER_BIT)) 64 >>> LN2_BPL + 1)
          * SIZEOF_LONG) PAGE_SIZE >>> PAGE_SHIFT = b.bm_number_of_pages
      · by_cases hgrow : BM_SECT_TO_BIT (ALIGN capacity BM_SECT_PER_BIT) > b.bm_bits
        · obtain ⟨c, hc, hr⟩ := resize_grow b inv capacity hne h0 alloc ha hgrow
          exact ⟨0, c, hc, fun _ => ⟨resized_inv h0 hr, hr.bm_dev_capacity⟩, fun h => absurd rfl h⟩
        · obtain ⟨c, hc, hr⟩ := resize_shrink b inv capacity hne h0 alloc ha hgrow
          exact ⟨0, c, hc, fun _ => ⟨resized_inv h0 hr, hr.bm_dev_capacity⟩, fun h => absurd rfl h⟩
      · refine ⟨-ENOMEM, b, ?_, fun h => absurd h (by decide), fun _ => rfl⟩
        have hf := resize_npages_fail b inv _ alloc ha
        unfold drbd_bm_resize
        simp only [hne, h0, if_false, hf, Option.bind_eq_bind, bind_some_eq]

/-! ### Reading bits and the weight -/

theorem drbd_bm_test_bit_eq (b : drbd_bitmap) (inv : bm_inv b) (i : Nat) (hi : i < b.bm_bits) :
    drbd_bm_test_bit b i = some (if bitAt b i then 1 else 0) := by
  have hp := inv_pages_of_bits b inv (by omega)
  have hroom := inv.room hp
  have hw := inv.words
  have hnone : b.bm_pages.isNone = false := by
    cases hb : b.bm_pages with
    | none => rw [hb] at hp; cases hp
    | some _ => rfl
  have hmap := map_paddr_eq b (i / 64) hp (by omega)
  unfold drbd_bm_test_bit
  simp only [hnone, Bool.false_eq_true, if_false, hi, if_true, shr_bpl, hmap, Option.bind_eq_bind,
    bind_some_eq, test_bit_eq b i hp]

theorem bm_popcount_eq (b : drbd_bitmap) (inv : bm_inv b) :
    bm_popcount b = countBits (bitAt b) b.bm_bits := by
  unfold bm_popcount
  show countBits (fun i => decide (drbd_bm_test_bit b i = some 1)) b.bm_bits = _
  apply countBits_congr
  intro i hi
  rw [drbd_bm_test_bit_eq b inv i hi]
  cases bitAt b i <;> simp

theorem total_weight_eq (b : drbd_bitmap) (inv : bm_inv b) :
    drbd_bm_total_weight b = countBits (bitAt b) b.bm_bits := by
  unfold drbd_bm_total_weight
  cases hb : b.bm_pages with
  | none =>
    have hp : b.bm_pages.isSome = false := by rw [hb]; rfl
    have hc := inv.pages_cap.mp hp
    have hbits := inv.bits
    rw [hc, bits_of_capacity_zero] at hbits
    simp only [hbits, countBits_zero]
  | some _ => exact inv.count

/-! ### Sequences of calls -/

theorem bm_apply_inv (b : drbd_bitmap) (inv : bm_inv b) (op : bm_op) (c : drbd_bitmap)
    (h : bm_apply b op = some c) (hf : flips_ok b op = true) : bm_inv c := by
  cases op with
  | resize capacity alloc =>
    obtain ⟨err, c1, hr, h1, _⟩ := resize_total b inv capacity alloc
    unfold bm_apply at h
    by_cases hc : capacity < ULONG_MOD
    · simp only [hc, if_true, hr] at h
      by_cases he : err = 0
      · simp only [he, if_true, Option.some.injEq] at h
        rw [← h]; exact (h1 he).1
      · simp only [he, if_false] at h
        cases h
    · simp only [hc, if_false] at h
      cases h
  | set_bits s e =>
    unfold bm_apply at h
    have hfl : countBits (fun j => !bitAt b (s + j)) (e + 1 - s) < 2147483648 :=
      of_decide_eq_true hf
    by_cases hc : s ≤ e ∧ e < b.bm_bits
    · obtain ⟨b1, c1, hr, hinv, _⟩ := change_bits_inv b inv s e true hc.1 hc.2
        (by rw [if_pos rfl]; exact hfl)
      simp only [hc, and_self, if_true, drbd_bm_set_bits, hr, Option.map_some',
        Option.some.injEq] at h
      rw [← h]; exact hinv
    · simp only [hc, if_false] at h
      cases h
  | clear_bits s e =>
    unfold bm_apply at h
    have hfl : countBits (fun j => bitAt b (s + j)) (e + 1 - s) < 2147483648 :=
      of_decide_eq_true hf
    by_cases hc : s ≤ e ∧ e < b.bm_bits
    · obtain ⟨b1, c1, hr, hinv, _⟩ := change_bits_inv b inv s e false hc.1 hc.2
        (by rw [if_neg Bool.false_ne_true]; exact hfl)
      simp only [hc, and_self, if_true, drbd_bm_clear_bits, hr, Option.map_some',
        Option.some.injEq] at h
      rw [← h]; exact hinv
    · simp only [hc, if_false] at h
      cases h

theorem bm_run_inv (ops : List bm_op) : ∀ (b c : drbd_bitmap), bm_inv b →
    bm_run b ops = some c → run_flips_ok b ops = true → bm_inv c := by
  induction ops with
  | nil =>
    intro b c inv h _
    simp only [bm_run, Option.some.injEq] at h
    rw [← h]; exact inv
  | cons op rest ih =>
    intro b c inv h hf
    simp only [bm_run] at h
    cases h1 : bm_apply b op with
    | none => rw [h1] at h; cases h
    | some b1 =>
      rw [h1] at h
      simp only [run_flips_ok, h1, Bool.and_eq_true] at hf
      exact ih b1 c (bm_apply_inv b inv op b1 h1 hf.1) h hf.2

set_option maxRecDepth 100000 in
theorem sample_run : bm_run drbd_bm_init sample_ops = some sample_bitmap := by
  have h : (bm_run drbd_bm_init sample_ops).isSome = true := by decide
  unfold sample_bitmap
  cases hr : bm_run drbd_bm_init sample_ops with
  | none => rw [hr] at h; cases h
  | some b => rfl

/-- C1, amended. Bitmap count invariant: after every sequence of successful
`drbd_bm_resize` calls and range set/clear calls with `s <= e < bm_bits`, each
of which changes fewer than `2^31` bits, started on the freshly initialised
bitmap, `drbd_bm_total_weight` equals the number of bit numbers `i < bm_bits`
for which `drbd_bm_test_bit` returns 1. -/
theorem bitmap_count_invariant (ops : List bm_op) (b : drbd_bitmap)
    (h : bm_run drbd_bm_init ops = some b) (hf : run_flips_ok drbd_bm_init ops = true) :
    drbd_bm_total_weight b = bm_popcount b := by
  have inv := bm_run_inv ops drbd_bm_init b inv_init h hf
  rw [total_weight_eq b inv, bm_popcount_eq b inv]

set_option maxRecDepth 100000 in
theorem sample_flips : run_flips_ok drbd_bm_init sample_ops = true := by decide

set_option maxRecDepth 100000 in
theorem small_flips : run_flips_ok drbd_bm_init small_ops = true := by decide

/-- C1, amended, at the sample sequence of calls. -/
theorem bitmap_count_invariant_witness :
    bm_run drbd_bm_init sample_ops = some sample_bitmap ∧
    run_flips_ok drbd_bm_init sample_ops = true ∧
    drbd_bm_total_weight sample_bitmap = bm_popcount sample_bitmap :=
  ⟨sample_run, sample_flips,
   bitmap_count_invariant sample_ops sample_bitmap sample_run sample_flips⟩

theorem small_run : bm_run drbd_bm_init small_ops = some small_bitmap := by
  have h : (bm_run drbd_bm_init small_ops).isSome = true := by decide
  unfold small_bitmap
  cases hr : bm_run drbd_bm_init small_ops with
  | none => rw [hr] at h; cases h
  | some b => rfl

theorem small_inv : bm_inv small_bitmap :=
  bm_run_inv small_ops drbd_bm_init _ inv_init small_run small_flips

/-- Fields other than the page contents and `bm_set` agree. -/
theorem same_fields_with_set (b : drbd_bitmap) (n : Nat) :
    (with_set b n).bm_fo = b.bm_fo ∧ (with_set b n).bm_bits = b.bm_bits ∧
    (with_set b n).bm_words = b.bm_words ∧
    (with_set b n).bm_number_of_pages = b.bm_number_of_pages ∧
    (with_set b n).bm_dev_capacity = b.bm_dev_capacity ∧
    (with_set b n).bm_pages = b.bm_pages := ⟨rfl, rfl, rfl, rfl, rfl, rfl⟩

attribute [simp] Unknown Primary Secondary StandAlone Disconnecting Unconnected Timeout BrokenPipe
  NetworkFailure ProtocolError TearDown WFConnection WFReportParams Connected StartingSyncS
  StartingSyncT WFBitMapS WFBitMapT WFSyncUUID SyncSource SyncTarget VerifyS VerifyT PausedSyncS
  PausedSyncT conn_mask Diskless Attaching Failed Negotiating Inconsistent Outdated DUnknown
  Consistent UpToDate DontCare Resource Stonith SS_CW_NoNeed SS_CW_Success SS_NothingToDo
  SS_Success SS_UnknownError SS_TwoPrimaries SS_NoUpToDateDisk SS_BothInconsistent
  SS_SyncingDiskless SS_ConnectedOutdates SS_PrimaryNOP SS_ResyncRunning SS_AlreadyStandAlone
  SS_CW_FailedByPeer SS_IsDiskLess SS_DeviceInUse SS_NoNetConfig SS_NoVerifyAlg SS_NeedConnection
  SS_LowerThanOutdated SS_InTransientState SS_ConcurrentStChg SS_NotSupported ChgStateHard

theorem ite_le {c : Prop} [Decidable c] {a b m : Int} (ha : a ≤ m) (hb : b ≤ m) :
    (if c then a else b) ≤ m := by
  split <;> assumption

/-- `is_valid_state_transition` returns `SS_Success` or an error code. -/
theorem transition_le_success (mdev : drbd_conf) (ns os : drbd_state_t) :
    is_valid_state_transition mdev ns os ≤ SS_Success := by
  unfold is_valid_state_transition
  simp only []
  iterate 10 apply ite_le (by decide)
  decide

/-- `is_valid_state` returns `SS_Success` or an error code. -/
theorem valid_state_le_success (mdev : drbd_conf) (ns : drbd_state_t) :
    is_valid_state mdev ns ≤ SS_Success := by
  unfold is_valid_state
  simp only []
  by_cases hP : inc_net mdev = true ∧ ¬ mdev.two_primaries = true ∧ ns.role = Primary ∧
      ns.peer = Primary
  · rw [if_pos hP, if_pos (by decide)]
    decide
  · rw [if_neg hP, if_neg (by decide)]
    iterate 9 apply ite_le (by decide)
    decide

/-- The checks return `SS_Success` or an error code. -/
theorem checks_le_success (mdev : drbd_conf) (os ns : drbd_state_t) (flags : Nat) :
    pre_state_change_checks mdev os ns flags ≤ SS_Success := by
  unfold pre_state_change_checks
  simp only []
  split_ifs
  · exact transition_le_success mdev ns os
  · exact Int.le_of_lt (by assumption)
  · exact transition_le_success mdev ns os
  · exact Int.le_refl _

/-- C4. Commit atomicity of `_drbd_set_state`: a return value below
`SS_Success` or equal to `SS_NothingToDo` leaves the device unchanged, the
return value `SS_Success` means that the device state is the sanitised `ns` in
every field; there is no other return value. -/
theorem set_state_commit_atomic (mdev : drbd_conf) (ns : drbd_state_t) (flags : Nat) :
    (((_drbd_set_state mdev ns flags).1 < SS_Success ∨
        (_drbd_set_state mdev ns flags).1 = SS_NothingToDo) →
      (_drbd_set_state mdev ns flags).2 = mdev) ∧
    ((_drbd_set_state mdev ns flags).1 = SS_Success →
      (_drbd_set_state mdev ns flags).2.state = early_state_sanitising mdev mdev.state ns) ∧
    ((_drbd_set_state mdev ns flags).1 < SS_Success ∨
      (_drbd_set_state mdev ns flags).1 = SS_NothingToDo ∨
      (_drbd_set_state mdev ns flags).1 = SS_Success) := by
  have hle := checks_le_success mdev mdev.state (early_state_sanitising mdev mdev.state ns) flags
  by_cases h1 : early_state_sanitising mdev mdev.state ns = mdev.state
  · have e : _drbd_set_state mdev ns flags = (SS_NothingToDo, mdev) := by
      unfold _drbd_set_state
      simp only []
      rw [if_pos h1]
    rw [e]
    refine ⟨fun _ => rfl, fun h => ?_, Or.inr (Or.inl rfl)⟩
    have h' : SS_NothingToDo = SS_Success := h
    exact absurd h' (by decide)
  · by_cases h2 : pre_state_change_checks mdev mdev.state
        (early_state_sanitising mdev mdev.state ns) flags < SS_Success
    · have e : _drbd_set_state mdev ns flags = (pre_state_change_checks mdev mdev.state
          (early_state_sanitising mdev mdev.state ns) flags, mdev) := by
        unfold _drbd_set_state
        simp only []
        rw [if_neg h1, if_pos h2]
      rw [e]
      refine ⟨fun _ => rfl, fun h => ?_, Or.inl h2⟩
      have h3 : pre_state_change_checks mdev mdev.state
          (early_state_sanitising mdev mdev.state ns) flags = SS_Success := h
      rw [h3] at h2
      exact absurd h2 (by decide)
    · have heq : pre_state_change_checks mdev mdev.state
          (early_state_sanitising mdev mdev.state ns) flags = SS_Success :=
        Int.le_antisymm hle (Int.not_lt.mp h2)
      have e : _drbd_set_state mdev ns flags = (SS_Success,
          { mdev with state := early_state_sanitising mdev mdev.state ns }) := by
        unfold _drbd_set_state
        simp only []
        rw [if_neg h1, if_neg h2, heq]
      rw [e]
      refine ⟨fun h => ?_, fun _ => rfl, Or.inr (Or.inr rfl)⟩
      rcases h with h | h
      · have h' : SS_Success < SS_Success := h
        exact absurd h' (by decide)
      · have h' : SS_Success = SS_NothingToDo := h
        exact absurd h' (by decide)

/-- C4 at the sample device: the request for the role `Primary` is rejected
and the device is unchanged. -/
theorem set_state_commit_atomic_witness :
    (_drbd_set_state sample_mdev { sample_mdev.state with role := Primary } 0).1 < SS_Success ∧
    (_drbd_set_state sample_mdev { sample_mdev.state with role := Primary } 0).2
      = sample_mdev :=
  ⟨by decide,
   (set_state_commit_atomic sample_mdev { sample_mdev.state with role := Primary } 0).1
     (Or.inl (by decide))⟩

/-- C2, as stated, fails: on a device whose old state is rejected by
`is_valid_state` with `SS_TwoPrimaries`, the request `NS(user_isp, 1)` without
`ChgStateHard` leads to a sanitised state that `is_valid_state` rejects with
the same code; `drbd_change_state` returns `SS_Success` and commits it. -/
theorem change_state_validity_counterexample :
    0 &&& ChgStateHard = 0 ∧
    is_valid_state two_primaries_mdev
      (early_state_sanitising two_primaries_mdev two_primaries_mdev.state
        (apply_mask two_primaries_mdev.state NS_user_isp_mask NS_user_isp_val)) < SS_Success ∧
    (drbd_change_state two_primaries_mdev 0 NS_user_isp_mask NS_user_isp_val).1 = SS_Success ∧
    (drbd_change_state two_primaries_mdev 0 NS_user_isp_mask NS_user_isp_val).2.state
      ≠ two_primaries_mdev.state := by
  decide

/-- C2, amended. State transition validity: without `ChgStateHard`, if the
sanitised next state `ns` differs from the old state `os` and either
`is_valid_state_transition(ns, os)` fails, or `is_valid_state(ns)` fails with a
code other than the one `is_valid_state(os)` gives, then `drbd_change_state`
returns an error code and leaves the device as it was. -/
theorem change_state_validity (mdev : drbd_conf) (f : Nat) (mask val : drbd_state_t)
    (hf : f &&& ChgStateHard = 0)
    (hne : early_state_sanitising mdev mdev.state (apply_mask mdev.state mask val) ≠ mdev.state)
    (hbad :
      is_valid_state_transition mdev
        (early_state_sanitising mdev mdev.state (apply_mask mdev.state mask val)) mdev.state
          < SS_Success ∨
      (is_valid_state mdev
        (early_state_sanitising mdev mdev.state (apply_mask mdev.state mask val)) < SS_Success ∧
       is_valid_state mdev mdev.state ≠ is_valid_state mdev
        (early_state_sanitising mdev mdev.state (apply_mask mdev.state mask val)))) :
    (drbd_change_state mdev f mask val).1 < SS_Success ∧
    (drbd_change_state mdev f mask val).2 = mdev := by
  generalize hns : early_state_sanitising mdev mdev.state (apply_mask mdev.state mask val) = ns
    at hne hbad
  have hchk : pre_state_change_checks mdev mdev.state ns f < SS_Success := by
    unfold pre_state_change_checks
    simp only []
    rw [if_pos hf]
    by_cases h1 : is_valid_state mdev ns < SS_Success
    · rw [if_pos h1]
      by_cases h2 : is_valid_state mdev mdev.state = is_valid_state mdev ns
      · rw [if_pos h2]
        rcases hbad with h | ⟨_, h⟩
        · exact h
        · exact absurd h2 h
      · rw [if_neg h2]; exact h1
    · rw [if_neg h1]
      rcases hbad with h | ⟨h, _⟩
      · exact h
      · exact absurd h h1
  have e : drbd_change_state mdev f mask val
      = (pre_state_change_checks mdev mdev.state ns f, mdev) := by
    unfold drbd_change_state _drbd_set_state
    simp only []
    rw [hns, if_neg hne, if_pos hchk]
  rw [e]
  exact ⟨hchk, rfl⟩

theorem change_state_validity_witness :
    0 &&& ChgStateHard = 0 ∧
    early_state_sanitising sample_mdev sample_mdev.state
      (apply_mask sample_mdev.state NS_role_mask (NS_role_val Primary)) ≠ sample_mdev.state ∧
    (drbd_change_state sample_mdev 0 NS_role_mask (NS_role_val Primary)).1 < SS_Success ∧
    (drbd_change_state sample_mdev 0 NS_role_mask (NS_role_val Primary)).2 = sample_mdev :=
  ⟨by decide, by decide,
   change_state_validity sample_mdev 0 NS_role_mask (NS_role_val Primary) (by decide) (by decide)
     (Or.inr (by decide))⟩

/-! ### What the sanitising keeps -/

theorem sanitise_invalidate_role (os ns : drbd_state_t) :
    (sanitise_invalidate os ns).role = ns.role := by
  unfold sanitise_invalidate; split <;> rfl

theorem sanitise_net_error_role (os ns : drbd_state_t) :
    (sanitise_net_error os ns).role = ns.role := by
  unfold sanitise_net_error; split <;> rfl

theorem sanitise_after_net_error_role (os ns : drbd_state_t) :
    (sanitise_after_net_error os ns).role = ns.role := by
  unfold sanitise_after_net_error; split <;> rfl

theorem sanitise_disconnecting_role (os ns : drbd_state_t) :
    (sanitise_disconnecting os ns).role = ns.role := by
  unfold sanitise_disconnecting; split <;> rfl

theorem sanitise_peer_role (ns : drbd_state_t) : (sanitise_peer ns).role = ns.role := by
  unfold sanitise_peer; split <;> rfl

theorem sanitise_diskless_role (ns : drbd_state_t) : (sanitise_diskless ns).role = ns.role := by
  unfold sanitise_diskless; split <;> rfl

theorem sanitise_sync_abort_role (os ns : drbd_state_t) :
    (sanitise_sync_abort os ns).role = ns.role := by
  unfold sanitise_sync_abort; split <;> rfl

theorem sanitise_disk_role (ns : drbd_state_t) : (sanitise_disk ns).role = ns.role := by
  unfold sanitise_disk; split_ifs <;> rfl

theorem sanitise_pdsk_role (ns : drbd_state_t) : (sanitise_pdsk ns).role = ns.role := by
  unfold sanitise_pdsk; split_ifs <;> rfl

theorem sanitise_negotiating_role (mdev : drbd_conf) (ns : drbd_state_t) :
    (sanitise_negotiating mdev ns).role = ns.role := by
  unfold sanitise_negotiating; split_ifs <;> rfl

theorem sanitise_susp_role (fp : Nat) (ns : drbd_state_t) :
    (sanitise_susp fp ns).role = ns.role := by
  unfold sanitise_susp; split <;> rfl

theorem sanitise_pause_role (ns : drbd_state_t) : (sanitise_pause ns).role = ns.role := by
  unfold sanitise_pause; simp only []; split_ifs <;> rfl

/-- The sanitising never touches the role. -/
theorem sanitising_role (mdev : drbd_conf) (os ns : drbd_state_t) :
    (early_state_sanitising mdev os ns).role = ns.role := by
  unfold early_state_sanitising
  simp only [sanitise_pause_role, sanitise_susp_role, sanitise_negotiating_role,
    sanitise_pdsk_role, sanitise_disk_role, sanitise_sync_abort_role, sanitise_diskless_role,
    sanitise_peer_role, sanitise_disconnecting_role, sanitise_after_net_error_role,
    sanitise_net_error_role, sanitise_invalidate_role]

theorem sanitise_sync_abort_peer (os ns : drbd_state_t) :
    (sanitise_sync_abort os ns).peer = ns.peer := by
  unfold sanitise_sync_abort; split <;> rfl

theorem sanitise_disk_peer (ns : drbd_state_t) : (sanitise_disk ns).peer = ns.peer := by
  unfold sanitise_disk; split_ifs <;> rfl

theorem sanitise_pdsk_peer (ns : drbd_state_t) : (sanitise_pdsk ns).peer = ns.peer := by
  unfold sanitise_pdsk; split_ifs <;> rfl

theorem sanitise_negotiating_peer (mdev : drbd_conf) (ns : drbd_state_t) :
    (sanitise_negotiating mdev ns).peer = ns.peer := by
  unfold sanitise_negotiating; split_ifs <;> rfl

theorem sanitise_susp_peer (fp : Nat) (ns : drbd_state_t) :
    (sanitise_susp fp ns).peer = ns.peer := by
  unfold sanitise_susp; split <;> rfl

theorem sanitise_pause_peer (ns : drbd_state_t) : (sanitise_pause ns).peer = ns.peer := by
  unfold sanitise_pause; simp only []; split_ifs <;> rfl

/-- A request that keeps a connection state at or above `Connected` passes the
first six blocks of the sanitising unchanged. -/
theorem sanitising_while_connected (os ns : drbd_state_t) (h : ns.conn = os.conn)
    (hc : os.conn ≥ Connected) :
    sanitise_diskless (sanitise_peer (sanitise_disconnecting os
      (sanitise_after_net_error os (sanitise_net_error os (sanitise_invalidate os ns))))) = ns := by
  simp only [Connected, ge_iff_le] at hc
  have e1 : sanitise_invalidate os ns = ns := by
    unfold sanitise_invalidate
    rw [if_neg]
    intro ⟨_, h2⟩
    simp only [Connected] at h2
    omega
  have e2 : sanitise_net_error os ns = ns := by
    unfold sanitise_net_error
    rw [if_neg]
    intro ⟨_, h2⟩
    simp only [Disconnecting] at h2
    omega
  have e3 : sanitise_after_net_error os ns = ns := by
    unfold sanitise_after_net_error
    rw [if_neg]
    intro ⟨_, h2, _⟩
    simp only [TearDown] at h2
    omega
  have e4 : sanitise_disconnecting os ns = ns := by
    unfold sanitise_disconnecting
    rw [if_neg]
    intro ⟨h2, _⟩
    simp only [Disconnecting] at h2
    omega
  have e5 : sanitise_peer ns = ns := by
    unfold sanitise_peer
    rw [if_neg]
    intro h2
    simp only [Connected] at h2
    omega
  have e6 : sanitise_diskless ns = ns := by
    unfold sanitise_diskless
    rw [if_neg]
    intro ⟨h2, _⟩
    simp only [Disconnecting] at h2
    omega
  rw [e1, e2, e3, e4, e5, e6]

theorem ite_ne {c : Prop} [Decidable c] {a b m : Int} (ha : a ≠ m) (hb : b ≠ m) :
    (if c then a else b) ≠ m := by
  split <;> assumption

/-- The code `SS_TwoPrimaries` is only given for two primaries. -/
theorem valid_state_two_primaries (mdev : drbd_conf) (ns : drbd_state_t)
    (h : is_valid_state mdev ns = SS_TwoPrimaries) : ns.role = Primary ∧ ns.peer = Primary := by
  by_cases hP : inc_net mdev = true ∧ ¬ mdev.two_primaries = true ∧ ns.role = Primary ∧
      ns.peer = Primary
  · exact ⟨hP.2.2.1, hP.2.2.2⟩
  · exfalso
    unfold is_valid_state at h
    simp only [] at h
    rw [if_neg hP, if_neg (by decide)] at h
    revert h
    iterate 9 apply ite_ne (by decide)
    decide

/-- C3. Two-primary rejection: on a device with a network configuration and
`two_primaries` off, in a state with `conn >= Connected`, `peer == Primary` and
`role != Primary`, the request `role := Primary` without `ChgStateHard` makes
`_drbd_set_state` return `SS_TwoPrimaries` and leaves the device as it was. -/
theorem two_primary_rejection (mdev : drbd_conf) (flags : Nat)
    (hf : flags &&& ChgStateHard = 0) (hnet : mdev.have_net_conf = true)
    (htp : mdev.two_primaries = false) (hconn : mdev.state.conn ≥ Connected)
    (hpeer : mdev.state.peer = Primary) (hrole : mdev.state.role ≠ Primary) :
    _drbd_set_state mdev { mdev.state with role := Primary } flags = (SS_TwoPrimaries, mdev) := by
  generalize hns : early_state_sanitising mdev mdev.state { mdev.state with role := Primary } = ns
  have hr : ns.role = Primary := by
    rw [← hns, sanitising_role]
  have hp : ns.peer = Primary := by
    rw [← hns]
    unfold early_state_sanitising
    simp only [sanitise_pause_peer, sanitise_susp_peer, sanitise_negotiating_peer,
      sanitise_pdsk_peer, sanitise_disk_peer, sanitise_sync_abort_peer]
    rw [sanitising_while_connected mdev.state { mdev.state with role := Primary } rfl hconn]
    exact hpeer
  have hne : ns ≠ mdev.state := by
    intro h
    rw [h] at hr
    exact hrole hr
  have hv : is_valid_state mdev ns = SS_TwoPrimaries := by
    unfold is_valid_state
    simp only []
    have hP : inc_net mdev = true ∧ ¬ mdev.two_primaries = true ∧ ns.role = Primary ∧
        ns.peer = Primary := ⟨hnet, by rw [htp]; decide, hr, hp⟩
    rw [if_pos hP, if_pos (by decide)]
  have hos : is_valid_state mdev mdev.state ≠ is_valid_state mdev ns := by
    rw [hv]
    intro h
    exact hrole (valid_state_two_primaries mdev mdev.state h).1
  have hchk : pre_state_change_checks mdev mdev.state ns flags = SS_TwoPrimaries := by
    unfold pre_state_change_checks
    simp only []
    rw [if_pos hf, if_neg hos, hv, if_pos (by decide)]
  unfold _drbd_set_state
  simp only []
  rw [hns, if_neg hne, hchk, if_pos (by decide)]

theorem two_primary_rejection_witness :
    0 &&& ChgStateHard = 0 ∧ sample_mdev.have_net_conf = true ∧
    sample_mdev.two_primaries = false ∧ sample_mdev.state.conn ≥ Connected ∧
    sample_mdev.state.peer = Primary ∧ sample_mdev.state.role ≠ Primary ∧
    _drbd_set_state sample_mdev { sample_mdev.state with role := Primary } 0
      = (SS_TwoPrimaries, sample_mdev) :=
  ⟨by decide, rfl, rfl, by decide, rfl, by decide,
   two_primary_rejection sample_mdev 0 (by decide) rfl rfl (by decide) rfl (by decide)⟩

/-! ### The transfer log -/

theorem sanitise_peer_conn (ns : drbd_state_t) : (sanitise_peer ns).conn = ns.conn := by
  unfold sanitise_peer; split <;> rfl

theorem sanitise_diskless_conn (ns : drbd_state_t) : (sanitise_diskless ns).conn = ns.conn := by
  unfold sanitise_diskless; split <;> rfl

theorem sanitise_disk_conn (ns : drbd_state_t) : (sanitise_disk ns).conn = ns.conn := by
  unfold sanitise_disk; split_ifs <;> rfl

theorem sanitise_pdsk_conn (ns : drbd_state_t) : (sanitise_pdsk ns).conn = ns.conn := by
  unfold sanitise_pdsk; split_ifs <;> rfl

theorem sanitise_negotiating_conn (mdev : drbd_conf) (ns : drbd_state_t) :
    (sanitise_negotiating mdev ns).conn = ns.conn := by
  unfold sanitise_negotiating; split_ifs <;> rfl

theorem sanitise_susp_conn (fp : Nat) (ns : drbd_state_t) :
    (sanitise_susp fp ns).conn = ns.conn := by
  unfold sanitise_susp; split <;> rfl

theorem sanitise_sync_abort_conn (os ns : drbd_state_t) (h : ns.conn ≤ Connected) :
    (sanitise_sync_abort os ns).conn = ns.conn := by
  unfold sanitise_sync_abort
  rw [if_neg]
  intro ⟨_, h2, _⟩
  exact absurd h2 (Nat.not_lt.mpr h)

theorem sanitise_pause_conn (ns : drbd_state_t) (h : ns.conn ≤ Connected) :
    (sanitise_pause ns).conn = ns.conn := by
  simp only [Connected] at h
  have h1 : ¬ ns.conn = SyncSource := by simp only [SyncSource]; omega
  have h2 : ¬ ns.conn = SyncTarget := by simp only [SyncTarget]; omega
  have h3 : ¬ ns.conn = PausedSyncS := by simp only [PausedSyncS]; omega
  have h4 : ¬ ns.conn = PausedSyncT := by simp only [PausedSyncT]; omega
  unfold sanitise_pause
  simp only [h1, h2, h3, h4, if_false, ite_self]

/-- Up to `Connected`, the connection state is settled by the first four
blocks of the sanitising. -/
theorem sanitising_conn (mdev : drbd_conf) (os ns : drbd_state_t)
    (h : (sanitise_disconnecting os (sanitise_after_net_error os
      (sanitise_net_error os (sanitise_invalidate os ns)))).conn ≤ Connected) :
    (early_state_sanitising mdev os ns).conn
      = (sanitise_disconnecting os (sanitise_after_net_error os
          (sanitise_net_error os (sanitise_invalidate os ns)))).conn := by
  unfold early_state_sanitising
  simp only []
  generalize sanitise_disconnecting os (sanitise_after_net_error os
      (sanitise_net_error os (sanitise_invalidate os ns))) = n4 at h ⊢
  have h7 : (sanitise_sync_abort os (sanitise_diskless (sanitise_peer n4))).conn = n4.conn := by
    rw [sanitise_sync_abort_conn _ _ (by rw [sanitise_diskless_conn, sanitise_peer_conn]; exact h),
      sanitise_diskless_conn, sanitise_peer_conn]
  rw [sanitise_pause_conn _ (by
    rw [sanitise_susp_conn, sanitise_negotiating_conn, sanitise_pdsk_conn, sanitise_disk_conn, h7]
    exact h)]
  rw [sanitise_susp_conn, sanitise_negotiating_conn, sanitise_pdsk_conn, sanitise_disk_conn, h7]

/-- The connection state that the request `conn := ProtocolError` leads to. -/
theorem sanitising_protocol_error (mdev : drbd_conf) (os ns : drbd_state_t)
    (hns : ns.conn = ProtocolError) :
    (early_state_sanitising mdev os ns).conn =
      if os.conn ≤ Disconnecting ∨ (Timeout ≤ os.conn ∧ os.conn ≤ TearDown) then os.conn
      else ProtocolError := by
  have key : (sanitise_disconnecting os (sanitise_after_net_error os
      (sanitise_net_error os (sanitise_invalidate os ns)))).conn =
      if os.conn ≤ Disconnecting ∨ (Timeout ≤ os.conn ∧ os.conn ≤ TearDown) then os.conn
      else ProtocolError := by
    simp only [ProtocolError] at hns
    have e1 : sanitise_invalidate os ns = ns := by
      unfold sanitise_invalidate
      rw [if_neg]
      intro ⟨h1, _⟩
      simp only [StartingSyncS, StartingSyncT] at h1
      omega
    rw [e1]
    unfold sanitise_disconnecting sanitise_after_net_error sanitise_net_error
    simp only [Timeout, TearDown, Disconnecting, Unconnected, StandAlone, ProtocolError, hns]
    split_ifs <;> simp_all
    omega
  rw [sanitising_conn mdev os ns (by
    rw [key]
    simp only [Disconnecting, Timeout, TearDown, ProtocolError, Connected]
    split_ifs <;> omega)]
  exact key

theorem apply_mask_conn (os : drbd_state_t) (c : Nat) :
    (apply_mask os NS_conn_mask (NS_conn_val c)).conn = c := by
  show (os.conn &&& (31 ^^^ 31)) ||| c = c
  simp

/-- A forced state change always ends in the sanitised state and touches
nothing but the state. -/
theorem force_state_eq (mdev : drbd_conf) (mask val : drbd_state_t) :
    drbd_force_state mdev mask val
      = { mdev with state :=
            early_state_sanitising mdev mdev.state (apply_mask mdev.state mask val) } := by
  unfold drbd_force_state drbd_change_state _drbd_set_state pre_state_change_checks
  simp only []
  have h1 : ¬ (ChgStateHard &&& ChgStateHard = 0) := by decide
  have h2 : ¬ (SS_Success < SS_Success) := by decide
  rw [if_neg h1]
  by_cases h : early_state_sanitising mdev mdev.state (apply_mask mdev.state mask val) = mdev.state
  · rw [if_pos h, h]
  · rw [if_neg h, if_neg h2]

/-- C5, as stated, fails: the connection is in the network-error state
`NetworkFailure`, the oldest barrier is #4711 and the ack names the newer
barrier #4712; the transfer log is left as it is, but the connection state
stays `NetworkFailure`. -/
theorem barrier_fifo_counterexample :
    oldest_matches net_failed_mdev 4712 0 = false ∧
    (tl_release net_failed_mdev 4712 0).tl = net_failed_mdev.tl ∧
    (tl_release net_failed_mdev 4712 0).state.conn ≠ ProtocolError := by
  decide

/-- C5, amended. Barrier FIFO: `tl_release(barrier_nr, set_size)` accepts
exactly if the oldest barrier has this number and this size; it then drops the
oldest barrier from the head of the log (recycling it as the newest one when
`CREATE_BARRIER` is set) and leaves the state alone.  In every other case the
transfer log is left unchanged and `drbd_force_state(NS(conn, ProtocolError))`
is called: `conn` becomes `ProtocolError`, unless it is `StandAlone`,
`Disconnecting` or a network-error state, which it then keeps. -/
theorem barrier_fifo (mdev : drbd_conf) (barrier_nr set_size : Nat) :
    if oldest_matches mdev barrier_nr set_size = true then
      (tl_release mdev barrier_nr set_size).state = mdev.state ∧
      (tl_release mdev barrier_nr set_size).tl =
        mdev.tl.tail ++
          (if mdev.create_barrier = true then
            [_tl_add_barrier (mdev.tl.getLastD { br_number := 0, n_req := 0, w_cb := false })]
           else [])
    else
      (tl_release mdev barrier_nr set_size).tl = mdev.tl ∧
      tl_release mdev barrier_nr set_size
        = drbd_force_state mdev NS_conn_mask (NS_conn_val ProtocolError) ∧
      (tl_release mdev barrier_nr set_size).state.conn =
        if mdev.state.conn ≤ Disconnecting ∨
            (Timeout ≤ mdev.state.conn ∧ mdev.state.conn ≤ TearDown) then mdev.state.conn
        else ProtocolError := by
  have hforce : (drbd_force_state mdev NS_conn_mask (NS_conn_val ProtocolError)).tl = mdev.tl ∧
      (drbd_force_state mdev NS_conn_mask (NS_conn_val ProtocolError)).state.conn =
        if mdev.state.conn ≤ Disconnecting ∨
            (Timeout ≤ mdev.state.conn ∧ mdev.state.conn ≤ TearDown) then mdev.state.conn
        else ProtocolError := by
    rw [force_state_eq]
    exact ⟨rfl, sanitising_protocol_error mdev mdev.state _ (apply_mask_conn mdev.state _)⟩
  cases htl : mdev.tl with
  | nil =>
    have hm : oldest_matches mdev barrier_nr set_size = false := by
      unfold oldest_matches; rw [htl]
    have e : tl_release mdev barrier_nr set_size
        = drbd_force_state mdev NS_conn_mask (NS_conn_val ProtocolError) := by
      unfold tl_release; rw [htl]
    rw [hm, e]
    simp only [Bool.false_eq_true, if_false]
    rw [← htl]
    exact ⟨hforce.1, trivial, hforce.2⟩
  | cons b nob =>
    by_cases h1 : b.br_number = barrier_nr
    · by_cases h2 : b.n_req = set_size
      · have hm : oldest_matches mdev barrier_nr set_size = true := by
          unfold oldest_matches; rw [htl]
          exact decide_eq_true ⟨h1, h2⟩
        rw [hm]
        simp only [if_true]
        unfold tl_release
        rw [htl]
        simp only [h1, h2, ne_eq, not_true_eq_false, if_false, List.tail_cons]
        cases hcb : mdev.create_barrier with
        | true =>
          simp only [if_true]
          refine ⟨trivial, ?_⟩
          simp only [List.getLastD_eq_getLast?, List.getLast?_eq_getLast _ (List.cons_ne_nil b nob),
            Option.getD_some]
        | false =>
          simp only [Bool.false_eq_true, if_false, List.append_nil]
          exact ⟨trivial, trivial⟩
      · have hm : oldest_matches mdev barrier_nr set_size = false := by
          unfold oldest_matches; rw [htl]
          exact decide_eq_false (fun h => h2 h.2)
        have e : tl_release mdev barrier_nr set_size
            = drbd_force_state mdev NS_conn_mask (NS_conn_val ProtocolError) := by
          unfold tl_release; rw [htl]
          simp only [h1, h2, ne_eq, not_true_eq_false, not_false_eq_true, if_false, if_true]
        rw [hm, e]
        simp only [Bool.false_eq_true, if_false]
        rw [← htl]
        exact ⟨hforce.1, trivial, hforce.2⟩
    · have hm : oldest_matches mdev barrier_nr set_size = false := by
        unfold oldest_matches; rw [htl]
        exact decide_eq_false (fun h => h1 h.1)
      have e : tl_release mdev barrier_nr set_size
          = drbd_force_state mdev NS_conn_mask (NS_conn_val ProtocolError) := by
        unfold tl_release; rw [htl]
        simp only [h1, ne_eq, not_false_eq_true, if_true]
      rw [hm, e]
      simp only [Bool.false_eq_true, if_false]
      rw [← htl]
      exact ⟨hforce.1, trivial, hforce.2⟩

/-- C5, amended, at the sample device: the ack for the oldest barrier #4711
with its three requests is accepted. -/
theorem barrier_fifo_witness :
    oldest_matches sample_mdev 4711 3 = true ∧
    (tl_release sample_mdev 4711 3).state = sample_mdev.state ∧
    (tl_release sample_mdev 4711 3).tl = [{ br_number := 4712, n_req := 0, w_cb := false }] := by
  have h := barrier_fifo sample_mdev 4711 3
  rw [if_pos (by decide)] at h
  exact ⟨by decide, h.1, h.2.trans (by decide)⟩

/-! ### Epochs -/

/-- A round of the loop that neither finishes the epoch nor schedules a flush
is the last one. -/
theorem loop_stop (fuel : Nat) (mdev : drbd_conf) (i : Nat) (ev : epoch_event) (cleanup : Bool)
    (rv : finish_epoch) (sf : Bool) (e0 : drbd_epoch) (h0 : mdev.epoch_list[i]? = some e0)
    (hnot : ¬ (epoch_nearly_done mdev i (apply_epoch_event mdev i e0 ev) = true ∧
      epoch_finish_now mdev (apply_epoch_event mdev i e0 ev) cleanup = true))
    (hns : ¬ (epoch_nearly_done mdev i (apply_epoch_event mdev i e0 ev) = true ∧
      (apply_epoch_event mdev i e0 ev).flags.DE_BARRIER_IN_NEXT_EPOCH_ISSUED = false ∧
      mdev.write_ordering = WO_bio_barrier)) :
    may_finish_loop (fuel + 1) mdev i ev cleanup rv sf =
      some { mdev := { mdev with epoch_list :=
                         mdev.epoch_list.set i (apply_epoch_event mdev i e0 ev) },
             epoch := i, rv := rv, schedule_flush := sf } := by
  simp only [may_finish_loop, h0]
  rw [if_neg hnot, if_neg hns]

/-- A round of the loop that finishes the current epoch recycles it and is the
last one. -/
theorem loop_recycle (fuel : Nat) (mdev : drbd_conf) (i : Nat) (ev : epoch_event)
    (cleanup : Bool) (rv : finish_epoch) (sf : Bool) (e0 : drbd_epoch)
    (h0 : mdev.epoch_list[i]? = some e0)
    (hfin : epoch_nearly_done mdev i (apply_epoch_event mdev i e0 ev) = true ∧
      epoch_finish_now mdev (apply_epoch_event mdev i e0 ev) cleanup = true)
    (hcur : i + 1 = mdev.epoch_list.length) :
    may_finish_loop (fuel + 1) mdev i ev cleanup rv sf =
      some { mdev := { mdev with
                       epoch_list := mdev.epoch_list.set i
                         (epoch_reset (apply_epoch_event mdev i e0 ev)),
                       b_acks := if cleanup = true then mdev.b_acks
                                 else mdev.b_acks ++ [(e0.barrier_nr, e0.epoch_size)],
                       unacked_cnt := mdev.unacked_cnt - 1 },
             epoch := i,
             rv := if rv = FE_still_live then FE_recycled else rv,
             schedule_flush := sf } := by
  have hb : (apply_epoch_event mdev i e0 ev).barrier_nr = e0.barrier_nr := by
    unfold apply_epoch_event
    cases ev
    · rfl
    · simp only []; split <;> rfl
    · rfl
    · rfl
  simp only [may_finish_loop, h0]
  have hr : epoch_reset (apply_epoch_event mdev i e0 ev) =
      { barrier_nr := e0.barrier_nr, epoch_size := 0,
        active := (apply_epoch_event mdev i e0 ev).active, flags := epoch_flags_zero } := by
    rw [← hb]; rfl
  rw [if_pos hfin, if_neg (not_not.mpr hcur), hb, hr]

/-- A round of the loop that finishes an epoch other than the current one
unlinks it and goes on with its successor and the event `EV_became_last`. -/
theorem loop_destroy (fuel : Nat) (mdev : drbd_conf) (i : Nat) (ev : epoch_event)
    (cleanup : Bool) (rv : finish_epoch) (sf : Bool) (e0 : drbd_epoch)
    (h0 : mdev.epoch_list[i]? = some e0)
    (hfin : epoch_nearly_done mdev i (apply_epoch_event mdev i e0 ev) = true ∧
      epoch_finish_now mdev (apply_epoch_event mdev i e0 ev) cleanup = true)
    (hcur : i + 1 ≠ mdev.epoch_list.length) :
    may_finish_loop (fuel + 1) mdev i ev cleanup rv sf =
      may_finish_loop fuel
        { mdev with epoch_list := mdev.epoch_list.eraseIdx i,
                    epochs := (mdev.epochs + 2 ^ 32 - 1) % 2 ^ 32,
                    b_acks := if cleanup = true then mdev.b_acks
                              else mdev.b_acks ++ [(e0.barrier_nr, e0.epoch_size)],
                    unacked_cnt := mdev.unacked_cnt - 1 }
        (if i < list_next mdev.epoch_list.length i then list_next mdev.epoch_list.length i - 1
         else list_next mdev.epoch_list.length i)
        EV_became_last cleanup (if rv = FE_still_live then FE_destroyed else rv) sf := by
  have hb : (apply_epoch_event mdev i e0 ev).barrier_nr = e0.barrier_nr := by
    unfold apply_epoch_event
    cases ev
    · rfl
    · simp only []; split <;> rfl
    · rfl
    · rfl
  simp only [may_finish_loop, h0]
  rw [if_pos hfin, if_pos hcur, hb]

theorem list_prev_zero (n : Nat) (hn : 0 < n) : list_prev n 0 = n - 1 := by
  unfold list_prev
  rw [Nat.zero_add]
  exact Nat.mod_eq_of_lt (by omega)

/-- For the oldest epoch, the outer condition is `epoch_complete`. -/
theorem nearly_done_oldest (mdev : drbd_conf) (e : drbd_epoch) (hn : mdev.epoch_list ≠ []) :
    epoch_nearly_done mdev 0 e = epoch_complete e := by
  have hlen : 0 < mdev.epoch_list.length := List.length_pos.mpr hn
  unfold epoch_nearly_done epoch_complete
  rw [list_prev_zero _ hlen]
  simp

theorem finish_now_wo_none (mdev : drbd_conf) (e : drbd_epoch) (cleanup : Bool)
    (hwo : mdev.write_ordering = WO_none) : epoch_finish_now mdev e cleanup = true := by
  unfold epoch_finish_now
  exact decide_eq_true (Or.inr (Or.inl hwo))

theorem next_of_oldest (n : Nat) (hn : 0 + 1 ≠ n) (hpos : 0 < n) :
    (if 0 < list_next n 0 then list_next n 0 - 1 else list_next n 0) = 0 := by
  have h : list_next n 0 = 1 := by
    unfold list_next
    exact Nat.mod_eq_of_lt (by omega)
  rw [h]
  rfl

/-- Without write ordering, the loop of `drbd_may_finish_epoch` that starts at
the oldest epoch with `EV_became_last` unlinks the first `k` epochs, all of
them complete, and stops at the first epoch that is not complete or at the
current epoch, which it recycles if it is complete. -/
theorem sweep_wo_none (cleanup : Bool) (rv0 : finish_epoch) (hrv : rv0 ≠ FE_still_live) :
    ∀ (fuel : Nat) (mdev : drbd_conf), mdev.write_ordering = WO_none → mdev.epoch_list ≠ [] →
      mdev.epoch_list.length ≤ fuel →
      ∃ s k, may_finish_loop fuel mdev 0 EV_became_last cleanup rv0 false = some s ∧
        s.rv = rv0 ∧ s.schedule_flush = false ∧ k < mdev.epoch_list.length ∧
        (s.mdev.epochs + k) % 2 ^ 32 = mdev.epochs % 2 ^ 32 ∧
        (s.mdev.epoch_list = mdev.epoch_list.drop k ∨
          (k + 1 = mdev.epoch_list.length ∧
            s.mdev.epoch_list = (mdev.epoch_list.drop k).map epoch_reset)) ∧
        (mdev.epoch_list.head?.map epoch_complete = some false →
          k = 0 ∧ s.mdev.epoch_list = mdev.epoch_list) := by
  intro fuel
  induction fuel with
  | zero =>
    intro mdev _ hn hf
    have := List.length_pos.mpr hn
    omega
  | succ fuel ih =>
    intro mdev hwo hn hf
    obtain ⟨e, rest, hl⟩ := List.exists_cons_of_ne_nil hn
    have hpos : 0 < mdev.epoch_list.length := List.length_pos.mpr hn
    have h0 : mdev.epoch_list[0]? = some e := by rw [hl]; simp
    have hev : apply_epoch_event mdev 0 e EV_became_last = e := rfl
    have hset : mdev.epoch_list.set 0 e = mdev.epoch_list := by rw [hl]; rfl
    cases hc : epoch_complete e with
    | false =>
      have hnd : epoch_nearly_done mdev 0 e = false := by rw [nearly_done_oldest mdev e hn, hc]
      refine ⟨_, 0, loop_stop fuel mdev 0 EV_became_last cleanup rv0 false e h0 ?_ ?_,
        rfl, rfl, hpos, rfl, Or.inl ?_, fun _ => ⟨rfl, ?_⟩⟩
      · rw [hev, hnd]; simp
      · rw [hev, hnd]; simp
      · show mdev.epoch_list.set 0 e = List.drop 0 mdev.epoch_list
        rw [hset]; rfl
      · exact hset
    | true =>
      have hfin : epoch_nearly_done mdev 0 (apply_epoch_event mdev 0 e EV_became_last) = true ∧
          epoch_finish_now mdev (apply_epoch_event mdev 0 e EV_became_last) cleanup = true :=
        ⟨by rw [hev, nearly_done_oldest mdev e hn, hc], finish_now_wo_none _ _ _ hwo⟩
      have hhead : ¬ (mdev.epoch_list.head?.map epoch_complete = some false) := by
        rw [hl]
        simp [hc]
      by_cases hcur : 0 + 1 = mdev.epoch_list.length
      · have hrest : rest = [] := by
          rw [hl] at hcur
          cases rest with
          | nil => rfl
          | cons a l => simp at hcur
        refine ⟨_, 0, loop_recycle fuel mdev 0 EV_became_last cleanup rv0 false e h0 hfin hcur,
          ?_, rfl, hpos, rfl, Or.inr ⟨hcur, ?_⟩, fun h => absurd h hhead⟩
        · show (if rv0 = FE_still_live then FE_recycled else rv0) = rv0
          rw [if_neg hrv]
        · show mdev.epoch_list.set 0 (epoch_reset e)
            = (List.drop 0 mdev.epoch_list).map epoch_reset
          rw [hl, hrest]; rfl
      · have hrest : rest ≠ [] := by
          intro h
          apply hcur
          rw [hl, h]; rfl
        have hstep := loop_destroy fuel mdev 0 EV_became_last cleanup rv0 false e h0 hfin hcur
        rw [next_of_oldest _ hcur hpos, if_neg hrv] at hstep
        have herase : mdev.epoch_list.eraseIdx 0 = rest := by rw [hl]; rfl
        have hlen : mdev.epoch_list.length = rest.length + 1 := by rw [hl]; rfl
        obtain ⟨s, k, hs, hrv1, hsf, hk, hep, hlist, _⟩ := ih
          { mdev with epoch_list := mdev.epoch_list.eraseIdx 0,
                      epochs := (mdev.epochs + 2 ^ 32 - 1) % 2 ^ 32,
                      b_acks := if cleanup = true then mdev.b_acks
                                else mdev.b_acks ++ [(e.barrier_nr, e.epoch_size)],
                      unacked_cnt := mdev.unacked_cnt - 1 }
          hwo (by show mdev.epoch_list.eraseIdx 0 ≠ []; rw [herase]; exact hrest)
          (by show (mdev.epoch_list.eraseIdx 0).length ≤ fuel; rw [herase]; omega)
        have hk1 : k < rest.length := by
          have h : k < (mdev.epoch_list.eraseIdx 0).length := hk
          rw [herase] at h; exact h
        have hep1 : (s.mdev.epochs + k) % 2 ^ 32
            = ((mdev.epochs + 2 ^ 32 - 1) % 2 ^ 32) % 2 ^ 32 := hep
        have hlist1 : s.mdev.epoch_list = (mdev.epoch_list.eraseIdx 0).drop k ∨
            (k + 1 = (mdev.epoch_list.eraseIdx 0).length ∧
              s.mdev.epoch_list = ((mdev.epoch_list.eraseIdx 0).drop k).map epoch_reset) := hlist
        rw [herase] at hlist1
        refine ⟨s, k + 1, by rw [hstep]; exact hs, hrv1, hsf, by omega, ?_, ?_,
          fun h => absurd h hhead⟩
        · have h32 : (2 : Nat) ^ 32 = 4294967296 := by norm_num
          rw [h32] at hep1 ⊢
          omega
        · rw [hl, List.drop_succ_cons]
          rcases hlist1 with h | ⟨h1, h2⟩
          · exact Or.inl h
          · exact Or.inr ⟨by simp only [List.length_cons]; omega, h2⟩

/-- What the loop does if `EV_got_barrier_nr` reaches an epoch that has a
younger epoch with a barrier number: with three epochs under `WO_none`, the
oldest one of size one without active requests and the next one complete
already, the call for the oldest epoch unlinks both.  `receive_Barrier` never
makes this call: it sends the event to the current epoch, which is the
youngest. -/
theorem got_barrier_nr_out_of_order :
    wo_none_mdev.write_ordering = WO_none ∧ wo_none_mdev.epochs = 3 ∧
    (wo_none_mdev.epoch_list[0]?).map
      (fun e => (e.epoch_size, e.active, e.flags.DE_IS_FINISHING)) = some (1, 0, false) ∧
    (drbd_may_finish_epoch wo_none_mdev 0 EV_got_barrier_nr false []).map
      (fun r => (r.1, r.2.1.epochs, r.2.1.epoch_list))
      = some (FE_destroyed, 1, [sample_epoch 0 0 0 false]) := by
  decide

/-- C10, as stated, fails: both Current UUIDs are zero, no crashed-primary
flag and no peer flag; rule 2 applies and the result is -2. -/
theorem identical_current_uuids_counterexample :
    uuid_strip (zero_uuid_mdev.md_uuid Current) = uuid_strip (zero_uuid_mdev.p_uuid Current) ∧
    zero_uuid_mdev.crashed_primary = false ∧ zero_uuid_mdev.p_uuid UUID_FLAGS &&& 2 = 0 ∧
    drbd_uuid_compare zero_uuid_mdev = (-2, 2) := by
  decide

/-- C10, amended. Identical current UUIDs mean no sync: if the Current
UUIDs of the device and of the peer are equal when the lowest bit is ignored,
`CRASHED_PRIMARY` is clear and bit value 2 of the peer's `UUID_FLAGS` is clear,
then `drbd_uuid_compare` returns 0 with `*rule_nr = 4`, unless the common
value is `UUID_JUST_CREATED`, when it returns 0 with `*rule_nr = 1`, or zero,
when it returns -2 with `*rule_nr = 2`. -/
theorem identical_current_uuids (mdev : drbd_conf)
    (heq : uuid_strip (mdev.md_uuid Current) = uuid_strip (mdev.p_uuid Current))
    (hcp : mdev.crashed_primary = false) (hfl : mdev.p_uuid UUID_FLAGS &&& 2 = 0) :
    drbd_uuid_compare mdev =
      if uuid_strip (mdev.md_uuid Current) = UUID_JUST_CREATED then (0, 1)
      else if uuid_strip (mdev.md_uuid Current) = 0 then (-2, 2)
      else (0, 4) := by
  have h4 : uuid_rule_4 mdev = some 0 := by
    unfold uuid_rule_4
    rw [hcp, hfl]
    rfl
  unfold drbd_uuid_compare
  simp only []
  rw [← heq, h4]
  by_cases hjc : uuid_strip (mdev.md_uuid Current) = UUID_JUST_CREATED
  · rw [if_pos ⟨hjc, hjc⟩, if_pos hjc]
  · rw [if_neg (fun h => hjc h.1), if_neg hjc]
    by_cases hz : uuid_strip (mdev.md_uuid Current) = 0
    · rw [if_pos ⟨Or.inr hz, hjc⟩, if_pos hz]
    · rw [if_neg (fun h => h.1.elim hjc hz), if_neg hz,
        if_neg (fun h => h.2.elim hjc hz), if_pos rfl]

/-- The lowest bit is what `uuid_strip` removes from a `u64`. -/
theorem uuid_strip_eq (x : Nat) (hx : x < 2 ^ 64) : uuid_strip x = x - x % 2 := by
  unfold uuid_strip
  have hdiv : (x &&& (2 ^ 64 - 2)) / 2 = x / 2 := by
    rw [Nat.and_div_two]
    have h : (2 ^ 64 - 2) / 2 = 2 ^ 63 - 1 := by norm_num
    rw [h, Nat.and_pow_two_sub_one_eq_mod]
    apply Nat.mod_eq_of_lt
    have h64 : (2 : Nat) ^ 64 = 2 * 2 ^ 63 := by norm_num
    omega
  have hmod : (x &&& (2 ^ 64 - 2)) % 2 = 0 := by
    have h0 : (x &&& (2 ^ 64 - 2)).testBit 0 = false := by
      rw [Nat.testBit_and]
      have h : (2 ^ 64 - 2).testBit 0 = false := by decide
      rw [h, Bool.and_false]
    rw [Nat.testBit_zero] at h0
    have h1 := of_decide_eq_false h0
    omega
  omega

/-- C10, amended, at a device and a peer whose Current UUIDs differ in the
lowest bit only. -/
theorem identical_current_uuids_witness :
    uuid_strip (same_uuid_mdev.md_uuid Current) = uuid_strip (same_uuid_mdev.p_uuid Current) ∧
    drbd_uuid_compare same_uuid_mdev = (0, 4) :=
  ⟨by decide,
   (identical_current_uuids same_uuid_mdev (by decide) rfl (by decide)).trans (by decide)⟩

theorem history_range : List.range' History_start (History_end + 1 - History_start) = [2, 3] := by
  decide

/-- The test of rule 10 compares the peer's history with itself, so it
succeeds in its first round. -/
theorem rule_10_always (mdev : drbd_conf) :
    (List.range' History_start (History_end + 1 - History_start)).any
      (fun i => history_has mdev.p_uuid (uuid_strip (mdev.p_uuid i))) = true := by
  unfold history_has
  rw [history_range]
  simp

/-- The result -1000 is never returned by `drbd_uuid_compare`. -/
theorem uuid_compare_ne_unrelated (mdev : drbd_conf) : (drbd_uuid_compare mdev).1 ≠ -1000 := by
  have h510 : ∀ self, (uuid_rules_5_to_10 mdev self).1 ≠ -1000 := by
    intro self
    unfold uuid_rules_5_to_10
    rw [if_pos (rule_10_always mdev)]
    split_ifs <;> decide
  have h4 : ∀ hg, uuid_rule_4 mdev = some hg → hg ≠ -1000 := by
    intro hg h
    unfold uuid_rule_4 at h
    split at h
    · cases h; decide
    · cases h; decide
    · cases h; decide
    · cases h; split_ifs <;> decide
    · cases h
  unfold drbd_uuid_compare
  simp only []
  split_ifs
  · decide
  · decide
  · decide
  · cases h : uuid_rule_4 mdev with
    | none => exact h510 _
    | some hg => exact h4 hg h
  · exact h510 _

/-- C11 fails on the code.  At a pair of devices with unrelated data no
history UUID of the device is a history UUID of the peer, and none of the
rules 1 to 9 applies: the function gets to `*rule_nr = 10`.  There it returns
-100, the result for a split brain, and not -1000. -/
theorem unrelated_data_not_detected :
    ([History_start, History_end].all (fun i => [History_start, History_end].all (fun j =>
      decide (uuid_strip (unrelated_mdev.md_uuid i) ≠ uuid_strip (unrelated_mdev.p_uuid j))))
      = true) ∧
    drbd_uuid_compare unrelated_mdev = (-100, 10) := by
  decide

/-- C12, as stated, fails: if both nodes have the Current UUID zero, rule 2
makes each of them return -2, so both become sync target; and if the Current
UUID of each node is the Bitmap UUID of the other, rule 5 makes each of them
return -1. -/
theorem opposite_sync_decisions_counterexample :
    (uuid_peers zero_node_a zero_node_b ∧
      (drbd_uuid_compare zero_node_a).1 = -2 ∧ (drbd_uuid_compare zero_node_b).1 = -2) ∧
    (uuid_peers cross_node_a cross_node_b ∧
      (drbd_uuid_compare cross_node_a).1 = -1 ∧ (drbd_uuid_compare cross_node_b).1 = -1) := by
  decide

/-! ### The rules of `drbd_uuid_compare`, one by one -/

theorem compare_rule_1 (mdev : drbd_conf)
    (h : uuid_strip (mdev.md_uuid Current) = UUID_JUST_CREATED ∧
      uuid_strip (mdev.p_uuid Current) = UUID_JUST_CREATED) :
    drbd_uuid_compare mdev = (0, 1) := by
  unfold drbd_uuid_compare
  simp only []
  rw [if_pos h]

theorem compare_rule_2 (mdev : drbd_conf)
    (h1 : ¬ (uuid_strip (mdev.md_uuid Current) = UUID_JUST_CREATED ∧
      uuid_strip (mdev.p_uuid Current) = UUID_JUST_CREATED))
    (h : (uuid_strip (mdev.md_uuid Current) = UUID_JUST_CREATED ∨
        uuid_strip (mdev.md_uuid Current) = 0) ∧
      uuid_strip (mdev.p_uuid Current) ≠ UUID_JUST_CREATED) :
    drbd_uuid_compare mdev = (-2, 2) := by
  unfold drbd_uuid_compare
  simp only []
  rw [if_neg h1, if_pos h]

theorem compare_rule_3 (mdev : drbd_conf)
    (h1 : ¬ (uuid_strip (mdev.md_uuid Current) = UUID_JUST_CREATED ∧
      uuid_strip (mdev.p_uuid Current) = UUID_JUST_CREATED))
    (h2 : ¬ ((uuid_strip (mdev.md_uuid Current) = UUID_JUST_CREATED ∨
        uuid_strip (mdev.md_uuid Current) = 0) ∧
      uuid_strip (mdev.p_uuid Current) ≠ UUID_JUST_CREATED))
    (h : uuid_strip (mdev.md_uuid Current) ≠ UUID_JUST_CREATED ∧
      (uuid_strip (mdev.p_uuid Current) = UUID_JUST_CREATED ∨
        uuid_strip (mdev.p_uuid Current) = 0)) :
    drbd_uuid_compare mdev = (2, 3) := by
  unfold drbd_uuid_compare
  simp only []
  rw [if_neg h1, if_neg h2, if_pos h]

theorem compare_rule_4 (mdev : drbd_conf) (hg : Int)
    (h1 : ¬ (uuid_strip (mdev.md_uuid Current) = UUID_JUST_CREATED ∧
      uuid_strip (mdev.p_uuid Current) = UUID_JUST_CREATED))
    (h2 : ¬ ((uuid_strip (mdev.md_uuid Current) = UUID_JUST_CREATED ∨
        uuid_strip (mdev.md_uuid Current) = 0) ∧
      uuid_strip (mdev.p_uuid Current) ≠ UUID_JUST_CREATED))
    (h3 : ¬ (uuid_strip (mdev.md_uuid Current) ≠ UUID_JUST_CREATED ∧
      (uuid_strip (mdev.p_uuid Current) = UUID_JUST_CREATED ∨
        uuid_strip (mdev.p_uuid Current) = 0)))
    (h : uuid_strip (mdev.md_uuid Current) = uuid_strip (mdev.p_uuid Current))
    (h4 : uuid_rule_4 mdev = some hg) :
    drbd_uuid_compare mdev = (hg, 4) := by
  unfold drbd_uuid_compare
  simp only []
  rw [if_neg h1, if_neg h2, if_neg h3, if_pos h, h4]

theorem compare_rules_5_to_10 (mdev : drbd_conf)
    (h1 : ¬ (uuid_strip (mdev.md_uuid Current) = UUID_JUST_CREATED ∧
      uuid_strip (mdev.p_uuid Current) = UUID_JUST_CREATED))
    (h2 : ¬ ((uuid_strip (mdev.md_uuid Current) = UUID_JUST_CREATED ∨
        uuid_strip (mdev.md_uuid Current) = 0) ∧
      uuid_strip (mdev.p_uuid Current) ≠ UUID_JUST_CREATED))
    (h3 : ¬ (uuid_strip (mdev.md_uuid Current) ≠ UUID_JUST_CREATED ∧
      (uuid_strip (mdev.p_uuid Current) = UUID_JUST_CREATED ∨
        uuid_strip (mdev.p_uuid Current) = 0)))
    (h : uuid_strip (mdev.md_uuid Current) ≠ uuid_strip (mdev.p_uuid Current)) :
    drbd_uuid_compare mdev = uuid_rules_5_to_10 mdev (uuid_strip (mdev.md_uuid Current)) := by
  unfold drbd_uuid_compare
  simp only []
  rw [if_neg h1, if_neg h2, if_neg h3, if_neg h]

/-- The value of rule 4, from the two crashed-primary flags. -/
theorem rule_4_value (mdev : drbd_conf) (peer_crashed : Bool)
    (hfl : mdev.p_uuid UUID_FLAGS &&& 2 = if peer_crashed = true then 2 else 0) :
    uuid_rule_4 mdev = some
      (if mdev.crashed_primary = true then
         (if peer_crashed = true then (if mdev.discard_concurrent = true then -1 else 1) else 1)
       else (if peer_crashed = true then -1 else 0)) := by
  unfold uuid_rule_4
  rw [hfl]
  cases mdev.crashed_primary <;> cases peer_crashed <;> rfl

/-- The search of the history reads the entries `History_start` and
`History_end` only. -/
theorem history_has_congr (u v : Nat → Nat) (x : Nat) (h2 : u History_start = v History_start)
    (h3 : u History_end = v History_end) : history_has u x = history_has v x := by
  unfold history_has
  rw [history_range]
  have e2 : u 2 = v 2 := h2
  have e3 : u 3 = v 3 := h3
  simp only [List.any, e2, e3]

/-- Rules 5 to 10, with the outcome of rule 10 as the code computes it. -/
theorem rules_5_to_10_eq (mdev : drbd_conf) (self : Nat) :
    uuid_rules_5_to_10 mdev self =
      if self = uuid_strip (mdev.p_uuid Bitmap) then (-1, 5)
      else if history_has mdev.p_uuid self = true then (-2, 6)
      else if uuid_strip (mdev.md_uuid Bitmap) = uuid_strip (mdev.p_uuid Current) then (1, 7)
      else if history_has mdev.md_uuid (uuid_strip (mdev.p_uuid Current)) = true then (2, 8)
      else if uuid_strip (mdev.md_uuid Bitmap) = uuid_strip (mdev.p_uuid Bitmap) ∧
          uuid_strip (mdev.md_uuid Bitmap) ≠ 0 then (100, 9)
      else (-100, 10) := by
  unfold uuid_rules_5_to_10
  rw [if_pos (rule_10_always mdev)]

/-- C12, amended. Both peers reach opposite sync decisions: let `a` and
`b` be the two nodes, each with the UUIDs of the other as peer UUIDs and the
crashed-primary flag of the other in bit value 2 of `UUID_FLAGS`, and
`DISCARD_CONCURRENT` set on exactly one of them.  If `drbd_uuid_compare` on
`a` returns `h` in {-2, -1, 0, 1, 2}, then on `b` it returns `-h`, provided
that the two Current UUIDs are not both zero and that, when `a` decides by
rule 5 or 6 (its Current UUID is the Bitmap UUID or a history UUID of `b`), the
Current UUID of `b` is neither the Bitmap UUID nor a history UUID of `a`. -/
theorem opposite_sync_decisions (a b : drbd_conf) (hp : uuid_peers a b)
    (hz : ¬ (uuid_strip (a.md_uuid Current) = 0 ∧ uuid_strip (b.md_uuid Current) = 0))
    (hx : (drbd_uuid_compare a).2 = 5 ∨ (drbd_uuid_compare a).2 = 6 →
      uuid_strip (a.md_uuid Bitmap) ≠ uuid_strip (b.md_uuid Current) ∧
      history_has a.md_uuid (uuid_strip (b.md_uuid Current)) = false)
    (hh : -2 ≤ (drbd_uuid_compare a).1 ∧ (drbd_uuid_compare a).1 ≤ 2) :
    (drbd_uuid_compare b).1 = - (drbd_uuid_compare a).1 := by
  obtain ⟨hu, hfa, hfb, hdc⟩ := hp
  obtain ⟨aC, bC⟩ := hu Current (by simp)
  obtain ⟨aB, bB⟩ := hu Bitmap (by simp)
  obtain ⟨aH2, bH2⟩ := hu History_start (by simp)
  obtain ⟨aH3, bH3⟩ := hu History_end (by simp)
  have hha : ∀ x, history_has a.p_uuid x = history_has b.md_uuid x :=
    fun x => history_has_congr _ _ x aH2 aH3
  have hhb : ∀ x, history_has b.p_uuid x = history_has a.md_uuid x :=
    fun x => history_has_congr _ _ x bH2 bH3
  generalize hsa : uuid_strip (a.md_uuid Current) = sa at hz
  generalize hsb : uuid_strip (b.md_uuid Current) = sb at hz hx
  have ea := compare_rule_1 a
  have eb := compare_rule_1 b
  have ea2 := compare_rule_2 a
  have eb2 := compare_rule_2 b
  have ea3 := compare_rule_3 a
  have eb3 := compare_rule_3 b
  have ea4 := compare_rule_4 a
  have eb4 := compare_rule_4 b
  have ea5 := compare_rules_5_to_10 a
  have eb5 := compare_rules_5_to_10 b
  rw [aC, hsa, hsb] at ea ea2 ea3 ea4 ea5
  rw [bC, hsa, hsb] at eb eb2 eb3 eb4 eb5
  by_cases r1 : sa = UUID_JUST_CREATED ∧ sb = UUID_JUST_CREATED
  · rw [ea r1, eb ⟨r1.2, r1.1⟩]
    rfl
  by_cases r2 : (sa = UUID_JUST_CREATED ∨ sa = 0) ∧ sb ≠ UUID_JUST_CREATED
  · have h1b : ¬ (sb = UUID_JUST_CREATED ∧ sa = UUID_JUST_CREATED) := fun h => r2.2 h.1
    have h2b : ¬ ((sb = UUID_JUST_CREATED ∨ sb = 0) ∧ sa ≠ UUID_JUST_CREATED) := by
      rintro ⟨h | h, h'⟩
      · exact r2.2 h
      · rcases r2.1 with h'' | h''
        · exact h' h''
        · exact hz ⟨h'', h⟩
    rw [ea2 r1 r2, eb3 h1b h2b ⟨r2.2, r2.1⟩]
    rfl
  by_cases r3 : sa ≠ UUID_JUST_CREATED ∧ (sb = UUID_JUST_CREATED ∨ sb = 0)
  · have h1b : ¬ (sb = UUID_JUST_CREATED ∧ sa = UUID_JUST_CREATED) := fun h => r3.1 h.2
    rw [ea3 r1 r2 r3, eb2 h1b ⟨r3.2, r3.1⟩]
  have h1b : ¬ (sb = UUID_JUST_CREATED ∧ sa = UUID_JUST_CREATED) := fun h => r1 ⟨h.2, h.1⟩
  have h2b : ¬ ((sb = UUID_JUST_CREATED ∨ sb = 0) ∧ sa ≠ UUID_JUST_CREATED) :=
    fun h => r3 ⟨h.2, h.1⟩
  have h3b : ¬ (sb ≠ UUID_JUST_CREATED ∧ (sa = UUID_JUST_CREATED ∨ sa = 0)) :=
    fun h => r2 ⟨h.2, h.1⟩
  by_cases r4 : sa = sb
  · rw [ea4 _ r1 r2 r3 r4 (rule_4_value a b.crashed_primary hfa),
      eb4 _ h1b h2b h3b r4.symm (rule_4_value b a.crashed_primary hfb)]
    show (if b.crashed_primary = true then _ else _) = - (if a.crashed_primary = true then _ else _)
    revert hdc
    cases a.crashed_primary <;> cases b.crashed_primary <;> cases a.discard_concurrent <;>
      cases b.discard_concurrent <;> decide
  · have va := ea5 r1 r2 r3 r4
    have vb := eb5 h1b h2b h3b (fun h => r4 h.symm)
    rw [rules_5_to_10_eq, aB, aC, hha, hsb] at va
    rw [rules_5_to_10_eq, bB, bC, hhb, hsa] at vb
    rw [va] at hx hh
    rw [va, vb]
    generalize uuid_strip (a.md_uuid Bitmap) = ba at *
    generalize uuid_strip (b.md_uuid Bitmap) = bb at *
    generalize history_has a.md_uuid sb = p8 at *
    generalize history_has b.md_uuid sa = p6 at *
    by_cases p5 : sa = bb
    · rw [if_pos p5] at hx hh ⊢
      obtain ⟨n7, n8⟩ := hx (Or.inl rfl)
      rw [if_neg (fun h : sb = ba => n7 h.symm), n8, if_neg Bool.false_ne_true, if_pos p5.symm]
      rfl
    · rw [if_neg p5] at hx hh ⊢
      cases p6 with
      | true =>
        rw [if_pos rfl] at hx hh ⊢
        obtain ⟨n7, n8⟩ := hx (Or.inr rfl)
        rw [if_neg (fun h : sb = ba => n7 h.symm), n8, if_neg Bool.false_ne_true,
          if_neg (fun h : bb = sa => p5 h.symm), if_pos rfl]
        rfl
      | false =>
        rw [if_neg Bool.false_ne_true] at hx hh ⊢
        by_cases p7 : ba = sb
        · rw [if_pos p7, if_pos p7.symm]
          rfl
        · rw [if_neg p7] at hh ⊢
          rw [if_neg (fun h : sb = ba => p7 h.symm)]
          cases p8 with
          | true =>
            rw [if_pos rfl, if_pos rfl]
            rfl
          | false =>
            exfalso
            rw [if_neg Bool.false_ne_true] at hh
            split_ifs at hh
            · exact absurd hh.2 (by decide)
            · exact absurd hh.1 (by decide)

/-- C12, amended, at a node that is behind and its peer that is ahead: the
one returns -1 by rule 5, the other 1 by rule 7. -/
theorem opposite_sync_decisions_witness :
    uuid_peers behind_node ahead_node ∧
    (drbd_uuid_compare behind_node).1 = -1 ∧ (drbd_uuid_compare ahead_node).1 = 1 :=
  ⟨by decide, by decide,
   (opposite_sync_decisions behind_node ahead_node (by decide) (by decide)
     (fun _ => ⟨by decide, by decide⟩) (by decide)).trans (by decide)⟩

/-! ### Cluster wide state changes -/

theorem apply_mask_role_request (os : drbd_state_t) (r : Nat) (hc : os.conn ≤ conn_mask) :
    (apply_mask os NS_role_mask (NS_role_val r)).role = r ∧
    (apply_mask os NS_role_mask (NS_role_val r)).conn = os.conn := by
  constructor
  · show (os.role &&& (3 ^^^ 3)) ||| r = r
    simp
  · show (os.conn &&& (31 ^^^ 0)) ||| 0 = os.conn
    have h : os.conn < 2 ^ 5 := by
      simp only [conn_mask] at hc
      omega
    have e : os.conn &&& 31 = os.conn := by
      have := Nat.and_pow_two_sub_one_eq_mod os.conn 5
      simp only [Nat.reducePow, Nat.add_one_sub_one] at this
      rw [this]
      exact Nat.mod_eq_of_lt h
    simpa using e

/-- C13. Cluster-wide decision: `cl_wide_st_chg(os, ns)` is true exactly if
both states are at least `Connected` and the role becomes `Primary`, or `conn`
becomes `StartingSyncT` or `StartingSyncS`, or the disk becomes `Diskless`; or
`os.conn >= Connected` and `ns.conn == Disconnecting`; or `os.conn ==
Connected` and `ns.conn == VerifyS`.  So it is false if `os.conn < Connected`,
false if `ns == os`, and true for the request `NS(role, Primary)` on a state
that is at least `Connected` with a role other than `Primary`. -/
theorem cluster_wide_decision (mdev : drbd_conf) (os ns : drbd_state_t) :
    (cl_wide_st_chg mdev os ns = true ↔
      ((os.conn ≥ Connected ∧ ns.conn ≥ Connected ∧
          ((os.role ≠ Primary ∧ ns.role = Primary) ∨
           (os.conn ≠ StartingSyncT ∧ ns.conn = StartingSyncT) ∨
           (os.conn ≠ StartingSyncS ∧ ns.conn = StartingSyncS) ∨
           (os.disk ≠ Diskless ∧ ns.disk = Diskless))) ∨
        (os.conn ≥ Connected ∧ ns.conn = Disconnecting) ∨
        (os.conn = Connected ∧ ns.conn = VerifyS))) ∧
    (os.conn < Connected → cl_wide_st_chg mdev os ns = false) ∧
    cl_wide_st_chg mdev os os = false ∧
    (os.conn ≥ Connected → os.conn ≤ conn_mask → os.role ≠ Primary →
      cl_wide_st_chg mdev os (apply_mask os NS_role_mask (NS_role_val Primary)) = true) := by
  refine ⟨?_, ?_, ?_, ?_⟩
  · unfold cl_wide_st_chg
    exact decide_eq_true_iff
  · intro h
    unfold cl_wide_st_chg
    apply decide_eq_false
    simp only [Connected] at h ⊢
    omega
  · unfold cl_wide_st_chg
    apply decide_eq_false
    simp only [Connected, Disconnecting, VerifyS]
    omega
  · intro h1 h2 h3
    obtain ⟨er, ec⟩ := apply_mask_role_request os Primary h2
    unfold cl_wide_st_chg
    apply decide_eq_true
    rw [er, ec]
    exact Or.inl ⟨h1, h1, Or.inl ⟨h3, rfl⟩⟩

/-- C13 at the sample device, a connected secondary: the request
`NS(role, Primary)` is a cluster wide state change. -/
theorem cluster_wide_decision_witness :
    sample_mdev.state.conn ≥ Connected ∧ sample_mdev.state.role ≠ Primary ∧
    cl_wide_st_chg sample_mdev sample_mdev.state
      (apply_mask sample_mdev.state NS_role_mask (NS_role_val Primary)) = true :=
  ⟨by decide, by decide,
   (cluster_wide_decision sample_mdev sample_mdev.state sample_mdev.state).2.2.2
     (by decide) (by decide) (by decide)⟩

/-! ### Forced state changes and the followers of a connection state -/

/-- The device state after `_drbd_set_state` is the old one or the sanitised
new one. -/
theorem set_state_state (mdev : drbd_conf) (ns : drbd_state_t) (flags : Nat) :
    (_drbd_set_state mdev ns flags).2.state = mdev.state ∨
    (_drbd_set_state mdev ns flags).2.state = early_state_sanitising mdev mdev.state ns := by
  unfold _drbd_set_state
  simp only []
  split_ifs
  · exact Or.inl rfl
  · exact Or.inl rfl
  · exact Or.inr rfl

/-- C14. Forced transitions skip validation: with `ChgStateHard`,
`_drbd_set_state` never returns a value below `SS_Success`; it returns
`SS_NothingToDo` if the sanitised `ns` equals `os`, and otherwise it commits the
sanitised `ns` and returns `SS_Success`.  Neither `is_valid_state` nor
`is_valid_state_transition` occurs in the result. -/
theorem forced_transition (mdev : drbd_conf) (ns : drbd_state_t) (flags : Nat)
    (hf : flags &&& ChgStateHard ≠ 0) :
    ¬ ((_drbd_set_state mdev ns flags).1 < SS_Success) ∧
    _drbd_set_state mdev ns flags =
      if early_state_sanitising mdev mdev.state ns = mdev.state then (SS_NothingToDo, mdev)
      else (SS_Success, { mdev with state := early_state_sanitising mdev mdev.state ns }) := by
  have e : _drbd_set_state mdev ns flags =
      if early_state_sanitising mdev mdev.state ns = mdev.state then (SS_NothingToDo, mdev)
      else (SS_Success, { mdev with state := early_state_sanitising mdev mdev.state ns }) := by
    unfold _drbd_set_state pre_state_change_checks
    simp only []
    rw [if_neg hf]
    have h2 : ¬ (SS_Success < SS_Success) := by decide
    rw [if_neg h2]
  refine ⟨?_, e⟩
  rw [e]
  split_ifs
  · show ¬ (SS_NothingToDo < SS_Success)
    decide
  · show ¬ (SS_Success < SS_Success)
    decide

/-- C14 at the sample device: the forced request for the role `Primary` is
committed, although `is_valid_state` rejects the new state. -/
theorem forced_transition_witness :
    ChgStateHard &&& ChgStateHard ≠ 0 ∧
    is_valid_state sample_mdev
      (early_state_sanitising sample_mdev sample_mdev.state
        { sample_mdev.state with role := Primary }) < SS_Success ∧
    (_drbd_set_state sample_mdev { sample_mdev.state with role := Primary } ChgStateHard).1
      = SS_Success ∧
    (_drbd_set_state sample_mdev { sample_mdev.state with role := Primary }
      ChgStateHard).2.state.role = Primary := by
  have h := (forced_transition sample_mdev { sample_mdev.state with role := Primary }
    ChgStateHard (by decide)).2
  rw [if_neg (by decide)] at h
  rw [h]
  exact ⟨by decide, by decide, rfl, by decide⟩

/-- The connection state after the first four blocks of the sanitising. -/
theorem sanitised_conn_followers (os ns : drbd_state_t) :
    ((Timeout ≤ os.conn ∧ os.conn ≤ TearDown) →
      (sanitise_disconnecting os (sanitise_after_net_error os
        (sanitise_net_error os (sanitise_invalidate os ns)))).conn = os.conn ∨
      (sanitise_disconnecting os (sanitise_after_net_error os
        (sanitise_net_error os (sanitise_invalidate os ns)))).conn = Unconnected ∨
      (sanitise_disconnecting os (sanitise_after_net_error os
        (sanitise_net_error os (sanitise_invalidate os ns)))).conn = Disconnecting) ∧
    (os.conn = Disconnecting →
      (sanitise_disconnecting os (sanitise_after_net_error os
        (sanitise_net_error os (sanitise_invalidate os ns)))).conn = Disconnecting ∨
      (sanitise_disconnecting os (sanitise_after_net_error os
        (sanitise_net_error os (sanitise_invalidate os ns)))).conn = StandAlone) := by
  generalize sanitise_net_error os (sanitise_invalidate os ns) = n2
  unfold sanitise_disconnecting sanitise_after_net_error
  simp only [Timeout, TearDown, Disconnecting, Unconnected, StandAlone]
  constructor
  · intro h
    split_ifs <;> simp_all
    omega
  · intro h
    split_ifs <;> simp_all

/-- C15. Connection-state followers: whatever is requested and whatever the
flags are, after `_drbd_set_state` on a device in a network-error state
(`Timeout` to `TearDown`) `conn` is the old one, `Unconnected` or
`Disconnecting`; on a device in the state `Disconnecting` it is
`Disconnecting` or `StandAlone`. -/
theorem conn_followers (mdev : drbd_conf) (ns : drbd_state_t) (flags : Nat) :
    ((Timeout ≤ mdev.state.conn ∧ mdev.state.conn ≤ TearDown) →
      (_drbd_set_state mdev ns flags).2.state.conn = mdev.state.conn ∨
      (_drbd_set_state mdev ns flags).2.state.conn = Unconnected ∨
      (_drbd_set_state mdev ns flags).2.state.conn = Disconnecting) ∧
    (mdev.state.conn = Disconnecting →
      (_drbd_set_state mdev ns flags).2.state.conn = Disconnecting ∨
      (_drbd_set_state mdev ns flags).2.state.conn = StandAlone) := by
  obtain ⟨f1, f2⟩ := sanitised_conn_followers mdev.state ns
  constructor
  · intro h
    rcases set_state_state mdev ns flags with e | e
    · rw [e]; exact Or.inl rfl
    · rw [e, sanitising_conn mdev mdev.state ns (by
        simp only [Timeout, TearDown, Unconnected, Disconnecting, Connected] at h f1 ⊢
        rcases f1 h with g | g | g <;> omega)]
      exact f1 h
  · intro h
    rcases set_state_state mdev ns flags with e | e
    · rw [e]; exact Or.inl h
    · rw [e, sanitising_conn mdev mdev.state ns (by
        simp only [Disconnecting, StandAlone, Connected] at h f2 ⊢
        rcases f2 h with g | g <;> omega)]
      exact f2 h

/-- C15 at a device in `NetworkFailure` and at a device in `Disconnecting`,
for the forced request for `Connected`. -/
theorem conn_followers_witness :
    ((Timeout ≤ net_failed_mdev.state.conn ∧ net_failed_mdev.state.conn ≤ TearDown) ∧
      ((_drbd_set_state net_failed_mdev { net_failed_mdev.state with conn := Connected }
          ChgStateHard).2.state.conn = net_failed_mdev.state.conn ∨
       (_drbd_set_state net_failed_mdev { net_failed_mdev.state with conn := Connected }
          ChgStateHard).2.state.conn = Unconnected ∨
       (_drbd_set_state net_failed_mdev { net_failed_mdev.state with conn := Connected }
          ChgStateHard).2.state.conn = Disconnecting)) ∧
    (disconnecting_mdev.state.conn = Disconnecting ∧
      ((_drbd_set_state disconnecting_mdev { disconnecting_mdev.state with conn := Connected }
          ChgStateHard).2.state.conn = Disconnecting ∨
       (_drbd_set_state disconnecting_mdev { disconnecting_mdev.state with conn := Connected }
          ChgStateHard).2.state.conn = StandAlone)) :=
  ⟨⟨by decide,
    (conn_followers net_failed_mdev { net_failed_mdev.state with conn := Connected }
      ChgStateHard).1 (by decide)⟩,
   ⟨by decide,
    (conn_followers disconnecting_mdev { disconnecting_mdev.state with conn := Connected }
      ChgStateHard).2 (by decide)⟩⟩

/-! ### No information on the peer below `Connected` -/

theorem set_state_success_state (mdev : drbd_conf) (ns : drbd_state_t) (flags : Nat)
    (h : (_drbd_set_state mdev ns flags).1 = SS_Success) :
    (_drbd_set_state mdev ns flags).2.state = early_state_sanitising mdev mdev.state ns := by
  unfold _drbd_set_state at h ⊢
  simp only [] at h ⊢
  split_ifs at h ⊢ with h1 h2
  · have h3 : SS_NothingToDo = SS_Success := h
    exact absurd h3 (by decide)
  · have h3 : pre_state_change_checks mdev mdev.state
        (early_state_sanitising mdev mdev.state ns) flags = SS_Success := h
    rw [h3] at h2
    exact absurd h2 (by decide)
  · rfl

theorem sanitise_sync_abort_conn_ge (os ns : drbd_state_t) (h : ns.conn ≥ Connected) :
    (sanitise_sync_abort os ns).conn ≥ Connected := by
  unfold sanitise_sync_abort
  split_ifs
  · exact Nat.le_refl _
  · exact h

theorem sanitise_pause_conn_ge (ns : drbd_state_t) (h : ns.conn ≥ Connected) :
    (sanitise_pause ns).conn ≥ Connected := by
  unfold sanitise_pause
  simp only [Connected, SyncSource, SyncTarget, PausedSyncS, PausedSyncT] at h ⊢
  split_ifs <;> simp_all

/-- If the sanitised state is below `Connected`, the state after the first
four blocks is so too. -/
theorem sanitising_conn_lt (mdev : drbd_conf) (os ns : drbd_state_t)
    (h : (early_state_sanitising mdev os ns).conn < Connected) :
    (sanitise_disconnecting os (sanitise_after_net_error os
      (sanitise_net_error os (sanitise_invalidate os ns)))).conn < Connected := by
  by_contra hge
  have hge : (sanitise_disconnecting os (sanitise_after_net_error os
      (sanitise_net_error os (sanitise_invalidate os ns)))).conn ≥ Connected := Nat.le_of_not_lt hge
  unfold early_state_sanitising at h
  simp only [] at h
  generalize sanitise_disconnecting os (sanitise_after_net_error os
      (sanitise_net_error os (sanitise_invalidate os ns))) = n4 at h hge
  have h7 : (sanitise_sync_abort os (sanitise_diskless (sanitise_peer n4))).conn ≥ Connected :=
    sanitise_sync_abort_conn_ge _ _ (by rw [sanitise_diskless_conn, sanitise_peer_conn]; exact hge)
  have h12 := sanitise_pause_conn_ge
    (sanitise_susp (if inc_local mdev = true then mdev.fencing else DontCare)
      (sanitise_negotiating mdev (sanitise_pdsk (sanitise_disk
        (sanitise_sync_abort os (sanitise_diskless (sanitise_peer n4)))))))
    (by rw [sanitise_susp_conn, sanitise_negotiating_conn, sanitise_pdsk_conn,
          sanitise_disk_conn]; exact h7)
  exact absurd h (Nat.not_lt.mpr h12)

/-- The first four blocks of the sanitising leave the disk state alone. -/
theorem sanitising_start_disk (os ns : drbd_state_t) :
    (sanitise_disconnecting os (sanitise_after_net_error os
      (sanitise_net_error os (sanitise_invalidate os ns)))).disk = ns.disk := by
  unfold sanitise_disconnecting sanitise_after_net_error sanitise_net_error sanitise_invalidate
  split_ifs <;> rfl

theorem sanitise_peer_clean (n : drbd_state_t) (h : n.conn < Connected) :
    no_peer_info (sanitise_peer n) ∧ (n.disk ≠ Negotiating → no_peer_disk (sanitise_peer n)) := by
  unfold sanitise_peer no_peer_info no_peer_disk
  rw [if_pos h]
  refine ⟨⟨h, rfl, rfl⟩, fun hd => ⟨hd, ?_⟩⟩
  show (if n.pdsk > DUnknown ∨ n.pdsk < Inconsistent then DUnknown else n.pdsk) = Inconsistent ∨ _
  simp only [DUnknown, Inconsistent, Outdated]
  split_ifs with hp
  · exact Or.inr (Or.inr rfl)
  · omega

theorem sanitise_diskless_clean (n : drbd_state_t) (h : no_peer_info n) :
    no_peer_info (sanitise_diskless n) ∧ (no_peer_disk n → no_peer_disk (sanitise_diskless n)) := by
  unfold sanitise_diskless
  split_ifs
  · exact ⟨h, fun hd => ⟨hd.1, Or.inr (Or.inr rfl)⟩⟩
  · exact ⟨h, fun hd => hd⟩

theorem sanitise_sync_abort_clean (os n : drbd_state_t) (h : no_peer_info n) :
    sanitise_sync_abort os n = n := by
  unfold sanitise_sync_abort
  rw [if_neg]
  intro ⟨_, h2, _⟩
  exact absurd h.1 (Nat.lt_asymm h2)

theorem sanitise_disk_clean (n : drbd_state_t) (h : no_peer_info n) : sanitise_disk n = n := by
  unfold sanitise_disk
  rw [if_neg]
  intro ⟨h2, _⟩
  exact absurd h.1 (Nat.not_lt.mpr h2)

theorem sanitise_pdsk_clean (n : drbd_state_t) (h : no_peer_info n) : sanitise_pdsk n = n := by
  unfold sanitise_pdsk
  rw [if_neg]
  intro ⟨h2, _⟩
  exact absurd h.1 (Nat.not_lt.mpr h2)

theorem sanitise_negotiating_clean (mdev : drbd_conf) (n : drbd_state_t) (h : no_peer_info n) :
    no_peer_info (sanitise_negotiating mdev n) ∧
    (no_peer_disk n → sanitise_negotiating mdev n = n) := by
  unfold sanitise_negotiating
  constructor
  · split_ifs <;> exact h
  · intro hd
    rw [if_neg]
    intro ⟨_, h2, _⟩
    exact hd.1 h2

theorem sanitise_susp_clean (fp : Nat) (n : drbd_state_t) (h : no_peer_info n) :
    no_peer_info (sanitise_susp fp n) ∧ (no_peer_disk n → no_peer_disk (sanitise_susp fp n)) := by
  unfold sanitise_susp
  split_ifs
  · exact ⟨h, fun hd => hd⟩
  · exact ⟨h, fun hd => hd⟩

theorem sanitise_pause_clean (n : drbd_state_t) (h : no_peer_info n) : sanitise_pause n = n := by
  have hc : n.conn < Connected := h.1
  simp only [Connected] at hc
  have h1 : ¬ n.conn = SyncSource := by simp only [SyncSource]; omega
  have h2 : ¬ n.conn = SyncTarget := by simp only [SyncTarget]; omega
  have h3 : ¬ n.conn = PausedSyncS := by simp only [PausedSyncS]; omega
  have h4 : ¬ n.conn = PausedSyncT := by simp only [PausedSyncT]; omega
  unfold sanitise_pause
  simp only [h1, h2, h3, h4, if_false, ite_self]

/-- A sanitised state below `Connected` holds no information on the peer. -/
theorem sanitising_clean (mdev : drbd_conf) (os ns : drbd_state_t)
    (h : (early_state_sanitising mdev os ns).conn < Connected) :
    no_peer_info (early_state_sanitising mdev os ns) ∧
    (ns.disk ≠ Negotiating → no_peer_disk (early_state_sanitising mdev os ns)) := by
  have h4 := sanitising_conn_lt mdev os ns h
  have hd := sanitising_start_disk os ns
  unfold early_state_sanitising
  simp only []
  generalize sanitise_disconnecting os (sanitise_after_net_error os
      (sanitise_net_error os (sanitise_invalidate os ns))) = n4 at h4 hd
  obtain ⟨p5, d5⟩ := sanitise_peer_clean n4 h4
  obtain ⟨p6, d6⟩ := sanitise_diskless_clean _ p5
  rw [sanitise_sync_abort_clean os _ p6, sanitise_disk_clean _ p6, sanitise_pdsk_clean _ p6]
  obtain ⟨p10, d10⟩ := sanitise_negotiating_clean mdev _ p6
  obtain ⟨p11, d11⟩ := sanitise_susp_clean
    (if inc_local mdev = true then mdev.fencing else DontCare) _ p10
  rw [sanitise_pause_clean _ p11]
  refine ⟨p11, fun hns => ?_⟩
  have q6 := d6 (d5 (by rw [hd]; exact hns))
  have e10 := d10 q6
  apply d11
  rw [e10]
  exact q6

/-- C16. No peer information below Connected: a state committed by
`_drbd_set_state` (return value `SS_Success`, any flags) with `conn <
Connected` has `peer == Unknown` and `peer_isp == 0`, and, if the requested
disk state is not `Negotiating`, a `pdsk` that is `Inconsistent`, `Outdated` or
`DUnknown`. -/
theorem no_peer_info_below_connected (mdev : drbd_conf) (ns : drbd_state_t) (flags : Nat)
    (hrv : (_drbd_set_state mdev ns flags).1 = SS_Success)
    (hc : (_drbd_set_state mdev ns flags).2.state.conn < Connected) :
    (_drbd_set_state mdev ns flags).2.state.peer = Unknown ∧
    (_drbd_set_state mdev ns flags).2.state.peer_isp = 0 ∧
    (ns.disk ≠ Negotiating →
      (_drbd_set_state mdev ns flags).2.state.pdsk = Inconsistent ∨
      (_drbd_set_state mdev ns flags).2.state.pdsk = Outdated ∨
      (_drbd_set_state mdev ns flags).2.state.pdsk = DUnknown) := by
  have e := set_state_success_state mdev ns flags hrv
  rw [e] at hc ⊢
  obtain ⟨hp, hd⟩ := sanitising_clean mdev mdev.state ns hc
  exact ⟨hp.2.1, hp.2.2, fun h => (hd h).2⟩

/-- C16 at the sample device: the request for `WFConnection` is committed
with an unknown peer. -/
theorem no_peer_info_below_connected_witness :
    (_drbd_set_state sample_mdev lost_peer_request 0).1 = SS_Success ∧
    (_drbd_set_state sample_mdev lost_peer_request 0).2.state.conn < Connected ∧
    (_drbd_set_state sample_mdev lost_peer_request 0).2.state.peer = Unknown ∧
    (_drbd_set_state sample_mdev lost_peer_request 0).2.state.peer_isp = 0 ∧
    (_drbd_set_state sample_mdev lost_peer_request 0).2.state.pdsk = DUnknown :=
  ⟨by decide, by decide,
   (no_peer_info_below_connected sample_mdev lost_peer_request 0 (by decide) (by decide)).1,
   (no_peer_info_below_connected sample_mdev lost_peer_request 0 (by decide) (by decide)).2.1,
   by decide⟩

/-! ### `is_valid_state_transition` -/

/-- Running through a list of conditions, each of which overwrites the code
when it holds, gives the code of the last condition that holds. -/
theorem fold_rules_eq_last (rules : List (Bool × Int)) :
    ∀ init : Int, rules.foldl (fun rv r => if r.1 = true then r.2 else rv) init
      = (last_rule_code rules).getD init := by
  induction rules with
  | nil => intro init; rfl
  | cons r rs ih =>
    intro init
    rw [List.foldl_cons, ih]
    unfold last_rule_code
    cases hr : r.1 with
    | false =>
      rw [List.filter_cons_of_neg (by simp [hr])]
      simp
    | true =>
      rw [List.filter_cons_of_pos (by simp [hr])]
      cases hl : (List.filter (fun r => r.1) rs).getLast? with
      | none =>
        have hnil : List.filter (fun r => r.1) rs = [] := List.getLast?_eq_none_iff.mp hl
        rw [hnil]
        simp
      | some c =>
        have hne : List.filter (fun r => r.1) rs ≠ [] := by
          intro h
          rw [h] at hl
          simp at hl
        obtain ⟨x, xs, hx⟩ := List.exists_cons_of_ne_nil hne
        rw [hx] at hl ⊢
        rw [List.getLast?_cons_cons, hl]
        simp

theorem transition_eq_fold (mdev : drbd_conf) (ns os : drbd_state_t) :
    is_valid_state_transition mdev ns os
      = (transition_rules ns os).foldl (fun rv r => if r.1 = true then r.2 else rv) SS_Success := by
  unfold is_valid_state_transition transition_rules
  simp only [List.foldl, decide_eq_true_eq]

theorem last_rule_code_none (rules : List (Bool × Int)) :
    last_rule_code rules = none ↔ ∀ r ∈ rules, r.1 = false := by
  unfold last_rule_code
  rw [Option.map_eq_none', List.getLast?_eq_none_iff, List.filter_eq_nil_iff]
  simp

theorem last_rule_code_some (rules : List (Bool × Int)) (c : Int)
    (h : last_rule_code rules = some c) : ∃ r ∈ rules, r.1 = true ∧ r.2 = c := by
  unfold last_rule_code at h
  rw [Option.map_eq_some'] at h
  obtain ⟨r, hr, hc⟩ := h
  have hm := List.mem_of_getLast?_eq_some hr
  rw [List.mem_filter] at hm
  exact ⟨r, hm.1, hm.2, hc⟩

theorem transition_codes (ns os : drbd_state_t) :
    ∀ r ∈ transition_rules ns os, r.2 < SS_Success := by
  intro r hr
  unfold transition_rules at hr
  simp only [List.mem_cons, List.mem_singleton, List.not_mem_nil, or_false] at hr
  rcases hr with h | h | h | h | h | h | h | h | h | h <;> (rw [h]; dsimp only; decide)

/-- A condition of the list that holds makes `is_valid_state_transition`
fail. -/
theorem transition_fails (mdev : drbd_conf) (ns os : drbd_state_t) (r : Bool × Int)
    (hr : r ∈ transition_rules ns os) (h : r.1 = true) :
    is_valid_state_transition mdev ns os < SS_Success := by
  rw [transition_eq_fold, fold_rules_eq_last]
  cases hl : last_rule_code (transition_rules ns os) with
  | none =>
    have := (last_rule_code_none _).mp hl r hr
    rw [h] at this
    exact absurd this (by decide)
  | some c =>
    obtain ⟨r1, hr1, _, hc⟩ := last_rule_code_some _ c hl
    rw [Option.getD_some, ← hc]
    exact transition_codes ns os r1 hr1

/-- C17. Transition rejections: `is_valid_state_transition(ns, os)` returns
a code below `SS_Success` if a resync is to start while `os.conn > Connected`,
if `Disconnecting` is requested in `StandAlone`, if the disk is to rise above
`Attaching` from `Diskless`, if `WFConnection` is requested with `os.conn <
Unconnected`, or if the disk is to become `Outdated` from a lower state other
than `Attaching`.  It returns `SS_Success` exactly if none of the ten
conditions of the function holds, and otherwise the code of the last condition
in source order that holds. -/
theorem transition_rejections (mdev : drbd_conf) (ns os : drbd_state_t) :
    (((ns.conn = StartingSyncS ∨ ns.conn = StartingSyncT) ∧ os.conn > Connected) →
      is_valid_state_transition mdev ns os < SS_Success) ∧
    ((ns.conn = Disconnecting ∧ os.conn = StandAlone) →
      is_valid_state_transition mdev ns os < SS_Success) ∧
    ((ns.disk > Attaching ∧ os.disk = Diskless) →
      is_valid_state_transition mdev ns os < SS_Success) ∧
    ((ns.conn = WFConnection ∧ os.conn < Unconnected) →
      is_valid_state_transition mdev ns os < SS_Success) ∧
    ((ns.disk = Outdated ∧ os.disk < Outdated ∧ os.disk ≠ Attaching) →
      is_valid_state_transition mdev ns os < SS_Success) ∧
    (is_valid_state_transition mdev ns os = SS_Success ↔
      ∀ r ∈ transition_rules ns os, r.1 = false) ∧
    is_valid_state_transition mdev ns os
      = (last_rule_code (transition_rules ns os)).getD SS_Success := by
  refine ⟨?_, ?_, ?_, ?_, ?_, ?_, ?_⟩
  · intro h
    refine transition_fails mdev ns os (true, SS_ResyncRunning) ?_ rfl
    unfold transition_rules
    rw [decide_eq_true (⟨h.1.symm, h.2⟩ :
      (ns.conn = StartingSyncT ∨ ns.conn = StartingSyncS) ∧ os.conn > Connected)]
    exact List.mem_cons_self _ _
  · intro h
    refine transition_fails mdev ns os (true, SS_AlreadyStandAlone) ?_ rfl
    unfold transition_rules
    rw [decide_eq_true h]
    simp
  · intro h
    refine transition_fails mdev ns os (true, SS_IsDiskLess) ?_ rfl
    unfold transition_rules
    rw [decide_eq_true h]
    simp
  · intro h
    refine transition_fails mdev ns os (true, SS_NoNetConfig) ?_ rfl
    unfold transition_rules
    rw [decide_eq_true h]
    simp
  · intro h
    refine transition_fails mdev ns os (true, SS_LowerThanOutdated) ?_ rfl
    unfold transition_rules
    rw [decide_eq_true h]
    simp
  · rw [← last_rule_code_none, transition_eq_fold, fold_rules_eq_last]
    constructor
    · intro h
      cases hl : last_rule_code (transition_rules ns os) with
      | none => rfl
      | some c =>
        obtain ⟨r1, hr1, _, hc⟩ := last_rule_code_some _ c hl
        rw [hl, Option.getD_some, ← hc] at h
        have := transition_codes ns os r1 hr1
        rw [h] at this
        exact absurd this (by decide)
    · intro h
      rw [h]
      rfl
  · rw [transition_eq_fold, fold_rules_eq_last]

/-- C17 at a state with a running resync: the request to start a resync with
an `Outdated` disk meets the first and the fifth condition; the code is that of
the fifth one, `SS_LowerThanOutdated`. -/
theorem transition_rejections_witness :
    ((({ resync_running_state with conn := StartingSyncS, disk := Outdated } : drbd_state_t).conn
        = StartingSyncS ∨
      ({ resync_running_state with conn := StartingSyncS, disk := Outdated } : drbd_state_t).conn
        = StartingSyncT) ∧ resync_running_state.conn > Connected) ∧
    is_valid_state_transition sample_mdev
      { resync_running_state with conn := StartingSyncS, disk := Outdated }
      resync_running_state < SS_Success ∧
    is_valid_state_transition sample_mdev
      { resync_running_state with conn := StartingSyncS, disk := Outdated }
      resync_running_state = SS_LowerThanOutdated :=
  ⟨by decide,
   (transition_rejections sample_mdev
     { resync_running_state with conn := StartingSyncS, disk := Outdated }
     resync_running_state).1 (by decide),
   by decide⟩

/-! ### `is_valid_state` and the primary role -/

/-- C18, as stated, fails: a connected primary with an `Inconsistent` disk
and a peer disk in `DUnknown` has no `UpToDate` disk on either side, is left
as it is by the sanitising, and `is_valid_state` returns `SS_Success`. -/
theorem primary_needs_uptodate_counterexample :
    primary_inconsistent_state.role = Primary ∧
    primary_inconsistent_state.disk < UpToDate ∧ primary_inconsistent_state.pdsk < UpToDate ∧
    early_state_sanitising sample_mdev sample_mdev.state primary_inconsistent_state
      = primary_inconsistent_state ∧
    is_valid_state sample_mdev primary_inconsistent_state = SS_Success := by
  decide

/-- C18, amended. Primary needs an UpToDate disk: for a state `ns` with
`role == Primary`, `disk < UpToDate` and `pdsk < UpToDate` and every device
configuration, `is_valid_state(ns)` returns a code below `SS_Success` exactly if
`conn != Connected`, or `disk <= Inconsistent` and `pdsk <= Inconsistent`, or
`disk == Outdated`, or the peer is `Primary` too on a device with a network
configuration that does not allow two primaries. -/
theorem primary_needs_uptodate (mdev : drbd_conf) (ns : drbd_state_t)
    (hr : ns.role = Primary) (hd : ns.disk < UpToDate) (hp : ns.pdsk < UpToDate) :
    is_valid_state mdev ns < SS_Success ↔
      ((inc_net mdev = true ∧ mdev.two_primaries = false ∧ ns.peer = Primary) ∨
        ns.conn ≠ Connected ∨ (ns.disk ≤ Inconsistent ∧ ns.pdsk ≤ Inconsistent) ∨
        ns.disk = Outdated) := by
  by_cases hP : inc_net mdev = true ∧ ¬ mdev.two_primaries = true ∧ ns.role = Primary ∧
      ns.peer = Primary
  · have e : is_valid_state mdev ns = SS_TwoPrimaries := by
      unfold is_valid_state
      simp only []
      rw [if_pos hP, if_pos (by decide)]
    rw [e]
    constructor
    · intro _
      exact Or.inl ⟨hP.1, by simpa using hP.2.1, hP.2.2.2⟩
    · intro _
      decide
  · have hA : ¬ (inc_net mdev = true ∧ mdev.two_primaries = false ∧ ns.peer = Primary) := by
      intro h
      exact hP ⟨h.1, by simp [h.2.1], hr, h.2.2⟩
    rw [or_iff_right hA]
    unfold is_valid_state
    simp only []
    rw [if_neg hP, if_neg (by decide)]
    generalize (if inc_local mdev = true then mdev.fencing else DontCare) = fp
    generalize mdev.open_cnt = oc
    generalize mdev.verify_alg = va
    generalize mdev.agreed_pro_version = pv
    rw [hr]
    simp only [Primary, Secondary, UpToDate, Inconsistent, Outdated, DUnknown, Diskless, Connected,
      WFBitMapS, SyncSource, PausedSyncS, VerifyS, VerifyT, Resource, SS_Success,
      SS_DeviceInUse, SS_NoUpToDateDisk, SS_PrimaryNOP, SS_BothInconsistent, SS_SyncingDiskless,
      SS_ConnectedOutdates, SS_NoVerifyAlg, SS_NotSupported] at hd hp ⊢
    simp only [true_and]
    split_ifs <;> omega

/-- C18, amended, at a primary without connection and with an `Outdated`
disk. -/
theorem primary_needs_uptodate_witness :
    primary_alone_state.role = Primary ∧ primary_alone_state.disk < UpToDate ∧
    primary_alone_state.pdsk < UpToDate ∧
    is_valid_state sample_mdev primary_alone_state < SS_Success :=
  ⟨rfl, by decide, by decide,
   (primary_needs_uptodate sample_mdev primary_alone_state rfl (by decide) (by decide)).mpr
     (Or.inr (Or.inl (by decide)))⟩

/-! ### Barrier numbers -/

/-- The number that `_tl_add_barrier` assigns: the successor of the newest
number modulo `2^32`, and 1 in place of 0. -/
theorem tl_add_barrier_number (newest_before : drbd_barrier) :
    (_tl_add_barrier newest_before).br_number ≠ 0 ∧
    (_tl_add_barrier newest_before).br_number < 2 ^ 32 ∧
    (_tl_add_barrier newest_before).br_number =
      if (newest_before.br_number + 1) % 2 ^ 32 = 0 then 1
      else (newest_before.br_number + 1) % 2 ^ 32 := by
  unfold _tl_add_barrier
  simp only [ne_eq, ite_not]
  refine ⟨?_, ?_, trivial⟩
  · split_ifs with h
    · decide
    · exact h
  · split_ifs with h
    · decide
    · exact Nat.mod_lt _ (by decide)

theorem tl_clear_loop_tl (nr : Nat) (l : List drbd_barrier) (ap : Int) (hl : l ≠ []) :
    (tl_clear_loop nr l ap).1 = [{ br_number := nr % 2 ^ 32, n_req := 0, w_cb := false }] := by
  induction l generalizing ap with
  | nil => exact absurd rfl hl
  | cons b rest ih =>
    cases rest with
    | nil => rfl
    | cons b1 rest1 =>
      rw [tl_clear_loop]
      exact ih _ (List.cons_ne_nil _ _)

/-- What keeps the barrier numbers away from 0: `tl_init`, `_tl_add_barrier`
and `tl_release` do, and `tl_clear` does if `net_random()` is not 0. -/
theorem tl_nonzero_kept (mdev : drbd_conf) :
    (∀ m, tl_init mdev true = some m → tl_nonzero m) ∧
    (tl_nonzero mdev → ∀ m, tl_add_new_barrier mdev = some m → tl_nonzero m) ∧
    (tl_nonzero mdev → ∀ barrier_nr set_size, tl_nonzero (tl_release mdev barrier_nr set_size)) ∧
    (∀ nr, nr % 2 ^ 32 ≠ 0 → tl_nonzero (tl_clear mdev nr)) := by
  refine ⟨?_, ?_, ?_, ?_⟩
  · intro m h
    unfold tl_init at h
    rw [if_pos rfl] at h
    cases h
    intro b hb
    have e : b = { br_number := 4711, n_req := 0, w_cb := false } := List.mem_singleton.mp hb
    rw [e]
    decide
  · intro inv m h
    unfold tl_add_new_barrier at h
    cases hlast : mdev.tl.getLast? with
    | none => rw [hlast] at h; cases h
    | some nb =>
      rw [hlast] at h
      cases h
      intro b hb
      have hb1 : b ∈ mdev.tl ++ [_tl_add_barrier nb] := hb
      rcases List.mem_append.mp hb1 with h1 | h1
      · exact inv b h1
      · rw [List.mem_singleton.mp h1]
        exact (tl_add_barrier_number nb).1
  · intro inv barrier_nr set_size
    have hforce : tl_nonzero (drbd_force_state mdev NS_conn_mask (NS_conn_val ProtocolError)) := by
      rw [force_state_eq]
      exact inv
    unfold tl_release
    cases htl : mdev.tl with
    | nil => exact hforce
    | cons b nob =>
      have hnob : ∀ x ∈ nob, x.br_number ≠ 0 := fun x hx =>
        inv x (by rw [htl]; exact List.mem_cons_of_mem _ hx)
      simp only []
      split_ifs
      · exact hforce
      · exact hforce
      · intro x hx
        have hx1 : x ∈ nob ++ [_tl_add_barrier ((b :: nob).getLast (List.cons_ne_nil b nob))] := hx
        rcases List.mem_append.mp hx1 with h1 | h1
        · exact hnob x h1
        · rw [List.mem_singleton.mp h1]
          exact (tl_add_barrier_number _).1
      · exact hnob
  · intro nr hnr b hb
    have hb1 : b ∈ (tl_clear_loop nr mdev.tl mdev.ap_pending_cnt).1 := hb
    by_cases hl : mdev.tl = []
    · rw [hl] at hb1
      exact absurd hb1 (List.not_mem_nil b)
    · rw [tl_clear_loop_tl nr _ _ hl] at hb1
      rw [List.mem_singleton.mp hb1]
      exact hnr

/-- C19 fails on the code.  After `tl_init`, a call of `tl_clear` in which
`net_random()` returns 0 leaves the recycled barrier with `br_number == 0` in
the transfer log. -/
theorem barrier_number_zero_after_clear :
    (tl_init sample_mdev true).map (fun m => (tl_clear m 0).tl)
      = some [{ br_number := 0, n_req := 0, w_cb := false }] := by
  decide

/-- C20. Epochs finish only when complete: for every epoch of the chain and
every event, with or without `EV_cleanup`, if after the event the epoch has
size 0, or active requests, or no barrier number, or is finishing already, or
its list predecessor is not the current epoch, then `drbd_may_finish_epoch`
returns `FE_still_live` and changes nothing but the epoch, to which it applies
the event: no epoch is unlinked or reset, `mdev->epochs` is unchanged and no
barrier ack is sent. -/
theorem epoch_finishes_only_when_complete (mdev : drbd_conf) (epoch : Nat) (e0 : drbd_epoch)
    (ev : epoch_event) (cleanup : Bool) (outcomes : List Bool)
    (h0 : mdev.epoch_list[epoch]? = some e0)
    (hinc : (apply_epoch_event mdev epoch e0 ev).epoch_size = 0 ∨
      (apply_epoch_event mdev epoch e0 ev).active ≠ 0 ∨
      (apply_epoch_event mdev epoch e0 ev).flags.DE_HAVE_BARRIER_NUMBER = false ∨
      (apply_epoch_event mdev epoch e0 ev).flags.DE_IS_FINISHING = true ∨
      list_prev mdev.epoch_list.length epoch ≠ mdev.epoch_list.length - 1) :
    drbd_may_finish_epoch mdev epoch ev cleanup outcomes =
      some (FE_still_live,
            { mdev with epoch_list :=
                mdev.epoch_list.set epoch (apply_epoch_event mdev epoch e0 ev) },
            outcomes) := by
  have hnd : epoch_nearly_done mdev epoch (apply_epoch_event mdev epoch e0 ev) = false := by
    unfold epoch_nearly_done
    apply decide_eq_false
    intro ⟨h1, h2, h3, h4, h5⟩
    rcases hinc with h | h | h | h | h
    · exact h1 h
    · exact h h2
    · rw [h3] at h; exact absurd h (by decide)
    · rw [h5] at h; exact absurd h (by decide)
    · exact h h4
  have hlen : ∃ k, mdev.epoch_list.length = k + 1 := by
    have hlt : epoch < mdev.epoch_list.length := by
      by_contra hge
      rw [List.getElem?_eq_none (Nat.le_of_not_lt hge)] at h0
      cases h0
    exact ⟨mdev.epoch_list.length - 1, by omega⟩
  obtain ⟨k, hk⟩ := hlen
  have hloop := loop_stop k mdev epoch ev cleanup FE_still_live false e0 h0
    (by rw [hnd]; simp) (by rw [hnd]; simp)
  unfold drbd_may_finish_epoch
  simp only [may_finish_epoch_depth]
  rw [hk, hloop]
  simp

/-- C20 at a device whose oldest epoch has an active request: the event
`EV_got_barrier_nr` leaves both epochs in the chain, and no barrier ack is
sent. -/
theorem epoch_finishes_only_when_complete_witness :
    (drbd_may_finish_epoch busy_epoch_mdev 0 EV_got_barrier_nr false []).map
      (fun r => (r.1, r.2.1.epoch_list.length, r.2.1.epochs, r.2.1.b_acks))
      = some (FE_still_live, 2, 2, []) := by
  rw [epoch_finishes_only_when_complete busy_epoch_mdev 0 (sample_epoch 7 3 1 true)
    EV_got_barrier_nr false [] (by decide) (Or.inr (Or.inl (by decide)))]
  decide

/-! ### Write ordering -/

/-- C21. Write-ordering demotion is sticky: after
`drbd_bump_write_ordering(mdev, wo)` the method is at most the previous one and
at most `wo`, it is not a method that the settings `no_disk_barrier`,
`no_disk_flush`, `no_disk_drain` disable, and a second call with the same `wo`
changes nothing. -/
theorem write_ordering_demotion (mdev : drbd_conf) (wo : Nat) :
    (drbd_bump_write_ordering mdev wo).write_ordering ≤ mdev.write_ordering ∧
    (drbd_bump_write_ordering mdev wo).write_ordering ≤ wo ∧
    ¬ wo_disabled mdev (drbd_bump_write_ordering mdev wo).write_ordering ∧
    drbd_bump_write_ordering (drbd_bump_write_ordering mdev wo) wo
      = drbd_bump_write_ordering mdev wo := by
  have key : ∀ (pwo : Nat) (nb nf nd : Bool),
      let r := (if (if (if min pwo wo = WO_bio_barrier ∧ nb = true then WO_bdev_flush
                  else min pwo wo) = WO_bdev_flush ∧ nf = true then WO_drain_io
                else (if min pwo wo = WO_bio_barrier ∧ nb = true then WO_bdev_flush
                  else min pwo wo)) = WO_drain_io ∧ nd = true then WO_none
              else (if (if min pwo wo = WO_bio_barrier ∧ nb = true then WO_bdev_flush
                  else min pwo wo) = WO_bdev_flush ∧ nf = true then WO_drain_io
                else (if min pwo wo = WO_bio_barrier ∧ nb = true then WO_bdev_flush
                  else min pwo wo)))
      r ≤ pwo ∧ r ≤ wo ∧
      ¬ ((r = WO_bio_barrier ∧ nb = true) ∨ (r = WO_bdev_flush ∧ nf = true) ∨
         (r = WO_drain_io ∧ nd = true)) ∧
      (if (if (if min r wo = WO_bio_barrier ∧ nb = true then WO_bdev_flush
                  else min r wo) = WO_bdev_flush ∧ nf = true then WO_drain_io
                else (if min r wo = WO_bio_barrier ∧ nb = true then WO_bdev_flush
                  else min r wo)) = WO_drain_io ∧ nd = true then WO_none
              else (if (if min r wo = WO_bio_barrier ∧ nb = true then WO_bdev_flush
                  else min r wo) = WO_bdev_flush ∧ nf = true then WO_drain_io
                else (if min r wo = WO_bio_barrier ∧ nb = true then WO_bdev_flush
                  else min r wo))) = r := by
    intro pwo nb nf nd
    simp only [WO_bio_barrier, WO_bdev_flush, WO_drain_io, WO_none]
    have hmin : min pwo wo ≤ pwo ∧ min pwo wo ≤ wo := ⟨Nat.min_le_left _ _, Nat.min_le_right _ _⟩
    generalize min pwo wo = m at hmin
    have hr : ∀ x : Nat,
        (if (if (if x = 3 ∧ nb = true then 2 else x) = 2 ∧ nf = true then 1
              else (if x = 3 ∧ nb = true then 2 else x)) = 1 ∧ nd = true then 0
          else (if (if x = 3 ∧ nb = true then 2 else x) = 2 ∧ nf = true then 1
              else (if x = 3 ∧ nb = true then 2 else x))) ≤ x ∧
        ¬ (((if (if (if x = 3 ∧ nb = true then 2 else x) = 2 ∧ nf = true then 1
              else (if x = 3 ∧ nb = true then 2 else x)) = 1 ∧ nd = true then 0
          else (if (if x = 3 ∧ nb = true then 2 else x) = 2 ∧ nf = true then 1
              else (if x = 3 ∧ nb = true then 2 else x))) = 3 ∧ nb = true) ∨
          ((if (if (if x = 3 ∧ nb = true then 2 else x) = 2 ∧ nf = true then 1
              else (if x = 3 ∧ nb = true then 2 else x)) = 1 ∧ nd = true then 0
          else (if (if x = 3 ∧ nb = true then 2 else x) = 2 ∧ nf = true then 1
              else (if x = 3 ∧ nb = true then 2 else x))) = 2 ∧ nf = true) ∨
          ((if (if (if x = 3 ∧ nb = true then 2 else x) = 2 ∧ nf = true then 1
              else (if x = 3 ∧ nb = true then 2 else x)) = 1 ∧ nd = true then 0
          else (if (if x = 3 ∧ nb = true then 2 else x) = 2 ∧ nf = true then 1
              else (if x = 3 ∧ nb = true then 2 else x))) = 1 ∧ nd = true)) := by
      intro x
      generalize hw1 : (if x = 3 ∧ nb = true then 2 else x) = w1
      generalize hw2 : (if w1 = 2 ∧ nf = true then 1 else w1) = w2
      generalize hw3 : (if w2 = 1 ∧ nd = true then 0 else w2) = w3
      cases nb <;> cases nf <;> cases nd <;>
        simp only [Bool.false_eq_true, and_false, and_true, if_false, false_or, or_false,
          not_false_eq_true] at hw1 hw2 hw3 ⊢ <;>
        first
          | (split_ifs at hw1 hw2 hw3 <;> omega)
          | omega
    have hfix : ∀ x : Nat, ¬ ((x = 3 ∧ nb = true) ∨ (x = 2 ∧ nf = true) ∨ (x = 1 ∧ nd = true)) →
        (if (if (if x = 3 ∧ nb = true then 2 else x) = 2 ∧ nf = true then 1
              else (if x = 3 ∧ nb = true then 2 else x)) = 1 ∧ nd = true then 0
          else (if (if x = 3 ∧ nb = true then 2 else x) = 2 ∧ nf = true then 1
              else (if x = 3 ∧ nb = true then 2 else x))) = x := by
      intro x hx
      rw [if_neg (fun h => hx (Or.inl h)), if_neg (fun h => hx (Or.inr (Or.inl h))),
        if_neg (fun h => hx (Or.inr (Or.inr h)))]
    obtain ⟨hle, hnd⟩ := hr m
    generalize (if (if (if m = 3 ∧ nb = true then 2 else m) = 2 ∧ nf = true then 1
              else (if m = 3 ∧ nb = true then 2 else m)) = 1 ∧ nd = true then 0
          else (if (if m = 3 ∧ nb = true then 2 else m) = 2 ∧ nf = true then 1
              else (if m = 3 ∧ nb = true then 2 else m))) = r at hle hnd ⊢
    have hrw : r ≤ wo := by omega
    refine ⟨by omega, hrw, hnd, ?_⟩
    rw [Nat.min_eq_left hrw]
    exact hfix r hnd
  obtain ⟨h1, h2, h3, h4⟩ := key mdev.write_ordering mdev.no_disk_barrier mdev.no_disk_flush
    mdev.no_disk_drain
  refine ⟨h1, h2, h3, ?_⟩
  unfold drbd_bump_write_ordering
  simp only []
  rw [h4]

/-! ### The handshake of protocol versions -/

/-- C22, as stated, fails: the peer sends `protocol_min = 88` and
`protocol_max = 86`, a range without any version, which has nothing in common
with the local range 86 to 88; `drbd_do_handshake` returns 1 and agrees on
version 86. -/
theorem version_negotiation_counterexample :
    ranges_disjoint 88 86 86 88 ∧
    (drbd_do_handshake 86 88 sample_mdev (good_handshake 88 86)).1 = 1 ∧
    (drbd_do_handshake 86 88 sample_mdev (good_handshake 88 86)).2.agreed_pro_version = 86 := by
  refine ⟨?_, by decide, by decide⟩
  intro v h
  omega

/-- With a `protocol_max` of `2^31` or more, `min_t(int, ...)` reads it as a
negative number: the agreed version is negative. -/
theorem handshake_int_cast :
    (drbd_do_handshake 86 88 sample_mdev (good_handshake 86 0xFFFFFFFF)).1 = 1 ∧
    (drbd_do_handshake 86 88 sample_mdev (good_handshake 86 0xFFFFFFFF)).2.agreed_pro_version
      = -1 := by
  decide

/-- C22, amended. Protocol version negotiation: for a handshake received
in good order whose fields, with `protocol_max == 0` read as `protocol_min`,
satisfy `protocol_min <= protocol_max < 2^31`, `drbd_do_handshake` returns -1
exactly if the range of the peer and the local range `PRO_VERSION_MIN` to
`PRO_VERSION_MAX` have no version in common; otherwise it returns 1 and sets
`agreed_pro_version` to `min(PRO_VERSION_MAX, protocol_max)`, which lies in both
ranges. -/
theorem version_negotiation (PRO_VERSION_MIN PRO_VERSION_MAX : Nat) (mdev : drbd_conf)
    (protocol_min protocol_max hi : Nat)
    (hloc : PRO_VERSION_MIN ≤ PRO_VERSION_MAX)
    (hmin : protocol_min < 2 ^ 32) (hmax : protocol_max < 2 ^ 32)
    (hhi : hi = if protocol_max = 0 then protocol_min else protocol_max)
    (hwf : protocol_min ≤ hi) (hint : hi < 2 ^ 31) :
    ((drbd_do_handshake PRO_VERSION_MIN PRO_VERSION_MAX mdev
        (good_handshake protocol_min protocol_max)).1 = -1 ↔
      ranges_disjoint protocol_min hi PRO_VERSION_MIN PRO_VERSION_MAX) ∧
    (¬ ranges_disjoint protocol_min hi PRO_VERSION_MIN PRO_VERSION_MAX →
      (drbd_do_handshake PRO_VERSION_MIN PRO_VERSION_MAX mdev
        (good_handshake protocol_min protocol_max)).1 = 1 ∧
      (drbd_do_handshake PRO_VERSION_MIN PRO_VERSION_MAX mdev
        (good_handshake protocol_min protocol_max)).2.agreed_pro_version
          = ((min PRO_VERSION_MAX hi : Nat) : Int) ∧
      protocol_min ≤ min PRO_VERSION_MAX hi ∧ min PRO_VERSION_MAX hi ≤ hi ∧
      PRO_VERSION_MIN ≤ min PRO_VERSION_MAX hi ∧ min PRO_VERSION_MAX hi ≤ PRO_VERSION_MAX) := by
  have e1 : protocol_min % 2 ^ 32 = protocol_min := Nat.mod_eq_of_lt hmin
  have e2 : protocol_max % 2 ^ 32 = protocol_max := Nat.mod_eq_of_lt hmax
  have hdis : ranges_disjoint protocol_min hi PRO_VERSION_MIN PRO_VERSION_MAX ↔
      (PRO_VERSION_MAX < protocol_min ∨ PRO_VERSION_MIN > hi) := by
    unfold ranges_disjoint
    constructor
    · intro h
      by_contra hc
      have := h (max protocol_min PRO_VERSION_MIN)
      omega
    · intro h v hv
      omega
  have hcast : int_of_u32 hi = (hi : Int) := by
    unfold int_of_u32
    have : hi % 2 ^ 32 = hi := Nat.mod_eq_of_lt (by omega)
    rw [this, if_pos hint]
  have hval : drbd_do_handshake PRO_VERSION_MIN PRO_VERSION_MAX mdev
      (good_handshake protocol_min protocol_max) =
      if PRO_VERSION_MAX < protocol_min ∨ PRO_VERSION_MIN > hi then (-1, mdev)
      else (1, { mdev with agreed_pro_version := min (PRO_VERSION_MAX : Int) (hi : Int) }) := by
    unfold drbd_do_handshake good_handshake
    simp only [Bool.true_eq_false, if_false, e1, e2, ← hhi, hcast]
  rw [hval, hdis]
  constructor
  · split_ifs with h
    · simp [h]
    · simp only [h, iff_false]
  · intro h
    rw [if_neg h]
    refine ⟨rfl, ?_, by omega, by omega, by omega, by omega⟩
    show min (PRO_VERSION_MAX : Int) (hi : Int) = ((min PRO_VERSION_MAX hi : Nat) : Int)
    omega

/-- C22, amended, at a peer that speaks the versions 87 to 90 while the
local range is 86 to 88: the agreed version is 88. -/
theorem version_negotiation_witness :
    (drbd_do_handshake 86 88 sample_mdev (good_handshake 87 90)).1 = 1 ∧
    (drbd_do_handshake 86 88 sample_mdev (good_handshake 87 90)).2.agreed_pro_version = 88 := by
  have h := (version_negotiation 86 88 sample_mdev 87 90 90 (by decide) (by decide) (by decide)
    (by decide) (by decide) (by decide)).2 (by
      intro hd
      exact hd 88 (by decide))
  exact ⟨h.1, h.2.1.trans (by decide)⟩

/-! ### The counts that the range operations return -/

theorem geom_of_same_fields (b c : drbd_bitmap) (g : bm_geom b) (sf : same_fields b c) :
    bm_geom c :=
  ⟨by rw [sf.pages]; exact g.pages, by rw [sf.words, sf.number_of_pages]; exact g.room,
   by rw [sf.words, sf.bits]; exact g.words⟩

theorem geom_words_big (b : drbd_bitmap) (g : bm_geom b) (hb : b.bm_bits < ULONG_MOD) :
    b.bm_words + 1024 ≤ ULONG_MOD := by
  have hw := g.words
  have e : ULONG_MOD = 18446744073709551616 := by decide
  rw [e] at hb ⊢
  omega

theorem memset_long_zero : memset_long 0 = 0 := by decide

/-- The bitmap that `drbd_bm_set_all` leaves. -/
theorem drbd_bm_set_all_eq (b : drbd_bitmap) (g : bm_geom b) (hb : b.bm_bits < ULONG_MOD) :
    drbd_bm_set_all b
      = some (with_set (cleared_surplus (fill ULONG_MAX b.bm_words b 0)) b.bm_bits) := by
  have hp := g.pages
  have hn : b.bm_pages.isNone = false := by
    cases h : b.bm_pages with
    | none => rw [h] at hp; cases hp
    | some _ => rfl
  have hm := bm_memset_eq b 0 0xff b.bm_words hp (by have := g.room; omega)
    (geom_words_big b g hb) (by omega)
  rw [memset_long_ff] at hm
  have sf := same_fields_fill ULONG_MAX b.bm_words b 0
  have g1 := geom_of_same_fields _ _ g sf
  have hc := bm_clear_surplus_eq _ g1
  have sc := same_fields_cleared (fill ULONG_MAX b.bm_words b 0)
  unfold drbd_bm_set_all
  rw [hn]
  simp only [Bool.false_eq_true, if_false]
  rw [hm]
  simp only [Option.bind_eq_bind, Option.some_bind]
  rw [hc]
  simp only [Option.some_bind]
  rw [with_set_eq, sc.bits, sf.bits]

/-- The bitmap that `drbd_bm_clear_all` leaves. -/
theorem drbd_bm_clear_all_eq (b : drbd_bitmap) (g : bm_geom b) (hb : b.bm_bits < ULONG_MOD) :
    drbd_bm_clear_all b = some (with_set (fill 0 b.bm_words b 0) 0) := by
  have hp := g.pages
  have hn : b.bm_pages.isNone = false := by
    cases h : b.bm_pages with
    | none => rw [h] at hp; cases hp
    | some _ => rfl
  have hm := bm_memset_eq b 0 0 b.bm_words hp (by have := g.room; omega)
    (geom_words_big b g hb) (by omega)
  rw [memset_long_zero] at hm
  unfold drbd_bm_clear_all
  rw [hn]
  simp only [Bool.false_eq_true, if_false]
  rw [hm]
  rfl

theorem bitAt_fill (v : Nat) (n : Nat) (b : drbd_bitmap) (hp : b.bm_pages.isSome = true)
    (i : Nat) (hi : i < n * 64) : bitAt (fill v n b 0) i = v.testBit (i % 64) := by
  unfold bitAt
  rw [wordAt_fill v n b 0 _ hp, if_pos]
  · rfl
  · refine ⟨Nat.zero_le _, ?_⟩
    have e : BITS_PER_LONG = 64 := rfl
    rw [e]
    omega

/-- C25. Bulk set and clear: for an allocated bitmap (page array present,
room for `bm_words` words and the guard word, `bm_words` the rounded-up word
count of `bm_bits`), `drbd_bm_set_all` leaves every bit below `bm_bits` set,
every surplus bit from `bm_bits` up to the end of the `bm_words` words clear,
and a total weight of `bm_bits`; `drbd_bm_clear_all` leaves no bit of the
`bm_words` words set and a total weight of 0. -/
theorem bulk_set_and_clear (b : drbd_bitmap) (g : bm_geom b) (hb : b.bm_bits < ULONG_MOD) :
    (∃ b1, drbd_bm_set_all b = some b1 ∧ b1.bm_bits = b.bm_bits ∧ b1.bm_words = b.bm_words ∧
      (∀ i, i < b.bm_bits → bitAt b1 i = true) ∧
      (∀ i, b.bm_bits ≤ i → i < b.bm_words * 64 → bitAt b1 i = false) ∧
      drbd_bm_total_weight b1 = b.bm_bits ∧
      countBits (bitAt b1) b.bm_bits = b.bm_bits) ∧
    (∃ b1, drbd_bm_clear_all b = some b1 ∧ b1.bm_bits = b.bm_bits ∧ b1.bm_words = b.bm_words ∧
      (∀ i, i < b.bm_words * 64 → bitAt b1 i = false) ∧
      drbd_bm_total_weight b1 = 0 ∧
      countBits (bitAt b1) b.bm_bits = 0) := by
  have hp := g.pages
  have hw := g.words
  constructor
  · have sf := same_fields_fill ULONG_MAX b.bm_words b 0
    have g1 := geom_of_same_fields _ _ g sf
    have sc := same_fields_cleared (fill ULONG_MAX b.bm_words b 0)
    have hbit : ∀ i, i < b.bm_bits → bitAt (with_set (cleared_surplus
        (fill ULONG_MAX b.bm_words b 0)) b.bm_bits) i = true := by
      intro i hi
      rw [bitAt_with_set, bitAt_cleared _ g1, sf.bits, if_pos hi,
        bitAt_fill _ _ _ hp _ (by omega), testBit_ULONG_MAX]
      exact decide_eq_true (Nat.mod_lt _ (by decide))
    refine ⟨_, drbd_bm_set_all_eq b g hb, ?_, ?_, hbit, ?_, ?_, countBits_true hbit⟩
    · show (cleared_surplus _).bm_bits = _
      rw [sc.bits, sf.bits]
    · show (cleared_surplus _).bm_words = _
      rw [sc.words, sf.words]
    · intro i h1 h2
      rw [bitAt_with_set, bitAt_cleared _ g1, sf.bits, sf.words, if_neg (by omega), if_pos h2]
    · unfold drbd_bm_total_weight
      have hs : (cleared_surplus (fill ULONG_MAX b.bm_words b 0)).bm_pages.isSome = true := by
        rw [sc.pages, sf.pages]; exact hp
      show (match (cleared_surplus (fill ULONG_MAX b.bm_words b 0)).bm_pages with
        | none => 0
        | some _ => b.bm_bits) = b.bm_bits
      cases h : (cleared_surplus (fill ULONG_MAX b.bm_words b 0)).bm_pages with
      | none => rw [h] at hs; cases hs
      | some _ => rfl
  · have sf := same_fields_fill 0 b.bm_words b 0
    have hbit : ∀ i, i < b.bm_words * 64 → bitAt (with_set (fill 0 b.bm_words b 0) 0) i = false := by
      intro i hi
      rw [bitAt_with_set, bitAt_fill _ _ _ hp _ hi]
      exact Nat.zero_testBit _
    refine ⟨_, drbd_bm_clear_all_eq b g hb, sf.bits, sf.words, hbit, ?_, ?_⟩
    · unfold drbd_bm_total_weight
      show (match (fill 0 b.bm_words b 0).bm_pages with
        | none => 0
        | some _ => 0) = 0
      cases (fill 0 b.bm_words b 0).bm_pages <;> rfl
    · exact countBits_false (fun i hi => hbit i (by omega))

/-- C25 at the small sample bitmap of 100 bits. -/
theorem bulk_set_and_clear_witness :
    bm_geom small_bitmap ∧ small_bitmap.bm_bits < ULONG_MOD ∧
    ((∃ b1, drbd_bm_set_all small_bitmap = some b1 ∧ b1.bm_bits = small_bitmap.bm_bits ∧
      b1.bm_words = small_bitmap.bm_words ∧
      (∀ i, i < small_bitmap.bm_bits → bitAt b1 i = true) ∧
      (∀ i, small_bitmap.bm_bits ≤ i → i < small_bitmap.bm_words * 64 → bitAt b1 i = false) ∧
      drbd_bm_total_weight b1 = small_bitmap.bm_bits ∧
      countBits (bitAt b1) small_bitmap.bm_bits = small_bitmap.bm_bits) ∧
    (∃ b1, drbd_bm_clear_all small_bitmap = some b1 ∧ b1.bm_bits = small_bitmap.bm_bits ∧
      b1.bm_words = small_bitmap.bm_words ∧
      (∀ i, i < small_bitmap.bm_words * 64 → bitAt b1 i = false) ∧
      drbd_bm_total_weight b1 = 0 ∧
      countBits (bitAt b1) small_bitmap.bm_bits = 0)) :=
  ⟨inv_geom small_bitmap small_inv (by decide), by decide,
   bulk_set_and_clear small_bitmap (inv_geom small_bitmap small_inv (by decide)) (by decide)⟩

/-! ### The search for the next set bit -/

theorem and_not_bpp (x : Nat) (hx : x < ULONG_MOD) :
    x &&& ulong_not BPP_MASK = x / 32768 * 32768 := by
  have h : BPP_MASK = (1 <<< 15) - 1 := by decide
  have e : (32768 : Nat) = 2 ^ 15 := by norm_num
  rw [h]
  apply Nat.eq_of_testBit_eq
  intro j
  rw [Nat.testBit_and, e, Nat.mul_comm, Nat.testBit_mul_pow_two, ← Nat.shiftRight_eq_div_pow,
    Nat.testBit_shiftRight]
  by_cases hj : j < 64
  · rw [testBit_not_mask 15 j hj]
    by_cases h15 : j < 15
    · simp [h15]
    · have e2 : 15 + (j - 15) = j := by omega
      simp [h15, e2]
      omega
  · have hlt : x < 2 ^ j := by
      have : (2 : Nat) ^ 64 ≤ 2 ^ j := Nat.pow_le_pow_right (by decide) (by omega)
      have e3 : ULONG_MOD = 2 ^ 64 := by decide
      omega
    have e2 : 15 + (j - 15) = j := by omega
    rw [e2, Nat.testBit_lt_two_pow hlt]
    simp

theorem bitAt_with_fo (b : drbd_bitmap) (f i : Nat) : bitAt (with_fo b f) i = bitAt b i := rfl

theorem with_fo_with_fo (b : drbd_bitmap) (f g : Nat) : with_fo (with_fo b f) g = with_fo b g :=
  rfl

theorem with_fo_self (b : drbd_bitmap) : with_fo b b.bm_fo = b := by
  cases b; rfl

theorem bitAt_null (b : drbd_bitmap) (h : b.bm_pages.isSome = false) (i : Nat) :
    bitAt b i = false := by
  unfold bitAt wordAt
  cases hp : b.bm_pages with
  | none => exact Nat.zero_testBit _
  | some _ => rw [hp] at h; cases h

/-- A bit of a mapped page, by its number within the page. -/
theorem test_bit_page (b : drbd_bitmap) (hp : b.bm_pages.isSome = true) (pg nr : Nat)
    (hnr : nr < 32768) : test_bit b nr pg = some (bitAt b (pg * 32768 + nr)) := by
  have h := test_bit_eq b (pg * 32768 + nr) hp
  rw [bpp_eq] at h
  have e1 : (pg * 32768 + nr) % 32768 = nr := by omega
  have e2 : (pg * 32768 + nr) / 64 / 512 = pg := by omega
  rw [e1, e2] at h
  exact h

/-- What `find_next_bit` returns on a page of the bitmap. -/
theorem find_next_bit_spec (b : drbd_bitmap) (hp : b.bm_pages.isSome = true) (pg : Nat) :
    ∀ (n off : Nat), off ≤ 32768 → n = 32768 - off →
      ∃ r, find_next_bit b pg 32768 n off = some r ∧ off ≤ r ∧ r ≤ 32768 ∧
        (∀ j, off ≤ j → j < r → bitAt b (pg * 32768 + j) = false) ∧
        (r < 32768 → bitAt b (pg * 32768 + r) = true) := by
  intro n
  induction n with
  | zero =>
    intro off h1 h2
    refine ⟨32768, rfl, h1, Nat.le_refl _, ?_, ?_⟩
    · intro j a c; omega
    · intro a; omega
  | succ k ih =>
    intro off h1 h2
    have hlt : off < 32768 := by omega
    unfold find_next_bit
    rw [if_pos hlt, test_bit_page b hp pg off hlt]
    simp only [Option.bind_eq_bind, Option.some_bind]
    cases hb : bitAt b (pg * 32768 + off) with
    | true =>
      rw [if_pos rfl]
      refine ⟨off, rfl, Nat.le_refl _, h1, ?_, fun _ => hb⟩
      intro j a c; omega
    | false =>
      rw [if_neg Bool.false_ne_true]
      obtain ⟨r, hr, r1, r2, r3, r4⟩ := ih (off + 1) (by omega) (by omega)
      refine ⟨r, hr, by omega, r2, ?_, r4⟩
      intro j a c
      by_cases hj : j = off
      · rw [hj]; exact hb
      · exact r3 j (by omega) c

/-- One round of the loop of `drbd_bm_find_next`, by what `find_next_bit`
finds in the page of the find offset. -/
theorem bm_find_round (b : drbd_bitmap) (hp : b.bm_pages.isSome = true)
    (hroom : b.bm_bits ≤ b.bm_number_of_pages * 32768) (hb : b.bm_bits + 32768 ≤ ULONG_MOD)
    (hfo : b.bm_fo < b.bm_bits) (fuel : Nat) :
    ∃ r, b.bm_fo % 32768 ≤ r ∧ r ≤ 32768 ∧
      (∀ j, b.bm_fo ≤ j → j < b.bm_fo / 32768 * 32768 + r → bitAt b j = false) ∧
      (r < 32768 → bitAt b (b.bm_fo / 32768 * 32768 + r) = true) ∧
      bm_find_loop (fuel + 1) b =
        if r < 32768 then
          if b.bm_fo / 32768 * 32768 + r ≥ b.bm_bits then some (ULONG_MAX, b)
          else some (b.bm_fo / 32768 * 32768 + r, with_fo b (b.bm_fo / 32768 * 32768 + r + 1))
        else bm_find_loop fuel (with_fo b (b.bm_fo / 32768 * 32768 + 32768)) := by
  have eM : ULONG_MOD = 18446744073709551616 := ULONG_MOD_eq
  have hx : b.bm_fo < ULONG_MOD := by omega
  have eP : PAGE_SIZE * 8 = 32768 := by decide
  obtain ⟨r, hr, r1, r2, r3, r4⟩ := find_next_bit_spec b hp (b.bm_fo / 32768)
    (32768 - b.bm_fo % 32768) (b.bm_fo % 32768) (by omega) rfl
  refine ⟨r, r1, r2, ?_, r4, ?_⟩
  · intro j h1 h2
    have := r3 (j - b.bm_fo / 32768 * 32768) (by omega) (by omega)
    have e : b.bm_fo / 32768 * 32768 + (j - b.bm_fo / 32768 * 32768) = j := by omega
    rw [e] at this
    exact this
  · have hmap := map_paddr_eq b (b.bm_fo / 32768 * 32768 / 64) hp (by omega)
    have e1 : b.bm_fo / 32768 * 32768 / 64 / 512 = b.bm_fo / 32768 := by omega
    rw [e1] at hmap
    rw [bm_find_loop, if_pos hfo]
    simp only [and_not_bpp b.bm_fo hx, shr_bpl, hmap, bpp_eq, eP, Option.bind_eq_bind,
      Option.some_bind, hr]
    by_cases hlt : r < 32768
    · rw [if_pos hlt, if_pos hlt]
      have m1 : (b.bm_fo / 32768 * 32768 + r) % ULONG_MOD = b.bm_fo / 32768 * 32768 + r :=
        Nat.mod_eq_of_lt (by omega)
      simp only [m1]
      by_cases hge : b.bm_fo / 32768 * 32768 + r ≥ b.bm_bits
      · rw [if_pos hge, if_pos hge]
      · rw [if_neg hge, if_neg hge]
        have m2 : (b.bm_fo / 32768 * 32768 + r + 1) % ULONG_MOD
            = b.bm_fo / 32768 * 32768 + r + 1 := Nat.mod_eq_of_lt (by omega)
        rw [m2]
        rfl
    · rw [if_neg hlt, if_neg hlt]
      have m1 : (b.bm_fo / 32768 * 32768 + 32768) % ULONG_MOD = b.bm_fo / 32768 * 32768 + 32768 :=
        Nat.mod_eq_of_lt (by omega)
      rw [m1]
      rfl

/-- The loop of `drbd_bm_find_next`: with enough rounds it returns the first
set bit at or after the find offset and moves the offset behind it, or returns
`-1UL` with the offset anywhere from where it was on. -/
theorem bm_find_loop_spec (b0 : drbd_bitmap) (hp : b0.bm_pages.isSome = true)
    (hroom : b0.bm_bits ≤ b0.bm_number_of_pages * 32768)
    (hb : b0.bm_bits + 32768 ≤ ULONG_MOD) :
    ∀ (fuel f : Nat), b0.bm_bits - f + 1 ≤ fuel →
      (∀ i, f ≤ i → i < b0.bm_bits → bitAt b0 i = true →
        (∀ j, f ≤ j → j < i → bitAt b0 j = false) →
        bm_find_loop fuel (with_fo b0 f) = some (i, with_fo b0 (i + 1))) ∧
      ((∀ j, f ≤ j → j < b0.bm_bits → bitAt b0 j = false) →
        ∃ f1, f ≤ f1 ∧ bm_find_loop fuel (with_fo b0 f) = some (ULONG_MAX, with_fo b0 f1)) := by
  intro fuel
  induction fuel with
  | zero => intro f h; omega
  | succ k ih =>
    intro f hfuel
    by_cases hfo : f < b0.bm_bits
    · obtain ⟨r, r1, r2, r3, r4, hloop⟩ :=
        bm_find_round (with_fo b0 f) hp hroom hb hfo k
      simp only [bitAt_with_fo, with_fo_with_fo] at r3 r4 hloop
      have hf : (with_fo b0 f).bm_fo = f := rfl
      have hbits : (with_fo b0 f).bm_bits = b0.bm_bits := rfl
      rw [hf] at r1 r3 r4 hloop
      rw [hbits] at hloop
      by_cases hlt : r < 32768
      · have hset := r4 hlt
        rw [if_pos hlt] at hloop
        constructor
        · intro i h1 h2 h3 h4
          have hi : i = f / 32768 * 32768 + r := by
            by_contra hne
            by_cases hless : i < f / 32768 * 32768 + r
            · have := r3 i h1 hless
              rw [h3] at this
              cases this
            · have := h4 (f / 32768 * 32768 + r) (by omega) (by omega)
              rw [hset] at this
              cases this
          rw [hloop, if_neg (by omega), hi]
        · intro hnone
          have hge : f / 32768 * 32768 + r ≥ b0.bm_bits := by
            by_contra hne
            have := hnone (f / 32768 * 32768 + r) (by omega) (by omega)
            rw [hset] at this
            cases this
          rw [hloop, if_pos hge]
          exact ⟨f, Nat.le_refl _, rfl⟩
      · rw [if_neg hlt] at hloop
        have hr : r = 32768 := by omega
        rw [hr] at r3
        obtain ⟨ih1, ih2⟩ := ih (f / 32768 * 32768 + 32768) (by omega)
        constructor
        · intro i h1 h2 h3 h4
          have hi : f / 32768 * 32768 + 32768 ≤ i := by
            by_contra hne
            have := r3 i h1 (by omega)
            rw [h3] at this
            cases this
          rw [hloop]
          exact ih1 i hi h2 h3 (fun j a c => h4 j (by omega) c)
        · intro hnone
          obtain ⟨f1, hf1, h⟩ := ih2 (fun j a c => hnone j (by omega) c)
          rw [hloop]
          exact ⟨f1, by omega, h⟩
    · constructor
      · intro i h1 h2; omega
      · intro _
        refine ⟨f, Nat.le_refl _, ?_⟩
        unfold bm_find_loop
        have : ¬ ((with_fo b0 f).bm_fo < (with_fo b0 f).bm_bits) := hfo
        rw [if_neg this]

theorem geom_room_bits (b : drbd_bitmap) (g : bm_geom b) :
    b.bm_bits ≤ b.bm_number_of_pages * 32768 := by
  have h1 := g.room
  have h2 := g.words
  omega

theorem isNone_of_isSome (b : drbd_bitmap) (hp : b.bm_pages.isSome = true) :
    b.bm_pages.isNone = false := by
  cases h : b.bm_pages with
  | none => rw [h] at hp; cases hp
  | some _ => rfl

/-- A successful search: the first set bit at or after the find offset is
returned and the offset moves behind it. -/
theorem find_next_found (b : drbd_bitmap) (g : b.bm_pages.isSome = true → bm_geom b)
    (hb : b.bm_bits + 32768 ≤ ULONG_MOD) (i : Nat) (h1 : b.bm_fo ≤ i) (h2 : i < b.bm_bits)
    (h3 : bitAt b i = true) (h4 : ∀ j, b.bm_fo ≤ j → j < i → bitAt b j = false) :
    drbd_bm_find_next b = some (i, with_fo b (i + 1)) := by
  have hp : b.bm_pages.isSome = true := by
    cases h : b.bm_pages.isSome with
    | true => rfl
    | false => rw [bitAt_null b h i] at h3; cases h3
  unfold drbd_bm_find_next
  rw [isNone_of_isSome b hp, if_neg Bool.false_ne_true, if_neg (by omega)]
  have h := (bm_find_loop_spec b hp (geom_room_bits b (g hp)) hb (b.bm_bits - b.bm_fo + 1)
    b.bm_fo (Nat.le_refl _)).1 i h1 h2 h3 h4
  rw [with_fo_self] at h
  exact h

/-- A failed search returns `-1UL`; the find offset does not move back. -/
theorem find_next_none (b : drbd_bitmap) (g : b.bm_pages.isSome = true → bm_geom b)
    (hb : b.bm_bits + 32768 ≤ ULONG_MOD)
    (h : ∀ j, b.bm_fo ≤ j → j < b.bm_bits → bitAt b j = false) :
    ∃ f1, b.bm_fo ≤ f1 ∧ drbd_bm_find_next b = some (ULONG_MAX, with_fo b f1) := by
  unfold drbd_bm_find_next
  cases hpn : b.bm_pages.isNone with
  | true =>
    rw [if_pos rfl]
    exact ⟨b.bm_fo, Nat.le_refl _, by rw [with_fo_self]⟩
  | false =>
    have hp : b.bm_pages.isSome = true := by
      cases hh : b.bm_pages with
      | none => rw [hh] at hpn; cases hpn
      | some _ => rfl
    rw [if_neg Bool.false_ne_true]
    by_cases hgt : b.bm_fo > b.bm_bits
    · rw [if_pos hgt]
      exact ⟨b.bm_fo, Nat.le_refl _, by rw [with_fo_self]⟩
    · rw [if_neg hgt]
      have h := (bm_find_loop_spec b hp (geom_room_bits b (g hp)) hb (b.bm_bits - b.bm_fo + 1)
        b.bm_fo (Nat.le_refl _)).2 h
      rw [with_fo_self] at h
      exact h

/-! ### The calls that follow `drbd_bm_reset_find` -/

theorem filter_range_skip (p : Nat → Bool) (f N : Nat) (hf : f < N) (h : p f = false) :
    (List.range' f (N - f)).filter p = (List.range' (f + 1) (N - (f + 1))).filter p := by
  have e : N - f = (N - (f + 1)) + 1 := by omega
  rw [e, List.range'_succ, List.filter_cons, h]
  rfl

theorem filter_range_hit (p : Nat → Bool) (f N : Nat) (hf : f < N) (h : p f = true) :
    (List.range' f (N - f)).filter p = f :: (List.range' (f + 1) (N - (f + 1))).filter p := by
  have e : N - f = (N - (f + 1)) + 1 := by omega
  rw [e, List.range'_succ, List.filter_cons, h]
  rfl

theorem filter_range_first (p : Nat → Bool) (N : Nat) : ∀ (d f i : Nat), i = f + d → i < N →
    p i = true → (∀ j, f ≤ j → j < i → p j = false) →
    (List.range' f (N - f)).filter p = i :: (List.range' (i + 1) (N - (i + 1))).filter p := by
  intro d
  induction d with
  | zero =>
    intro f i hi hN hp _
    have e : i = f := by omega
    subst e
    exact filter_range_hit p i N hN hp
  | succ k ih =>
    intro f i hi hN hp hl
    rw [filter_range_skip p f N (by omega) (hl f (Nat.le_refl _) (by omega))]
    exact ih (f + 1) i (by omega) hN hp (fun j a c => hl j (by omega) c)

theorem filter_range_none (p : Nat → Bool) (f N : Nat)
    (h : ∀ j, f ≤ j → j < N → p j = false) : (List.range' f (N - f)).filter p = [] := by
  rw [List.filter_eq_nil_iff]
  intro a ha
  rw [List.mem_range'_1] at ha
  rw [h a ha.1 (by omega)]
  exact Bool.false_ne_true

theorem range_map_succ (g : Nat → Nat) (n : Nat) :
    (List.range (n + 1)).map g = g 0 :: (List.range n).map (fun k => g (k + 1)) := by
  rw [List.range_succ_eq_map, List.map_cons, List.map_map]
  rfl

/-- The values of `n` calls in a row, from any find offset `f`: the set bits
from `f` on in increasing order, then `-1UL`. -/
theorem find_calls_from (b : drbd_bitmap) (g : b.bm_pages.isSome = true → bm_geom b)
    (hb : b.bm_bits + 32768 ≤ ULONG_MOD) : ∀ (n f : Nat),
    (find_calls n (with_fo b f)).map Prod.fst = some ((List.range n).map (fun k =>
      ((List.range' f (b.bm_bits - f)).filter (bitAt b)).getD k ULONG_MAX)) := by
  have g1 : ∀ f, (with_fo b f).bm_pages.isSome = true → bm_geom (with_fo b f) :=
    fun f h => ⟨(g h).pages, (g h).room, (g h).words⟩
  intro n
  induction n with
  | zero => intro f; rfl
  | succ k ih =>
    intro f
    rw [range_map_succ]
    by_cases hex : ∃ i, f ≤ i ∧ i < b.bm_bits ∧ bitAt b i = true
    · classical
      have hmin : ∀ m, m < Nat.find hex → ¬ (f ≤ m ∧ m < b.bm_bits ∧ bitAt b m = true) :=
        fun m hm => Nat.find_min hex hm
      obtain ⟨h1, h2, h3⟩ := Nat.find_spec hex
      generalize Nat.find hex = i at hmin h1 h2 h3
      have h4 : ∀ j, f ≤ j → j < i → bitAt b j = false := by
        intro j a c
        cases hj : bitAt b j with
        | false => rfl
        | true => exact absurd ⟨a, by omega, hj⟩ (hmin j c)
      have hcall := find_next_found (with_fo b f) (g1 f) hb i h1 h2 h3 h4
      rw [with_fo_with_fo] at hcall
      have hl := filter_range_first (bitAt b) b.bm_bits (i - f) f i (by omega) h2 h3 h4
      have hrec := ih (i + 1)
      unfold find_calls
      rw [hcall]
      simp only [Option.bind_eq_bind, Option.some_bind]
      cases hc : find_calls k (with_fo b (i + 1)) with
      | none => rw [hc] at hrec; cases hrec
      | some r =>
        rw [hc] at hrec
        simp only [Option.map_some',  Option.some.injEq] at hrec
        simp only [Option.some_bind, Option.map_some',  hrec, hl, List.getD_cons_zero,
          List.getD_cons_succ]
    · have hnone : ∀ j, f ≤ j → j < b.bm_bits → bitAt b j = false := by
        intro j a c
        cases hj : bitAt b j with
        | false => rfl
        | true => exact absurd ⟨j, a, c, hj⟩ hex
      obtain ⟨f1, hf1, hcall⟩ := find_next_none (with_fo b f) (g1 f) hb hnone
      have hf : (with_fo b f).bm_fo = f := rfl
      rw [hf] at hf1
      rw [with_fo_with_fo] at hcall
      have hl := filter_range_none (bitAt b) f b.bm_bits hnone
      have hl1 := filter_range_none (bitAt b) f1 b.bm_bits (fun j a c => hnone j (by omega) c)
      have hrec := ih f1
      unfold find_calls
      rw [hcall]
      simp only [Option.bind_eq_bind, Option.some_bind]
      cases hc : find_calls k (with_fo b f1) with
      | none => rw [hc] at hrec; cases hrec
      | some r =>
        rw [hc] at hrec
        simp only [Option.map_some',  Option.some.injEq] at hrec
        simp only [Option.some_bind, Option.map_some',  hrec, hl, hl1, List.getD_nil]

/-- C24. Resumable scan: for a bitmap whose page array, if there is one,
has room for its `bm_words` words, and for every find offset (`bm_fo <= bm_bits`
included), `drbd_bm_find_next` returns the smallest set bit `i` with `bm_fo <= i < bm_bits`
and moves the find offset to `i + 1`, or returns `-1UL` if no such bit is set;
and the `n` calls that follow `drbd_bm_reset_find` return the set bits below
`bm_bits` in increasing order, each once, and `-1UL` from then on.  Nothing is
assumed about the data stored beyond `bm_bits`. -/
theorem resumable_scan (b : drbd_bitmap) (g : b.bm_pages.isSome = true → bm_geom b)
    (hb : b.bm_bits + 32768 ≤ ULONG_MOD) :
    (∀ i, b.bm_fo ≤ i → i < b.bm_bits → bitAt b i = true →
      (∀ j, b.bm_fo ≤ j → j < i → bitAt b j = false) →
      drbd_bm_find_next b = some (i, { b with bm_fo := i + 1 })) ∧
    ((∀ j, b.bm_fo ≤ j → j < b.bm_bits → bitAt b j = false) →
      ∃ b1, drbd_bm_find_next b = some (ULONG_MAX, b1)) ∧
    (∀ n, (find_calls n (drbd_bm_reset_find b)).map Prod.fst
      = some ((List.range n).map (fun k => (set_bits b).getD k ULONG_MAX))) ∧
    (∀ k, k + 1 < (set_bits b).length →
      (set_bits b).getD k ULONG_MAX < (set_bits b).getD (k + 1) ULONG_MAX) ∧
    (∀ i, i ∈ set_bits b ↔ i < b.bm_bits ∧ bitAt b i = true) := by
  refine ⟨fun i h1 h2 h3 h4 => find_next_found b g hb i h1 h2 h3 h4, ?_, ?_, ?_, ?_⟩
  · intro h
    obtain ⟨f1, _, hc⟩ := find_next_none b g hb h
    exact ⟨_, hc⟩
  · intro n
    have h := find_calls_from b g hb n 0
    rw [Nat.sub_zero, ← List.range_eq_range'] at h
    exact h
  · intro k hk
    have hs : (set_bits b).Sorted (· < ·) := by
      unfold set_bits
      exact List.Sorted.filter _ (List.sorted_lt_range _)
    have h1 : k < (set_bits b).length := by omega
    rw [List.getD_eq_getElem _ _ h1, List.getD_eq_getElem _ _ hk]
    exact List.Sorted.rel_get_of_lt hs (by
      show (⟨k, h1⟩ : Fin _) < ⟨k + 1, hk⟩
      exact Nat.lt_succ_self k)
  · intro i
    unfold set_bits
    rw [List.mem_filter, List.mem_range]

/-- C24 at the small sample bitmap, whose set bits are 0, 1, 2 and 71 to 99:
the four calls after a reset return 0, 1, 2 and 71. -/
theorem resumable_scan_witness :
    (small_bitmap.bm_pages.isSome = true → bm_geom small_bitmap) ∧
    small_bitmap.bm_bits + 32768 ≤ ULONG_MOD ∧
    (find_calls 4 (drbd_bm_reset_find small_bitmap)).map Prod.fst
      = some ((List.range 4).map (fun k => (set_bits small_bitmap).getD k ULONG_MAX)) :=
  ⟨fun h => inv_geom small_bitmap small_inv h, by decide,
   (resumable_scan small_bitmap (fun h => inv_geom small_bitmap small_inv h) (by decide)).2.2.1 4⟩

/-! ### The find offset after a failed search -/

/-- A search that starts below `bm_bits`, finds the rest of the page of the
find offset clear and has no further page to look at returns `-1UL` and leaves
the find offset at the end of that page. -/
theorem find_next_page_end (b : drbd_bitmap) (g : bm_geom b)
    (hb : b.bm_bits + 32768 ≤ ULONG_MOD) (hfo : b.bm_fo < b.bm_bits)
    (hclear : ∀ j, b.bm_fo ≤ j → j < b.bm_fo / 32768 * 32768 + 32768 → bitAt b j = false)
    (hend : b.bm_bits ≤ b.bm_fo / 32768 * 32768 + 32768) :
    drbd_bm_find_next b = some (ULONG_MAX, with_fo b (b.bm_fo / 32768 * 32768 + 32768)) := by
  have hp := g.pages
  unfold drbd_bm_find_next
  rw [isNone_of_isSome b hp, if_neg Bool.false_ne_true, if_neg (by omega)]
  have e : b.bm_bits - b.bm_fo + 1 = (b.bm_bits - b.bm_fo - 1 + 1) + 1 := by omega
  rw [e]
  obtain ⟨r, r1, r2, r3, r4, hloop⟩ :=
    bm_find_round b hp (geom_room_bits b g) hb hfo (b.bm_bits - b.bm_fo - 1 + 1)
  have hr : ¬ r < 32768 := by
    intro hlt
    have h1 := r4 hlt
    have h2 := hclear (b.bm_fo / 32768 * 32768 + r) (by omega) (by omega)
    rw [h1] at h2
    cases h2
  rw [hloop, if_neg hr, bm_find_loop]
  have hn : ¬ ((with_fo b (b.bm_fo / 32768 * 32768 + 32768)).bm_fo
      < (with_fo b (b.bm_fo / 32768 * 32768 + 32768)).bm_bits) := by
    show ¬ (b.bm_fo / 32768 * 32768 + 32768 < b.bm_bits)
    omega
  rw [if_neg hn]

theorem clear_bitmap_bits (j : Nat) : bitAt clear_bitmap j = false := Nat.zero_testBit _

theorem clear_bitmap_inv : bm_inv clear_bitmap := by
  refine ⟨?_, ?_, ?_, ?_, ⟨?_, ?_⟩, ?_, ?_⟩
  · intro h; cases h
  · intro _; decide
  · decide
  · decide
  · intro h; cases h
  · intro h; cases h
  · exact fun i _ _ => clear_bitmap_bits i
  · exact (countBits_false (fun i _ => clear_bitmap_bits i)).symm

theorem page_bitmap_bits (j : Nat) (hj : j < 32768) : bitAt page_bitmap j = false := by
  have e : j / BITS_PER_LONG / LWPP = 0 := by
    have e1 : BITS_PER_LONG = 64 := rfl
    have e2 : LWPP = 512 := LWPP_eq
    rw [e1, e2]
    omega
  show (if j / BITS_PER_LONG / LWPP = 0 then 0 else 0xdeadbeef).testBit (j % BITS_PER_LONG) = false
  rw [if_pos e]
  exact Nat.zero_testBit _

/-- C30. A failed scan does not leave the cursor alone.  On the bitmap of
an 800-sector device with no bit set and the find offset at 0,
`drbd_bm_find_next` returns `-1UL` and leaves `bm_fo` at 32768, beyond
`bm_bits = 100`, so that the next call takes the branch that reports
`bm_fo > bm_bits`; on the all-clear bitmap of a 262144-sector device with the
find offset at 5 it returns `-1UL` and leaves `bm_fo` at 32768. -/
theorem failed_scan_moves_cursor :
    (bm_inv clear_bitmap ∧ clear_bitmap.bm_fo = 0 ∧ clear_bitmap.bm_bits = 100 ∧
      drbd_bm_find_next clear_bitmap = some (ULONG_MAX, { clear_bitmap with bm_fo := 32768 }) ∧
      drbd_bm_find_next { clear_bitmap with bm_fo := 32768 }
        = some (ULONG_MAX, { clear_bitmap with bm_fo := 32768 })) ∧
    (page_bitmap.bm_fo = 5 ∧ page_bitmap.bm_bits = 32768 ∧
      drbd_bm_find_next page_bitmap = some (ULONG_MAX, { page_bitmap with bm_fo := 32768 })) := by
  refine ⟨⟨clear_bitmap_inv, rfl, rfl, ?_, rfl⟩, rfl, rfl, ?_⟩
  · exact find_next_page_end clear_bitmap (inv_geom clear_bitmap clear_bitmap_inv rfl)
      (by decide) (by decide) (fun j _ _ => clear_bitmap_bits j) (by decide)
  · exact find_next_page_end page_bitmap ⟨rfl, by decide, by decide⟩
      (by decide) (by decide) (fun j _ h => page_bitmap_bits j h) (by decide)

set_option maxRecDepth 100000 in
theorem small_set_bits_head : (List.range 4).map (fun k => (set_bits small_bitmap).getD k ULONG_MAX)
    = [0, 1, 2, 71] := by decide

/-! ### The disk state requested at attach -/

/-- C26 as stated fails: with `MDF_Consistent` and `MDF_WasUpToDate` set,
`MDF_PeerOutDated` clear and fencing policy `Resource`, a stand-alone device
whose state already has the peer disk `Outdated` requests `UpToDate`.  The
state of that device is one that the state sanitiser leaves as it is. -/
theorem attach_request_counterexample :
    attaching_mdev.state.conn ≠ Connected ∧
    drbd_md_test_flag attaching_mdev MDF_Consistent = true ∧
    drbd_md_test_flag attaching_mdev MDF_WasUpToDate = true ∧
    drbd_md_test_flag attaching_mdev MDF_PeerOutDated = false ∧
    attaching_mdev.fencing ≠ DontCare ∧
    early_state_sanitising attaching_mdev attaching_mdev.state attaching_mdev.state
      = attaching_mdev.state ∧
    (drbd_nl_disk_conf_ns attaching_mdev).1.disk = UpToDate ∧
    ¬ ((drbd_nl_disk_conf_ns attaching_mdev).1.disk = UpToDate →
        drbd_md_test_flag attaching_mdev MDF_Consistent = true ∧
        drbd_md_test_flag attaching_mdev MDF_WasUpToDate = true ∧
        (drbd_md_test_flag attaching_mdev MDF_PeerOutDated = true ∨
          attaching_mdev.fencing = DontCare)) := by
  decide

/-- C26, amended.  For a device that is not `Connected`, the disk state that
`drbd_nl_disk_conf` requests is `Inconsistent` when `MDF_Consistent` is clear,
`Outdated` when `MDF_Consistent` is set and `MDF_WasUpToDate` is clear, and
otherwise `UpToDate` if the peer disk is `Outdated` (because `MDF_PeerOutDated`
is set or because the device state already says so) or the fencing policy is
`DontCare`, and `Consistent` if not. -/
theorem attach_request (mdev : drbd_conf) (hconn : mdev.state.conn ≠ Connected) :
    (drbd_nl_disk_conf_ns mdev).2 = mdev ∧
    (drbd_md_test_flag mdev MDF_Consistent = false →
      (drbd_nl_disk_conf_ns mdev).1.disk = Inconsistent) ∧
    (drbd_md_test_flag mdev MDF_Consistent = true →
      drbd_md_test_flag mdev MDF_WasUpToDate = false →
      (drbd_nl_disk_conf_ns mdev).1.disk = Outdated) ∧
    ((drbd_nl_disk_conf_ns mdev).1.disk = UpToDate ↔
      drbd_md_test_flag mdev MDF_Consistent = true ∧
      drbd_md_test_flag mdev MDF_WasUpToDate = true ∧
      (drbd_md_test_flag mdev MDF_PeerOutDated = true ∨ mdev.state.pdsk = Outdated ∨
        mdev.fencing = DontCare)) ∧
    (drbd_md_test_flag mdev MDF_Consistent = true →
      drbd_md_test_flag mdev MDF_WasUpToDate = true →
      (drbd_nl_disk_conf_ns mdev).1.disk ≠ UpToDate →
      (drbd_nl_disk_conf_ns mdev).1.disk = Consistent) := by
  unfold drbd_nl_disk_conf_ns
  simp only [if_neg hconn]
  have e1 : Inconsistent ≠ Consistent := by decide
  have e2 : Outdated ≠ Consistent := by decide
  have e3 : Inconsistent ≠ UpToDate := by decide
  have e4 : Outdated ≠ UpToDate := by decide
  have e5 : Consistent ≠ UpToDate := by decide
  cases hc : drbd_md_test_flag mdev MDF_Consistent <;>
    cases hw : drbd_md_test_flag mdev MDF_WasUpToDate <;>
    cases hpo : drbd_md_test_flag mdev MDF_PeerOutDated <;>
    by_cases hp : mdev.state.pdsk = 5 <;>
    by_cases hf : mdev.fencing = 0 <;>
    simp [hp, hf, e1, e2, e3, e4, e5]

/-- C26 at a device with all-zero meta-data: `Inconsistent` is requested. -/
theorem attach_request_witness :
    fresh_md_mdev.state.conn ≠ Connected ∧
    drbd_md_test_flag fresh_md_mdev MDF_Consistent = false ∧
    (drbd_nl_disk_conf_ns fresh_md_mdev).1.disk = Inconsistent :=
  ⟨by decide, by decide, (attach_request fresh_md_mdev (by decide)).2.1 (by decide)⟩

/-! ### Split-brain recovery with no primary -/

/-- C29. Zero-primary split-brain policies always decide: for the policies
`DiscardYoungerPri`, `DiscardOlderPri`, `DiscardLeastChg`, `DiscardLocal` and
`DiscardRemote`, `drbd_asb_recover_0p` returns -1 or 1, whatever the primary
bits, the change counts and `DISCARD_CONCURRENT` are; it returns -1 for
`DiscardLocal` and 1 for `DiscardRemote`; for `DiscardLeastChg` it returns -1
when the local change count is the smaller one, 1 when it is the larger one,
and on a tie -1 exactly when `DISCARD_CONCURRENT` is set. -/
theorem zero_primary_policies (mdev : drbd_conf) :
    (mdev.after_sb_0p = after_sb_handler.DiscardYoungerPri ∨
      mdev.after_sb_0p = after_sb_handler.DiscardOlderPri ∨
      mdev.after_sb_0p = after_sb_handler.DiscardLeastChg ∨
      mdev.after_sb_0p = after_sb_handler.DiscardLocal ∨
      mdev.after_sb_0p = after_sb_handler.DiscardRemote →
      (drbd_asb_recover_0p mdev = -1 ∨ drbd_asb_recover_0p mdev = 1) ∧
      drbd_asb_recover_0p mdev ≠ -100) ∧
    (mdev.after_sb_0p = after_sb_handler.DiscardLocal → drbd_asb_recover_0p mdev = -1) ∧
    (mdev.after_sb_0p = after_sb_handler.DiscardRemote → drbd_asb_recover_0p mdev = 1) ∧
    (mdev.after_sb_0p = after_sb_handler.DiscardLeastChg →
      (mdev.comm_bm_set < mdev.p_uuid UUID_SIZE → drbd_asb_recover_0p mdev = -1) ∧
      (mdev.comm_bm_set > mdev.p_uuid UUID_SIZE → drbd_asb_recover_0p mdev = 1) ∧
      (mdev.comm_bm_set = mdev.p_uuid UUID_SIZE →
        (drbd_asb_recover_0p mdev = -1 ↔ mdev.discard_concurrent = true) ∧
        (drbd_asb_recover_0p mdev = 1 ↔ mdev.discard_concurrent = false))) := by
  unfold drbd_asb_recover_0p
  refine ⟨?_, ?_, ?_, ?_⟩
  · intro h
    rcases h with h | h | h | h | h
    · simp only [h, reduceCtorEq, if_false]
      split_ifs <;> decide
    · simp only [h, reduceCtorEq, if_false]
      split_ifs <;> decide
    · simp only [h]
      split_ifs <;> decide
    · simp only [h]
      decide
    · simp only [h]
      decide
  · intro h
    simp only [h]
  · intro h
    simp only [h]
  · intro h
    simp only [h]
    refine ⟨?_, ?_, ?_⟩
    · intro hlt
      rw [if_pos hlt]
    · intro hgt
      rw [if_neg (by omega), if_pos hgt]
    · intro heq
      rw [if_neg (by omega), if_neg (by omega)]
      cases mdev.discard_concurrent <;> simp

/-- C29 at a device with the policy `DiscardLeastChg` and fewer changes than
the peer: the local data is discarded. -/
theorem zero_primary_policies_witness :
    least_chg_mdev.after_sb_0p = after_sb_handler.DiscardLeastChg ∧
    least_chg_mdev.comm_bm_set < least_chg_mdev.p_uuid UUID_SIZE ∧
    drbd_asb_recover_0p least_chg_mdev = -1 :=
  ⟨rfl, by decide, ((zero_primary_policies least_chg_mdev).2.2.2 rfl).1 (by decide)⟩

/-! ### Role changes -/

/-- The request to become primary next to a primary peer, with
`two_primaries` off, is refused by `drbd_req_state` before the peer is asked,
and it is not `SS_InTransientState`, on which `_drbd_request_state` waits. -/
theorem request_two_primaries :
    cl_wide_st_chg sample_mdev sample_mdev.state
      (apply_mask sample_mdev.state { state_zero with role := 3 }
        { state_zero with role := Primary }) = true ∧
    is_valid_state sample_mdev (apply_mask sample_mdev.state { state_zero with role := 3 }
        { state_zero with role := Primary }) = SS_TwoPrimaries ∧
    (∀ send_ok cond, (drbd_req_state sample_mdev { state_zero with role := 3 }
        { state_zero with role := Primary } ChgWaitComplete send_ok cond).1 = SS_TwoPrimaries) ∧
    SS_TwoPrimaries ≠ SS_InTransientState := by
  refine ⟨by decide, by decide, ?_, by decide⟩
  intro send_ok cond
  cases send_ok <;> rfl

/-- C27. A failed role change does have side effects.  On a
connected secondary whose peer is primary, with `two_primaries` off,
`drbd_set_role(mdev, Primary, 0)` has both its state requests refused with
`SS_TwoPrimaries` and returns that code, which is below `SS_Success`; all the
same it has made the virtual disk writable, set the lowest bit of the current
UUID and sent the state to the peer. -/
theorem failed_role_change_side_effects :
    (drbd_set_role request_now (fun _ => 0) 0 sample_mdev Primary false).1 = SS_TwoPrimaries ∧
    SS_TwoPrimaries < SS_Success ∧
    (drbd_set_role request_now (fun _ => 0) 0 sample_mdev Primary false).2.state
      = sample_mdev.state ∧
    sample_mdev.disk_ro = true ∧
    (drbd_set_role request_now (fun _ => 0) 0 sample_mdev Primary false).2.disk_ro = false ∧
    sample_mdev.md_uuid Current = 4 ∧
    (drbd_set_role request_now (fun _ => 0) 0 sample_mdev Primary false).2.md_uuid Current = 5 ∧
    (drbd_set_role request_now (fun _ => 0) 0 sample_mdev Primary false).2.states_sent
      = sample_mdev.states_sent + 1 := by
  decide

/-! ### The sync handshake -/

/-- C28. An inconsistent node never becomes sync source: whatever the UUIDs,
the peer's role and disk state, the split-brain policies and the outcomes of
the calls made on the way are, `drbd_sync_handshake` returns `WFBitMapS` only
if the local disk state it decides on (`state.disk`, or `new_state_tmp.disk`
while `Negotiating`) is greater than `Inconsistent`; if that disk state is
`Inconsistent` or lower, the result is `WFBitMapT`, `Connected` or
`conn_mask`. -/
theorem inconsistent_never_source (rs : request_results) (helper : Nat → Nat) (random : Nat)
    (bitmap_io : Int) (mdev : drbd_conf) (peer_role peer_disk : Nat) :
    ((drbd_sync_handshake rs helper random bitmap_io mdev peer_role peer_disk).1 = WFBitMapS →
      sync_handshake_mydisk mdev > Inconsistent) ∧
    (sync_handshake_mydisk mdev ≤ Inconsistent →
      (drbd_sync_handshake rs helper random bitmap_io mdev peer_role peer_disk).1 = WFBitMapT ∨
      (drbd_sync_handshake rs helper random bitmap_io mdev peer_role peer_disk).1 = Connected ∨
      (drbd_sync_handshake rs helper random bitmap_io mdev peer_role peer_disk).1 = conn_mask) := by
  have e1 : conn_mask ≠ WFBitMapS := by decide
  have e2 : WFBitMapT ≠ WFBitMapS := by decide
  have e3 : Connected ≠ WFBitMapS := by decide
  unfold drbd_sync_handshake
  generalize sync_handshake_hg rs helper random mdev peer_role peer_disk = res
  generalize sync_handshake_mydisk mdev = mydisk
  constructor
  · intro h
    by_contra hle
    have hle1 : mydisk ≤ Inconsistent := by omega
    simp only [] at h
    split_ifs at h <;> first | exact e1 h | exact e2 h | exact e3 h | (exact absurd h (by simp_all))
  · intro hle
    simp only []
    split_ifs <;> simp_all

/-- C28 at a device with an inconsistent disk and a peer with an up-to-date
disk: the node becomes sync target. -/
theorem inconsistent_never_source_witness :
    sync_handshake_mydisk inconsistent_mdev ≤ Inconsistent ∧
    (drbd_sync_handshake request_now (fun _ => 0) 0 0 inconsistent_mdev Primary UpToDate).1
      = WFBitMapT ∧
    ((drbd_sync_handshake request_now (fun _ => 0) 0 0 inconsistent_mdev Primary UpToDate).1
        = WFBitMapT ∨
      (drbd_sync_handshake request_now (fun _ => 0) 0 0 inconsistent_mdev Primary UpToDate).1
        = Connected ∨
      (drbd_sync_handshake request_now (fun _ => 0) 0 0 inconsistent_mdev Primary UpToDate).1
        = conn_mask) :=
  ⟨by decide, by decide,
   (inconsistent_never_source request_now (fun _ => 0) 0 0 inconsistent_mdev Primary UpToDate).2
     (by decide)⟩

/-! ### The rounds of the loop of `drbd_set_role` -/

theorem try_outdate_peer_tries (rs : request_results) (helper : Nat → Nat) (s : set_role_vars) :
    (drbd_try_outdate_peer rs helper s).2.tries = s.tries := by
  unfold drbd_try_outdate_peer
  simp only []
  split_ifs <;> rfl

/-- A round of the loop of `drbd_set_role` does not decrease `try`. -/
theorem set_role_round_tries (rs : request_results) (helper : Nat → Nat) (force : Bool)
    (s : set_role_vars) (h : 1 ≤ s.tries) :
    s.tries ≤ (set_role_round rs helper force s).1.tries := by
  have e4 : max_tries = 4 := rfl
  have ht := try_outdate_peer_tries rs helper (set_role_request rs s s.mask s.val ChgWaitComplete)
  have ht0 : (set_role_request rs s s.mask s.val ChgWaitComplete).tries = s.tries := rfl
  unfold set_role_round
  simp only []
  split_ifs <;> simp only [ht, ht0] <;> first | exact Nat.le_refl _ | omega

/-- The bound on the rounds of the loop of `drbd_set_role` is never reached:
one evaluation of the condition more changes nothing. -/
theorem set_role_loop_fuel (rs : request_results) (helper : Nat → Nat) (force : Bool) :
    ∀ (f : Nat) (s : set_role_vars), max_tries ≤ s.tries + f →
      set_role_loop rs helper force (f + 2) s = set_role_loop rs helper force (f + 1) s := by
  intro f
  induction f with
  | zero =>
    intro s h
    have hn : ¬ s.tries < max_tries := by omega
    rw [set_role_loop, if_neg hn, set_role_loop, if_neg hn]
  | succ k ih =>
    intro s h
    by_cases hlt : s.tries < max_tries
    · rw [set_role_loop, if_pos hlt]
      conv => rhs; rw [set_role_loop, if_pos hlt]
      have ht := set_role_round_tries rs helper force { s with tries := s.tries + 1 }
        (Nat.le_add_left _ _)
      have ht1 : ({ s with tries := s.tries + 1 } : set_role_vars).tries = s.tries + 1 := rfl
      rw [ht1] at ht
      simp only []
      cases hr : (set_role_round rs helper force { s with tries := s.tries + 1 }).2 with
      | again => exact ih _ (by omega)
      | fail => rfl
      | leave => rfl
    · rw [set_role_loop, if_neg hlt, set_role_loop, if_neg hlt]

/-! ### Calls that change `2^31` bits or more -/

theorem drbd_bm_test_bit_geom (b : drbd_bitmap) (g : bm_geom b) (i : Nat) (hi : i < b.bm_bits) :
    drbd_bm_test_bit b i = some (if bitAt b i then 1 else 0) := by
  have hp := g.pages
  have hroom := g.room
  have hw := g.words
  have hnone : b.bm_pages.isNone = false := by
    cases hb : b.bm_pages with
    | none => rw [hb] at hp; cases hp
    | some _ => rfl
  have hmap := map_paddr_eq b (i / 64) hp (by omega)
  unfold drbd_bm_test_bit
  simp only [hnone, Bool.false_eq_true, if_false, hi, if_true, shr_bpl, hmap, Option.bind_eq_bind,
    bind_some_eq, test_bit_eq b i hp]

theorem bm_popcount_geom (b : drbd_bitmap) (g : bm_geom b) :
    bm_popcount b = countBits (bitAt b) b.bm_bits := by
  unfold bm_popcount
  show countBits (fun i => decide (drbd_bm_test_bit b i = some 1)) b.bm_bits = _
  apply countBits_congr
  intro i hi
  rw [drbd_bm_test_bit_geom b g i hi]
  cases bitAt b i <;> simp

theorem huge_bits : BM_SECT_TO_BIT (ALIGN 34359738368 BM_SECT_PER_BIT) = 4294967296 := by
  decide

theorem int_wrap_all : int_wrap (-4294967296) = 0 := by decide

/-- C1, as stated, fails: the bitmap of a device of `2^35` sectors is
allocated, which sets its `2^32` bits, and `drbd_bm_clear_bits(0, 2^32 - 1)`
clears them all.  The `int` count of the bits changed has wrapped to 0, so
`bm_set` stays `2^32` although no bit is set any more. -/
theorem bitmap_count_invariant_counterexample :
    (bm_run drbd_bm_init huge_ops).map (fun b => (drbd_bm_total_weight b, bm_popcount b))
      = some (4294967296, 0) := by
  obtain ⟨c, hres, r⟩ := resize_grow drbd_bm_init inv_init 34359738368 (by decide) (by decide)
    (some (fun _ _ => 0)) (Or.inl rfl) (by decide)
  rw [huge_bits] at r
  have invc : bm_inv c := by
    have r1 : resized drbd_bm_init c 34359738368
        (BM_SECT_TO_BIT (ALIGN 34359738368 BM_SECT_PER_BIT)) := by rw [huge_bits]; exact r
    exact resized_inv (by decide) r1
  have hbits : c.bm_bits = 4294967296 := r.bm_bits
  have hall : ∀ i, i < 4294967296 → bitAt c i = true := by
    intro i hi
    rw [r.kept i hi]
    exact if_neg (Nat.not_lt_zero i)
  have hcset : c.bm_set = 4294967296 := by
    rw [r.count]
    exact countBits_true hall
  obtain ⟨b1, d, hcall, hd, hsf, hbit, _, hset⟩ :=
    change_bits_eq c invc 0 4294967295 false (by decide) (by rw [hbits]; decide)
  rw [if_neg Bool.false_ne_true] at hd
  have hcount : countBits (fun j => bitAt c (0 + j)) (4294967295 + 1 - 0) = 4294967296 :=
    countBits_true (fun i hi => by rw [Nat.zero_add]; exact hall i hi)
  rw [hcount] at hd
  have hd1 : d = -4294967296 := by rw [hd]; rfl
  rw [hd1, int_wrap_all] at hcall hset
  have hb1bits : b1.bm_bits = 4294967296 := by
    have h : b1.bm_bits = c.bm_bits := hsf.bits
    rw [h, hbits]
  have g1 : bm_geom b1 := by
    have hp : b1.bm_pages.isSome = c.bm_pages.isSome := hsf.pages
    have hw : b1.bm_words = c.bm_words := hsf.words
    have hn : b1.bm_number_of_pages = c.bm_number_of_pages := hsf.number_of_pages
    have hb : b1.bm_bits = c.bm_bits := hsf.bits
    exact ⟨by rw [hp]; exact r.geom.pages, by rw [hw, hn]; exact r.geom.room,
      by rw [hw, hb]; exact r.geom.words⟩
  have hrun : bm_run drbd_bm_init huge_ops = some b1 := by
    have hlt : (34359738368 : Nat) < ULONG_MOD := by decide
    have hrange : (0 : Nat) ≤ 4294967295 ∧ 4294967295 < c.bm_bits := by
      rw [hbits]; exact ⟨by decide, by decide⟩
    simp only [huge_ops, bm_run, bm_apply, hlt, if_true, hres, Option.bind_eq_bind,
      Option.some_bind, hrange, and_self, drbd_bm_clear_bits, hcall, Option.map_some']
  rw [hrun]
  have hw1 : drbd_bm_total_weight b1 = 4294967296 := by
    unfold drbd_bm_total_weight
    have hp := g1.pages
    cases hpg : b1.bm_pages with
    | none => rw [hpg] at hp; cases hp
    | some _ =>
      show b1.bm_set = 4294967296
      rw [hset, hcset, ULONG_MOD_eq]
      rfl
  have hp1 : bm_popcount b1 = 0 := by
    rw [bm_popcount_geom b1 g1, hb1bits]
    apply countBits_false
    intro i hi
    rw [hbit i, if_pos ⟨Nat.zero_le _, by omega⟩]
  simp only [Option.map_some', hw1, hp1]

end Drbd
